import Mathlib

/-!
# randau: the sample generation engine of `src/main.c`

A shallow embedding of `main.c`: the synthesis core (random source, oscillator bank,
waveform generators, beat envelope, global clock, per-sample mixer and the per-sample driver
loop), the command line parser `parse_config` and the offline recorder
(`record_single_loop`, `record_all_loops`), followed by theorems about them.

Modelling conventions.

* The functions of `main.c` that compute with `float` are written once, over a number type
  `F` that provides the operations they use: decimal constants, the conversion of unsigned
  integers, `+`, `-`, `*`, `/`, unary minus, `<`, `≤`, and `fmod` through the class `Fmod`.
  Two kinds of number types instantiate them.
  - `f32` is the IEEE 754 binary32 format of the C type `float`: finite numbers, the two
    infinities and NaN.  Every operation rounds its exact result to the nearest binary32
    number, ties to even, and overflows to an infinity; comparisons with NaN are false.
    Each `float` operation of the source is taken to be evaluated in binary32
    (`FLT_EVAL_METHOD` 0, no contraction of products and sums).  What the code computes is
    stated at this type.
  - A linearly ordered field with a floor function (`ℚ`, `ℝ`), where every operation is
    exact.  Theorems at such a type describe the formulas of the code without rounding,
    infinities and NaN.
* The library functions `sin` and `exp` take and return `double`.  In `Env` they are
  functions on `F`: at `f32`, `sin x` stands for the value of `sin` at the `float` `x`
  after its conversion back to `float`, which is what `generate_wave` stores in `base`.
  Where the source continues in `double` before it converts (the envelope of
  `generate_beat`, the `WAVE` and `PULSE` cases of `generate_wave`), the instance at `f32`
  rounds after every operation.  No theorem at `f32` depends on the values of those
  branches: the theorems there concern the clock, the phases, the parser, oscillators of
  type `FLAT`, or assume only that the mixed sum is finite.
* The sign of a binary32 zero is not recorded.
* What `main.c` takes from outside the repository is collected in `Env`: `RAND_MAX` (stdlib.h),
  `MA_PI` (miniaudio.h), `sin` and `exp` (math.h).  Theorems at `ℝ` that need the real
  functions instantiate it with `Real.pi`, `Real.sin`, `Real.exp`; theorems at `f32` use the
  `float` constant `MA_PI_F` and hold for all functions `sin` and `exp`.
* The hidden state of `rand()` is `rng_t`: the sequence of values that `rand()` is going to
  return, and the number of calls made so far.
* A `context_t*` is an `Option (context_t F)`; `none` is the null pointer.  The oscillator
  array together with `oscillators_count` is the list of its first `oscillators_count` cells.
* `uint32_t` fields are `Nat`, `ra_bool` results are `Bool` (`1` is `true`), the `int`-valued
  oscillator type is `Int`.  The `size_t` arithmetic of the recorder is taken modulo `2 ^ 64`.
* `argv` is the list of its strings before the terminating null pointer, and `argc` is the
  length of that list.  The two conversions that `parse_config` asks of `sscanf` are the
  parameter `Scanf`; at `f32` the conversion `%f` may return an infinity or NaN, as it does
  for the strings `"inf"` and `"nan"`.
* The recording sink is the list of the frame blocks passed to
  `ma_encoder_write_pcm_frames`, in call order; the content of the local array `output` at
  function entry is a parameter.
-/

namespace Randau

/-! ## Data model -/

/-- Constants and functions that `main.c` uses from the C library and from miniaudio. -/
structure Env (F : Type) where
  RAND_MAX : Nat
  MA_PI : F
  sin : F → F
  exp : F → F

/-- State of the C library random generator: `draws k` is what the `k`-th call of `rand()`
returns, `pos` counts the calls made so far. -/
structure rng_t where
  draws : Nat → Nat
  pos : Nat

/-- The call `rand()`: its result and the generator afterwards. -/
def rand (g : rng_t) : Nat × rng_t :=
  (g.draws g.pos, { g with pos := g.pos + 1 })

/-- Enumerator `OSCILLATOR_TYPE_FLAT` of `oscillator_type_t`. -/
abbrev OSCILLATOR_TYPE_FLAT : Int := 0
/-- Enumerator `OSCILLATOR_TYPE_SAWTOOTH`. -/
abbrev OSCILLATOR_TYPE_SAWTOOTH : Int := 1
/-- Enumerator `OSCILLATOR_TYPE_NOISE`. -/
abbrev OSCILLATOR_TYPE_NOISE : Int := 2
/-- Enumerator `OSCILLATOR_TYPE_PULSE`. -/
abbrev OSCILLATOR_TYPE_PULSE : Int := 3
/-- Enumerator `OSCILLATOR_TYPE_BEAT`. -/
abbrev OSCILLATOR_TYPE_BEAT : Int := 4
/-- Enumerator `OSCILLATOR_TYPE_WAVE`. -/
abbrev OSCILLATOR_TYPE_WAVE : Int := 5
/-- Enumerator `OSCILLATOR_TYPE_MAX_ENUM`, the number of waveform variants. -/
abbrev OSCILLATOR_TYPE_MAX_ENUM : Int := 6

/-- Struct `oscillator_t`. -/
structure oscillator_t (F : Type) where
  phase : F
  freq : F
  amp : F
  bps : F
  type : Int

/-- Enum `sound_action_t`. -/
inductive sound_action_t where
  | SOUND_ACTION_ONLY_PLAY
  | SOUND_ACTION_PLAY_AND_RECORD
  | SOUND_ACTION_ONLY_RECORD
  deriving DecidableEq, Repr

/-- Struct `context_t`; `oscillators` holds cells `0 .. oscillators_count - 1` of the array. -/
structure context_t (F : Type) where
  sample_rate : Nat
  loop_count : Nat
  oscillators : List (oscillator_t F)
  duration_sec : F
  master_volume : F
  global_time : F
  min_freq : F
  max_freq : F
  min_bps : F
  max_bps : F
  min_amp : F
  max_amp : F
  sound_action : sound_action_t
  limited : Bool

/-! ## The C library function `fmod` -/

/-- The C library function `fmod` at the number type `F`. -/
class Fmod (F : Type) where
  fmod : F → F → F

section Exact

variable {F : Type} [LinearOrderedField F] [FloorRing F]

/-- C library function `fmod` (C99 7.12.10.1): `x - n * y`, where the integer `n` is the
quotient `x / y` rounded toward zero, so that the result has the sign of `x`. -/
def fmod (x y : F) : F :=
  x - y * (((if 0 ≤ x / y then ⌊x / y⌋ else ⌈x / y⌉ : Int)) : F)

/-- In exact arithmetic `fmod` is the function of C99 7.12.10.1. -/
instance : Fmod F := ⟨fmod⟩

end Exact

section Engine

variable {F : Type} [Zero F] [One F] [NatCast F] [OfScientific F] [Add F] [Sub F] [Mul F]
  [Div F] [Neg F] [LT F] [LE F] [∀ a b : F, Decidable (a < b)] [∀ a b : F, Decidable (a ≤ b)]
  [Fmod F]

/-! ## Random source and bank randomization -/

/-- Function `random_float_range` (main.c 102-106). -/
def random_float_range (E : Env F) (g : rng_t) (min max : F) : F × rng_t :=
  if min ≥ max then (min, g)
  else
    let r := rand g
    (min + ((r.1 : F) / (E.RAND_MAX : F)) * (max - min), r.2)

/-- Body of the `for` loop of `randomize_oscillators` (main.c 115-120) for one oscillator. -/
def randomize_one (E : Env F) (c : context_t F) (g : rng_t) (osc : oscillator_t F) :
    oscillator_t F × rng_t :=
  let t := rand g
  let f := random_float_range E t.2 c.min_freq c.max_freq
  let b := random_float_range E f.2 c.min_bps c.max_bps
  let a := random_float_range E b.2 c.min_amp c.max_amp
  ({ osc with type := ((t.1 : Int) % OSCILLATOR_TYPE_MAX_ENUM), freq := f.1, bps := b.1,
              amp := a.1, phase := 0 }, a.2)

/-- The `for` loop of `randomize_oscillators` (main.c 114-121) over the cells of the bank. -/
def randomize_loop (E : Env F) (c : context_t F) :
    rng_t → List (oscillator_t F) → List (oscillator_t F) × rng_t
  | g, [] => ([], g)
  | g, osc :: rest =>
    let o := randomize_one E c g osc
    let r := randomize_loop E c o.2 rest
    (o.1 :: r.1, r.2)

/-- Function `randomize_oscillators` (main.c 108-122). -/
def randomize_oscillators (E : Env F) (g : rng_t) :
    Option (context_t F) → rng_t × Option (context_t F)
  | none => (g, none)
  | some c =>
    let r := randomize_loop E c g c.oscillators
    (r.2, some { c with oscillators := r.1 })

/-! ## Waveform generators -/

/-- Constant `BEAT_AMP_SCALE` (main.c 124). -/
abbrev BEAT_AMP_SCALE (F : Type) [OfScientific F] : F := 7.5
/-- Constant `BEAT_ATTACK_SHARPNESS` (main.c 125). -/
abbrev BEAT_ATTACK_SHARPNESS (F : Type) [OfScientific F] : F := 8.0
/-- Constant `BEAT_DECAY_RATE` (main.c 126). -/
abbrev BEAT_DECAY_RATE (F : Type) [OfScientific F] : F := 5.0
/-- Constant `BEAT_SUSTAIN_LEVEL` (main.c 127). -/
abbrev BEAT_SUSTAIN_LEVEL (F : Type) [OfScientific F] : F := 0.3
/-- Constant `BEAT_RELEASE_TIME` (main.c 128). -/
abbrev BEAT_RELEASE_TIME (F : Type) [OfScientific F] : F := 0.4

/-- The local `phase` of `generate_beat` (main.c 135). -/
def beat_phase (global_time bps : F) : F :=
  Fmod.fmod (global_time * bps) 1.0

/-- The local `env` of `generate_beat` as a function of the local `phase` (main.c 137-148). -/
def beat_env (E : Env F) (phase : F) : F :=
  if phase < 0.1 then
    1.0 - E.exp (-phase * BEAT_ATTACK_SHARPNESS F)
  else if phase < BEAT_RELEASE_TIME F then
    BEAT_SUSTAIN_LEVEL F +
      (1.0 - BEAT_SUSTAIN_LEVEL F) *
      E.exp (-(phase - 0.1) * BEAT_DECAY_RATE F)
  else
    BEAT_SUSTAIN_LEVEL F *
      (1.0 - (phase - BEAT_RELEASE_TIME F) / (1.0 - BEAT_RELEASE_TIME F))

/-- The local `wave` of `generate_beat` as a function of the local `phase` (main.c 150). -/
def beat_wave (E : Env F) (phase : F) : F :=
  2.0 * E.exp (E.sin (2.0 * E.MA_PI * phase) - 1.0) - 1.0

/-- Function `generate_beat` (main.c 130-153). -/
def generate_beat (E : Env F) (ctx : Option (context_t F)) (base bps : F) : F :=
  match ctx with
  | none => 0.0
  | some c =>
    let phase := beat_phase c.global_time bps
    let env := beat_env E phase
    let wave := beat_wave E phase
    base * BEAT_AMP_SCALE F * wave * env

/-- Function `generate_wave` (main.c 155-180).  The local `base` is only read in the cases
in which the source has assigned it. -/
def generate_wave (E : Env F) (g : rng_t) (ctx : Option (context_t F)) (phase bps : F)
    (type : Int) : F × rng_t :=
  match ctx with
  | none => (0.0, g)
  | some c =>
    let base := E.sin phase
    if type = OSCILLATOR_TYPE_FLAT then (base, g)
    else if type = OSCILLATOR_TYPE_SAWTOOTH then (2.0 * (phase / (2 * E.MA_PI)) - 1.0, g)
    else if type = OSCILLATOR_TYPE_NOISE then random_float_range E g (-1.0) 1.0
    else if type = OSCILLATOR_TYPE_BEAT then (generate_beat E (some c) base bps, g)
    else if type = OSCILLATOR_TYPE_WAVE then
      (base * E.sin (c.global_time * E.MA_PI * bps), g)
    else if type = OSCILLATOR_TYPE_PULSE then
      (base * E.exp (E.sin (c.global_time * E.MA_PI * bps)) * E.exp (-1.0) * 2.0 - 1.0, g)
    else (0.0, g)

/-! ## Global clock -/

/-- Function `update_global_time` (main.c 182-194). -/
def update_global_time (E : Env F) (g : rng_t) :
    Option (context_t F) → Bool × rng_t × Option (context_t F)
  | none => (false, g, none)
  | some c =>
    let c1 := { c with global_time := c.global_time + 1.0 / (c.sample_rate : F) }
    if c1.global_time ≥ c1.duration_sec then
      let r := randomize_oscillators E g (some { c1 with global_time := 0.0 })
      (true, r.1, r.2)
    else (false, g, some c1)

/-! ## Per-sample mixer -/

/-- Phase of an oscillator after the advance and the conditional wrap of
`generate_next_sample` (main.c 205-207). -/
def advance_phase (E : Env F) (c : context_t F) (osc : oscillator_t F) : F :=
  let phase := osc.phase + 2.0 * E.MA_PI * osc.freq / (c.sample_rate : F)
  if phase ≥ 2.0 * E.MA_PI then phase - 2.0 * E.MA_PI else phase

/-- The `for` loop of `generate_next_sample` (main.c 203-210): the cells still to be visited,
the generator and the running `sample`; returns the visited cells, the generator and the
final `sample`. -/
def mix_loop (E : Env F) (c : context_t F) :
    rng_t → F → List (oscillator_t F) → List (oscillator_t F) × rng_t × F
  | g, sample, [] => ([], g, sample)
  | g, sample, osc :: rest =>
    let phase := advance_phase E c osc
    let w := generate_wave E g (some c) phase osc.bps osc.type
    let r := mix_loop E c w.2 (sample + c.master_volume * osc.amp * w.1) rest
    ({ osc with phase := phase } :: r.1, r.2.1, r.2.2)

/-- The local `envelope` of `generate_next_sample` (main.c 213-214). -/
def click_envelope (global_time duration_sec : F) : F :=
  (if global_time < 0.1 then global_time * 10.0 else 1.0) *
  (if duration_sec - global_time < 0.1 then (duration_sec - global_time) * 10.0 else 1.0)

/-- Function `generate_next_sample` (main.c 196-217): the returned sample, the generator and
the context afterwards. -/
def generate_next_sample (E : Env F) (g : rng_t) :
    Option (context_t F) → F × rng_t × Option (context_t F)
  | none => (0.0, g, none)
  | some c =>
    let r := mix_loop E c g 0.0 c.oscillators
    let envelope := click_envelope c.global_time c.duration_sec
    (r.2.2 * envelope * 0.15, r.2.1, some { c with oscillators := r.1 })

/-! ## Per-sample driver -/

/-- One iteration of the frame loop of `data_callback` (main.c 228-230), which is also the
body of the inner loop of `record_single_loop` (main.c 444-446): the sample, the result of
`update_global_time`, and the state afterwards. -/
def driver_step (E : Env F) (s : rng_t × Option (context_t F)) :
    (F × Bool) × rng_t × Option (context_t F) :=
  let a := generate_next_sample E s.1 s.2
  let b := update_global_time E a.2.1 a.2.2
  ((a.1, b.1), b.2.1, b.2.2)

/-- The frame loop of `data_callback` (main.c 227-231) run for `n` frames: the samples
written to `output`, each with the result of its `update_global_time` call (which
`data_callback` discards), and the state afterwards. -/
def driver_run (E : Env F) :
    Nat → rng_t × Option (context_t F) → List (F × Bool) × rng_t × Option (context_t F)
  | 0, s => ([], s)
  | n + 1, s =>
    let a := driver_step E s
    let r := driver_run E n a.2
    (a.1 :: r.1, r.2)

/-- Repeated calls of `randomize_oscillators`. -/
def randomize_times (E : Env F) :
    Nat → rng_t × Option (context_t F) → rng_t × Option (context_t F)
  | 0, s => s
  | n + 1, s => randomize_times E n (randomize_oscillators E s.1 s.2)

/-- Repeated calls of `generate_next_sample`, the returned samples discarded. -/
def generate_times (E : Env F) :
    Nat → rng_t × Option (context_t F) → rng_t × Option (context_t F)
  | 0, s => s
  | n + 1, s => generate_times E n (generate_next_sample E s.1 s.2).2

/-- The range test of `parse_config` (main.c 379, 386, 393): a `min`/`max` pair is rejected
exactly when `min > max`. -/
def range_accepted (min max : F) : Bool :=
  !(decide (min > max))

end Engine

section Exact

variable {F : Type} [LinearOrderedField F] [FloorRing F]

/-! ## Reference formulas of the specification -/

/-- The click-avoidance envelope in the words of the specification (section 4.6, step 3):
`min(1, globalTime / 0.1)` multiplied by `min(1, (cycleDuration - globalTime) / 0.1)`. -/
def click_envelope_spec (global_time duration_sec : F) : F :=
  min 1 (global_time / 0.1) * min 1 ((duration_sec - global_time) / 0.1)

/-- Reduction of `x` modulo a period `m`, as the specification means it for the phase
(section 4.6, step 1): the representative `x - m * ⌊x / m⌋` of `x` in `[0, m)`. -/
def reduce_mod (x m : F) : F :=
  x - m * ((⌊x / m⌋ : Int) : F)

end Exact

section Engine

variable {F : Type} [Zero F] [One F] [NatCast F] [OfScientific F] [Add F] [Sub F] [Mul F]
  [Div F] [Neg F] [LT F] [LE F] [∀ a b : F, Decidable (a < b)] [∀ a b : F, Decidable (a ≤ b)]
  [Fmod F]

/-! ## Configuration parsing -/

/-- Constant `OSCILLATORS_MAX_COUNT` (main.c 10). -/
abbrev OSCILLATORS_MAX_COUNT : Nat := 128
/-- Constant `DEFAULT_SAMPLE_RATE` (main.c 11). -/
abbrev DEFAULT_SAMPLE_RATE : Nat := 44100
/-- Constant `DEFAULT_DURATION_SEC` (main.c 12). -/
abbrev DEFAULT_DURATION_SEC (F : Type) [OfScientific F] : F := 7.0
/-- Constant `DEFAULT_OSCILLATORS` (main.c 13). -/
abbrev DEFAULT_OSCILLATORS : Nat := 7
/-- Constant `DEFAULT_MASTER_VOLUME` (main.c 14). -/
abbrev DEFAULT_MASTER_VOLUME (F : Type) [OfScientific F] : F := 0.15
/-- Constant `DEFAULT_MIN_FREQ` (main.c 15). -/
abbrev DEFAULT_MIN_FREQ (F : Type) [OfScientific F] : F := 110.0
/-- Constant `DEFAULT_MAX_FREQ` (main.c 16). -/
abbrev DEFAULT_MAX_FREQ (F : Type) [OfScientific F] : F := 440.0
/-- Constant `DEFAULT_MIN_BPS` (main.c 17). -/
abbrev DEFAULT_MIN_BPS (F : Type) [OfScientific F] : F := 0.1
/-- Constant `DEFAULT_MAX_BPS` (main.c 18). -/
abbrev DEFAULT_MAX_BPS (F : Type) [OfScientific F] : F := 10.0
/-- Constant `DEFAULT_MIN_AMP` (main.c 19). -/
abbrev DEFAULT_MIN_AMP (F : Type) [OfScientific F] : F := 0.1
/-- Constant `DEFAULT_MAX_AMP` (main.c 20). -/
abbrev DEFAULT_MAX_AMP (F : Type) [OfScientific F] : F := 1.0

/-- Struct `config_t` (main.c 54-70); `save_path` is `none` for the null pointer. -/
structure config_t (F : Type) where
  sample_rate : Nat
  oscillators : Nat
  loop_count : Nat
  master_volume : F
  duration_sec : F
  min_freq : F
  max_freq : F
  min_bps : F
  max_bps : F
  min_amp : F
  max_amp : F
  save_path : Option String
  sound_action : sound_action_t
  limited : Bool

/-- The conversions that `parse_config` asks of the C library function `sscanf`:
`scan_u s = some u` when `sscanf(s, "%u", &x)` returns `1` and stores `u`, and
`scan_f s = some v` when `sscanf(s, "%f", &x)` returns `1` and stores `v`; `none` when the
call does not return `1` (and stores nothing). -/
structure Scanf (F : Type) where
  scan_u : String → Option Nat
  scan_f : String → Option F

/-- The test `strstr(s, "..") != 0` on the characters of `s` (main.c 322, 333). -/
def has_dotdot : List Char → Bool
  | [] => false
  | c :: rest =>
    match rest with
    | [] => false
    | d :: _ => (c == '.' && d == '.') || has_dotdot rest

/-- The configuration that `parse_config` starts from (main.c 286-301). -/
def default_config (F : Type) [OfScientific F] : config_t F :=
  { master_volume := DEFAULT_MASTER_VOLUME F,
    min_freq := DEFAULT_MIN_FREQ F,
    max_freq := DEFAULT_MAX_FREQ F,
    min_bps := DEFAULT_MIN_BPS F,
    max_bps := DEFAULT_MAX_BPS F,
    min_amp := DEFAULT_MIN_AMP F,
    max_amp := DEFAULT_MAX_AMP F,
    sample_rate := DEFAULT_SAMPLE_RATE,
    duration_sec := DEFAULT_DURATION_SEC F,
    oscillators := DEFAULT_OSCILLATORS,
    save_path := none,
    sound_action := sound_action_t.SOUND_ACTION_ONLY_PLAY,
    loop_count := 1,
    limited := false }

/-- Branch `-S` / `--save-only` of the loop body of `parse_config` (main.c 319-327), with
`rest` the strings after the option.  In this and the following branch functions the flag
is `false` when the branch executes `return 0` (through `error_msg`), the configuration is
`*cfg` as the branch leaves it, and the number counts the `++argv` steps the branch has
made over the values of the option. -/
def opt_save_only (cfg : config_t F) (rest : List String) : Bool × config_t F × Nat :=
  match rest with
  | [] => (false, cfg, 0)
  | p :: _ =>
    if has_dotdot p.toList then (false, cfg, 1)
    else (true, { cfg with
      save_path := some p,
      sound_action := sound_action_t.SOUND_ACTION_ONLY_RECORD,
      limited := true }, 1)

/-- Branch `-s` / `--save` of the loop body of `parse_config` (main.c 330-337). -/
def opt_save (cfg : config_t F) (rest : List String) : Bool × config_t F × Nat :=
  match rest with
  | [] => (false, cfg, 0)
  | p :: _ =>
    if has_dotdot p.toList then (false, cfg, 1)
    else (true, { cfg with
      save_path := some p,
      sound_action := sound_action_t.SOUND_ACTION_PLAY_AND_RECORD }, 1)

/-- Branch `-r` / `--sample-rate` of the loop body of `parse_config` (main.c 340-345). -/
def opt_sample_rate (S : Scanf F) (cfg : config_t F) (rest : List String) :
    Bool × config_t F × Nat :=
  match rest with
  | [] => (false, cfg, 0)
  | v :: _ =>
    match S.scan_u v with
    | none => (false, cfg, 1)
    | some u =>
      if u = 0 then (false, cfg, 1)
      else (true, { cfg with sample_rate := u }, 1)

/-- Branch `-C` / `--loop-count` of the loop body of `parse_config` (main.c 348-355). -/
def opt_loop_count (S : Scanf F) (cfg : config_t F) (rest : List String) :
    Bool × config_t F × Nat :=
  match rest with
  | [] => (false, cfg, 0)
  | v :: _ =>
    match S.scan_u v with
    | none => (false, cfg, 1)
    | some u =>
      if u = 0 then (false, cfg, 1)
      else (true, { cfg with limited := true, loop_count := u }, 1)

/-- Branch `-c` / `--osclillators` of the loop body of `parse_config` (main.c 358-364). -/
def opt_oscillators (S : Scanf F) (cfg : config_t F) (rest : List String) :
    Bool × config_t F × Nat :=
  match rest with
  | [] => (false, cfg, 0)
  | v :: _ =>
    match S.scan_u v with
    | none => (false, cfg, 1)
    | some u =>
      if u = 0 ∨ u > OSCILLATORS_MAX_COUNT then (false, cfg, 1)
      else (true, { cfg with oscillators := u }, 1)

/-- Branch `-d` / `--duration` of the loop body of `parse_config` (main.c 367-373). -/
def opt_duration (S : Scanf F) (cfg : config_t F) (rest : List String) :
    Bool × config_t F × Nat :=
  match rest with
  | [] => (false, cfg, 0)
  | v :: _ =>
    match S.scan_f v with
    | none => (false, cfg, 1)
    | some f =>
      if f ≤ 0 then (false, cfg, 1)
      else (true, { cfg with duration_sec := f }, 1)

/-- Branch `-f` / `--freq-range` of the loop body of `parse_config` (main.c 376-380). -/
def opt_freq_range (S : Scanf F) (cfg : config_t F) (rest : List String) :
    Bool × config_t F × Nat :=
  match rest with
  | x :: y :: _ =>
    match S.scan_f x with
    | none => (false, cfg, 1)
    | some mn =>
      match S.scan_f y with
      | none => (false, { cfg with min_freq := mn }, 2)
      | some mx =>
        if mn > mx then (false, { cfg with min_freq := mn, max_freq := mx }, 2)
        else (true, { cfg with min_freq := mn, max_freq := mx }, 2)
  | _ => (false, cfg, 0)

/-- Branch `-b` / `--bps-range` of the loop body of `parse_config` (main.c 383-387). -/
def opt_bps_range (S : Scanf F) (cfg : config_t F) (rest : List String) :
    Bool × config_t F × Nat :=
  match rest with
  | x :: y :: _ =>
    match S.scan_f x with
    | none => (false, cfg, 1)
    | some mn =>
      match S.scan_f y with
      | none => (false, { cfg with min_bps := mn }, 2)
      | some mx =>
        if mn > mx then (false, { cfg with min_bps := mn, max_bps := mx }, 2)
        else (true, { cfg with min_bps := mn, max_bps := mx }, 2)
  | _ => (false, cfg, 0)

/-- Branch `-a` / `--amplitude-range` of the loop body of `parse_config`
(main.c 390-394). -/
def opt_amplitude_range (S : Scanf F) (cfg : config_t F) (rest : List String) :
    Bool × config_t F × Nat :=
  match rest with
  | x :: y :: _ =>
    match S.scan_f x with
    | none => (false, cfg, 1)
    | some mn =>
      match S.scan_f y with
      | none => (false, { cfg with min_amp := mn }, 2)
      | some mx =>
        if mn > mx then (false, { cfg with min_amp := mn, max_amp := mx }, 2)
        else (true, { cfg with min_amp := mn, max_amp := mx }, 2)
  | _ => (false, cfg, 0)

/-- Branch `-v` / `--volume` of the loop body of `parse_config` (main.c 397-400). -/
def opt_volume (S : Scanf F) (cfg : config_t F) (rest : List String) :
    Bool × config_t F × Nat :=
  match rest with
  | [] => (false, cfg, 0)
  | v :: _ =>
    match S.scan_f v with
    | none => (false, cfg, 1)
    | some f =>
      if f < 0 ∨ f > 1.0 then (false, cfg, 1)
      else (true, { cfg with master_volume := f }, 1)

/-- Body of the `while (*argv)` loop of `parse_config` (main.c 314-404) for the string `a`
at `*argv`, with `rest` the strings after it: the `strcmp` chain that selects the branch.
`-h` / `--help` prints the help text and returns `0`; an unknown string returns `0`. -/
def parse_option (S : Scanf F) (cfg : config_t F) (a : String) (rest : List String) :
    Bool × config_t F × Nat :=
  if a = "-h" ∨ a = "--help" then (false, cfg, 0)
  else if a = "-S" ∨ a = "--save-only" then opt_save_only cfg rest
  else if a = "-s" ∨ a = "--save" then opt_save cfg rest
  else if a = "-r" ∨ a = "--sample-rate" then opt_sample_rate S cfg rest
  else if a = "-C" ∨ a = "--loop-count" then opt_loop_count S cfg rest
  else if a = "-c" ∨ a = "--osclillators" then opt_oscillators S cfg rest
  else if a = "-d" ∨ a = "--duration" then opt_duration S cfg rest
  else if a = "-f" ∨ a = "--freq-range" then opt_freq_range S cfg rest
  else if a = "-b" ∨ a = "--bps-range" then opt_bps_range S cfg rest
  else if a = "-a" ∨ a = "--amplitude-range" then opt_amplitude_range S cfg rest
  else if a = "-v" ∨ a = "--volume" then opt_volume S cfg rest
  else (false, cfg, 0)

/-- The `while (*argv)` loop of `parse_config` (main.c 313-406) on the strings that are
still to be read: `(false, cfg)` when the loop body executes `return 0`, `(true, cfg)` when
the loop runs off the end of `argv`; `cfg` is the configuration as written so far. -/
def parse_args (S : Scanf F) (cfg : config_t F) (args : List String) : Bool × config_t F :=
  match args with
  | [] => (true, cfg)
  | a :: rest =>
    if (parse_option S cfg a rest).1 = true then
      parse_args S (parse_option S cfg a rest).2.1 (rest.drop (parse_option S cfg a rest).2.2)
    else (false, (parse_option S cfg a rest).2.1)
termination_by args.length
decreasing_by
  simp only [List.length_drop, List.length_cons]
  omega

/-- The strings that the loop of `parse_config` reads as options, in order: the values of
`*argv` at the head of the loop body (main.c 314), up to and including the one at which the
loop stops. -/
def options_read (S : Scanf F) (cfg : config_t F) (args : List String) : List String :=
  match args with
  | [] => []
  | a :: rest =>
    if (parse_option S cfg a rest).1 = true then
      a :: options_read S (parse_option S cfg a rest).2.1
        (rest.drop (parse_option S cfg a rest).2.2)
    else [a]
termination_by args.length
decreasing_by
  simp only [List.length_drop, List.length_cons]
  omega

/-- Function `parse_config` (main.c 277-412) for non-null `cfg` and `argv`: `argv` lists
the strings before the terminating null pointer and `argc` is their number.  The result is
the returned flag and the configuration left in `*cfg`. -/
def parse_config (S : Scanf F) (argv : List String) : Bool × config_t F :=
  if argv.length ≤ 1 then (true, default_config F)
  else
    let r := parse_args S (default_config F) argv.tail
    if r.1 = false then (false, r.2)
    else if r.2.sound_action = sound_action_t.SOUND_ACTION_ONLY_PLAY ∧ r.2.save_path.isSome then
      (false, r.2)
    else if r.2.limited = true ∧
        r.2.sound_action ≠ sound_action_t.SOUND_ACTION_ONLY_RECORD then
      (false, r.2)
    else (true, r.2)

/-- The option lines of the help text printed by `print_help` (main.c 246-256), each with
its short and its long form. -/
def help_options : List (String × String) :=
  [("-h", "--help"), ("-r", "--sample-rate"), ("-d", "--duration"), ("-c", "--oscillators"),
   ("-C", "--loop-count"), ("-s", "--save"), ("-S", "--save-only"), ("-v", "--volume"),
   ("-f", "--freq-range"), ("-a", "--amplitude-range"), ("-b", "--bps-range")]

/-- The configuration properties that the specification (section 6) asks of an accepted
configuration. -/
def config_valid (cfg : config_t F) : Prop :=
  0 < cfg.sample_rate ∧ 1 ≤ cfg.oscillators ∧ cfg.oscillators ≤ OSCILLATORS_MAX_COUNT ∧
  0 < cfg.duration_sec ∧ 0 ≤ cfg.master_volume ∧ cfg.master_volume ≤ 1 ∧
  1 ≤ cfg.loop_count ∧ cfg.min_freq ≤ cfg.max_freq ∧ cfg.min_bps ≤ cfg.max_bps ∧
  cfg.min_amp ≤ cfg.max_amp

/-- The ways in which one successful pass through the loop body of `parse_config` rewrites
the configuration, one constructor for each option branch. -/
inductive cfg_update (cfg : config_t F) : config_t F → Prop where
  | save_only (p : String) : cfg_update cfg { cfg with
      save_path := some p, sound_action := sound_action_t.SOUND_ACTION_ONLY_RECORD,
      limited := true }
  | save (p : String) : cfg_update cfg { cfg with
      save_path := some p, sound_action := sound_action_t.SOUND_ACTION_PLAY_AND_RECORD }
  | sample_rate (u : Nat) (h : u ≠ 0) : cfg_update cfg { cfg with sample_rate := u }
  | loop_count (u : Nat) (h : u ≠ 0) :
      cfg_update cfg { cfg with limited := true, loop_count := u }
  | oscillators (u : Nat) (h0 : u ≠ 0) (h1 : u ≤ OSCILLATORS_MAX_COUNT) :
      cfg_update cfg { cfg with oscillators := u }
  | duration (f : F) (h : 0 < f) : cfg_update cfg { cfg with duration_sec := f }
  | freq (mn mx : F) (h : mn ≤ mx) : cfg_update cfg { cfg with min_freq := mn, max_freq := mx }
  | bps (mn mx : F) (h : mn ≤ mx) : cfg_update cfg { cfg with min_bps := mn, max_bps := mx }
  | amp (mn mx : F) (h : mn ≤ mx) : cfg_update cfg { cfg with min_amp := mn, max_amp := mx }
  | volume (f : F) (h0 : 0 ≤ f) (h1 : f ≤ 1) : cfg_update cfg { cfg with master_volume := f }

end Engine

section Exact

variable {F : Type} [LinearOrderedField F] [FloorRing F]

/-! ## Offline recording -/

/-- Constant `RECORD_FRAME_SIZE` (main.c 9). -/
abbrev RECORD_FRAME_SIZE : Nat := 1024

/-- Macro `RANDAU_MIN` (main.c 22) on `size_t` values. -/
def RANDAU_MIN (x y : Nat) : Nat :=
  if x > y then y else x

/-- Number of values of the type `size_t`, taken to be 64 bits wide. -/
abbrev SIZE_T_RANGE : Nat := 2 ^ 64

/-- State of a recording run: the random source, the context pointer, the array
`float output[RECORD_FRAME_SIZE]` of `record_single_loop` (cell `i` is `output i`), and the
sink, which lists the frame blocks handed to `ma_encoder_write_pcm_frames` in call order.
The field `generated` is an observation that the program does not store: for each pass of
the `while` loop, the samples which `generate_next_sample` returned during that pass. -/
structure record_t (F : Type) where
  rng : rng_t
  ctx : Option (context_t F)
  output : Nat → F
  sink : List (List F)
  generated : List (List F)

/-- The initial value of `sample_rest` in `record_single_loop` (main.c 439): the product
of `duration_sec * 1000.0` converted to `size_t` and of `sample_rate`, in `size_t`
arithmetic, divided by `1000`. -/
def record_sample_count (c : context_t F) : Nat :=
  ((⌊c.duration_sec * 1000.0⌋.toNat % SIZE_T_RANGE) * c.sample_rate % SIZE_T_RANGE) / 1000

/-- The `for` loop of `record_single_loop` (main.c 443-447) with `n` iterations left at
index `i`: the state when the loop is left, by `break` or because `i` has reached
`current_samples`, and the samples generated on the way. -/
def record_for (E : Env F) :
    Nat → Nat → rng_t × Option (context_t F) × (Nat → F) →
      (rng_t × Option (context_t F) × (Nat → F)) × List F
  | 0, _, s => (s, [])
  | n + 1, i, s =>
    let a := generate_next_sample E s.1 s.2.1
    let out := Function.update s.2.2 i a.1
    let b := update_global_time E a.2.1 a.2.2
    if b.1 = true then ((b.2.1, b.2.2, out), [a.1])
    else
      let r := record_for E n (i + 1) (b.2.1, b.2.2, out)
      (r.1, a.1 :: r.2)

/-- The `while (sample_rest)` loop of `record_single_loop` (main.c 441-450). -/
def record_while (E : Env F) (sample_rest : Nat) (st : record_t F) : record_t F :=
  if _hz : sample_rest = 0 then st
  else
    record_while E (sample_rest - RANDAU_MIN RECORD_FRAME_SIZE sample_rest)
      { rng := (record_for E (RANDAU_MIN RECORD_FRAME_SIZE sample_rest) 0
          (st.rng, st.ctx, st.output)).1.1,
        ctx := (record_for E (RANDAU_MIN RECORD_FRAME_SIZE sample_rest) 0
          (st.rng, st.ctx, st.output)).1.2.1,
        output := (record_for E (RANDAU_MIN RECORD_FRAME_SIZE sample_rest) 0
          (st.rng, st.ctx, st.output)).1.2.2,
        sink := st.sink ++
          [(List.range (RANDAU_MIN RECORD_FRAME_SIZE sample_rest)).map
            (record_for E (RANDAU_MIN RECORD_FRAME_SIZE sample_rest) 0
              (st.rng, st.ctx, st.output)).1.2.2],
        generated := st.generated ++
          [(record_for E (RANDAU_MIN RECORD_FRAME_SIZE sample_rest) 0
            (st.rng, st.ctx, st.output)).2] }
termination_by sample_rest
decreasing_by
  unfold RANDAU_MIN RECORD_FRAME_SIZE
  split_ifs <;> omega

/-- Function `record_single_loop` (main.c 433-452); `buffer` is the indeterminate content
that the local array `output` has when the function is entered. -/
def record_single_loop (E : Env F) (buffer : Nat → F) (st : record_t F) : record_t F :=
  match st.ctx with
  | none => st
  | some c => record_while E (record_sample_count c) { st with output := buffer }

/-- The `for` loop of `record_all_loops` (main.c 479-481) with `n` iterations left at
index `i`; `buffers i` is the indeterminate content of `output` in call `i`. -/
def record_loops (E : Env F) (buffers : Nat → Nat → F) : Nat → Nat → record_t F → record_t F
  | 0, _, st => st
  | n + 1, i, st => record_loops E buffers n (i + 1) (record_single_loop E (buffers i) st)

/-- Function `record_all_loops` (main.c 474-482); `loop_count` is not written during the
loop, so the bound is read once. -/
def record_all_loops (E : Env F) (buffers : Nat → Nat → F) (st : record_t F) : record_t F :=
  match st.ctx with
  | none => st
  | some c => record_loops E buffers c.loop_count 0 st

/-- The number of frames of one recording loop in the words of the claim:
`floor(floor(duration_sec * 1000) * sample_rate / 1000)`. -/
def record_frames_spec (duration_sec : F) (sample_rate : Nat) : Nat :=
  ⌊((⌊duration_sec * 1000⌋₊ : F) * (sample_rate : F)) / 1000⌋₊

end Exact

/-! ## Binary32 arithmetic -/

/-- A value of the C type `float` in the IEEE 754 binary32 format: a finite number, an
infinity (`neg` is `true` for the negative one) or NaN.  The finite values that the
operations below produce are the binary32 numbers, `n * 2 ^ k` with `|n| < 2 ^ 24` and
`-149 ≤ k ≤ 104`.  The sign of a zero is not recorded: it can only be observed by dividing
by the zero, and every divisor in `main.c` is a positive constant or a converted unsigned
integer. -/
inductive f32 where
  | fin (q : ℚ)
  | inf (neg : Bool)
  | nan
  deriving DecidableEq

/-- The integer nearest to `x`, the even one of the two when `x` lies halfway. -/
def round_half_even (x : ℚ) : ℤ :=
  if x - ⌊x⌋ < 1 / 2 then ⌊x⌋
  else if 1 / 2 < x - ⌊x⌋ then ⌊x⌋ + 1
  else if ⌊x⌋ % 2 = 0 then ⌊x⌋ else ⌊x⌋ + 1

/-- The spacing of the binary32 numbers around `q`: `2 ^ (e - 23)` when
`2 ^ e ≤ |q| < 2 ^ (e + 1)` (24 significant bits), and `2 ^ (-149)` below `2 ^ (-126)`
(subnormal numbers). -/
def f32_quantum (q : ℚ) : ℚ :=
  2 ^ (max (Int.log 2 |q|) (-126) - 23)

/-- The multiple of the spacing around `q` that is nearest to `q`, the even multiple when
`q` lies halfway between two of them. -/
def f32_nearest (q : ℚ) : ℚ :=
  (round_half_even (q / f32_quantum q) : ℚ) * f32_quantum q

/-- Rounding of the exact result of an operation to binary32, in the default rounding mode
(to nearest, ties to even): the nearest multiple of the spacing, and an infinity with the
sign of `q` when that multiple has left the range of the format (magnitude `2 ^ 128` or
more). -/
def f32_round (q : ℚ) : f32 :=
  if 2 ^ 128 ≤ |f32_nearest q| then f32.inf (decide (q < 0)) else f32.fin (f32_nearest q)

/-- Unary minus of C on `float`. -/
def f32.neg : f32 → f32
  | f32.fin a => f32.fin (-a)
  | f32.inf s => f32.inf (!s)
  | f32.nan => f32.nan

/-- Addition of C on `float`. -/
def f32.add : f32 → f32 → f32
  | f32.fin a, f32.fin b => f32_round (a + b)
  | f32.fin _, f32.inf t => f32.inf t
  | f32.inf s, f32.fin _ => f32.inf s
  | f32.inf s, f32.inf t => if s = t then f32.inf s else f32.nan
  | f32.nan, _ => f32.nan
  | _, f32.nan => f32.nan

/-- Subtraction of C on `float`. -/
def f32.sub : f32 → f32 → f32
  | f32.fin a, f32.fin b => f32_round (a - b)
  | f32.fin _, f32.inf t => f32.inf (!t)
  | f32.inf s, f32.fin _ => f32.inf s
  | f32.inf s, f32.inf t => if s = t then f32.nan else f32.inf s
  | f32.nan, _ => f32.nan
  | _, f32.nan => f32.nan

/-- Multiplication of C on `float`. -/
def f32.mul : f32 → f32 → f32
  | f32.fin a, f32.fin b => f32_round (a * b)
  | f32.fin a, f32.inf t => if a = 0 then f32.nan else f32.inf (xor (decide (a < 0)) t)
  | f32.inf s, f32.fin b => if b = 0 then f32.nan else f32.inf (xor s (decide (b < 0)))
  | f32.inf s, f32.inf t => f32.inf (xor s t)
  | f32.nan, _ => f32.nan
  | _, f32.nan => f32.nan

/-- Division of C on `float`; a zero divisor is taken to be `+0`. -/
def f32.div : f32 → f32 → f32
  | f32.fin a, f32.fin b =>
    if b = 0 then (if a = 0 then f32.nan else f32.inf (decide (a < 0)))
    else f32_round (a / b)
  | f32.fin _, f32.inf _ => f32.fin 0
  | f32.inf s, f32.fin b => f32.inf (xor s (decide (b < 0)))
  | f32.inf _, f32.inf _ => f32.nan
  | f32.nan, _ => f32.nan
  | _, f32.nan => f32.nan

/-- Comparison `<` of C on `float`: false as soon as an operand is NaN. -/
def f32.blt : f32 → f32 → Bool
  | f32.fin a, f32.fin b => decide (a < b)
  | f32.fin _, f32.inf t => !t
  | f32.inf s, f32.fin _ => s
  | f32.inf s, f32.inf t => s && !t
  | f32.nan, _ => false
  | _, f32.nan => false

/-- Comparison `<=` of C on `float`: false as soon as an operand is NaN. -/
def f32.ble : f32 → f32 → Bool
  | f32.fin a, f32.fin b => decide (a ≤ b)
  | f32.fin _, f32.inf t => !t
  | f32.inf s, f32.fin _ => s
  | f32.inf s, f32.inf t => s || !t
  | f32.nan, _ => false
  | _, f32.nan => false

/-- The C library function `fmod` on `float` arguments (C99 7.12.10.1 and F.9.7.1): the
result is exact; it is NaN when `x` is infinite or `y` is zero, and `x` when `y` is
infinite.  The source calls the `double` function on `float` arguments and stores the
result in a `float`; both conversions are exact, since the value of `fmod` at two binary32
numbers is a binary32 number. -/
def f32.fmod : f32 → f32 → f32
  | f32.fin a, f32.fin b => if b = 0 then f32.nan else f32.fin (Randau.fmod a b)
  | f32.fin a, f32.inf _ => f32.fin a
  | f32.inf _, f32.fin _ => f32.nan
  | f32.inf _, f32.inf _ => f32.nan
  | f32.nan, _ => f32.nan
  | _, f32.nan => f32.nan

instance : Zero f32 := ⟨f32.fin 0⟩
instance : One f32 := ⟨f32.fin 1⟩
/-- Conversion of an unsigned integer to `float`. -/
instance : NatCast f32 := ⟨fun n => f32_round n⟩
/-- A decimal constant of type `float`. -/
instance : OfScientific f32 := ⟨fun m s e => f32_round (OfScientific.ofScientific m s e)⟩
instance : Neg f32 := ⟨f32.neg⟩
instance : Add f32 := ⟨f32.add⟩
instance : Sub f32 := ⟨f32.sub⟩
instance : Mul f32 := ⟨f32.mul⟩
instance : Div f32 := ⟨f32.div⟩
instance : LT f32 := ⟨fun a b => f32.blt a b = true⟩
instance : LE f32 := ⟨fun a b => f32.ble a b = true⟩
instance (a b : f32) : Decidable (a < b) := inferInstanceAs (Decidable (f32.blt a b = true))
instance (a b : f32) : Decidable (a ≤ b) := inferInstanceAs (Decidable (f32.ble a b = true))
instance : Fmod f32 := ⟨f32.fmod⟩

/-- The constant `MA_PI` of miniaudio.h, `3.14159265358979323846264f`. -/
def MA_PI_F : f32 := 3.14159265358979323846264

/-- The conversions of `sscanf` restricted to the strings `"nan"` and `"inf"`, which `%f`
converts to NaN and to the positive infinity (C99 7.20.1.3, 7.19.6.2); every other
string is not converted. -/
def special_scanf : Scanf f32 :=
  { scan_u := fun _ => none,
    scan_f := fun s =>
      if s = "nan" then some f32.nan else if s = "inf" then some (f32.inf false) else none }

/-- An environment for the examples at binary32 whose properties do not depend on the values
of `sin` and `exp`: `RAND_MAX = 32767`, the constant `MA_PI`, and the constant function `0`
in the place of both library functions. -/
def plain_env : Env f32 :=
  Env.mk 32767 MA_PI_F (fun _ => 0) (fun _ => 0)

/-! ## Sample inputs -/

/-- A random generator whose `rand()` returns `k` on every call. -/
def const_rng (k : Nat) : rng_t :=
  { draws := fun _ => k, pos := 0 }

/-- The context that `main` builds (main.c 494-510) from the default configuration of
`parse_config` (main.c 286-301), with the given bank contents and `global_time = 0`. -/
def default_context (F : Type) [Zero F] [OfScientific F] (bank : List (oscillator_t F)) :
    context_t F :=
  { sample_rate := 44100, loop_count := 1, oscillators := bank, duration_sec := 7.0,
    master_volume := 0.15, global_time := 0, min_freq := 110.0, max_freq := 440.0,
    min_bps := 0.1, max_bps := 10.0, min_amp := 0.1, max_amp := 1.0,
    sound_action := sound_action_t.SOUND_ACTION_ONLY_PLAY, limited := false }

/-- An oscillator cell with the given fields and phase `0`. -/
def osc_of (F : Type) [Zero F] (type : Int) (freq amp bps : F) :
    oscillator_t F :=
  { phase := 0, freq := freq, amp := amp, bps := bps, type := type }

/-- A scanner for the examples: `sscanf` restricted to the strings `"5"`, `"2"` and `"0"`
for `%u` and to `"1.6"` and `"0.5"` for `%f`; every other string is not converted. -/
def sample_scanf (F : Type) [OfScientific F] : Scanf F :=
  { scan_u := fun s =>
      if s = "5" then some 5 else if s = "2" then some 2 else if s = "0" then some 0 else none,
    scan_f := fun s =>
      if s = "1.6" then some 1.6 else if s = "0.5" then some 0.5 else none }

/-! ## Theorems -/

section Structure

set_option linter.unusedSectionVars false
set_option linter.unusedVariables false

variable {F : Type} [Zero F] [One F] [NatCast F] [OfScientific F] [Add F] [Sub F] [Mul F]
  [Div F] [Neg F] [LT F] [LE F] [∀ a b : F, Decidable (a < b)] [∀ a b : F, Decidable (a ≤ b)]
  [Fmod F]

/-! ### Structure of the functions, for every number type -/

theorem random_float_range_draws (E : Env F) (g : rng_t) (mn mx : F) :
    (random_float_range E g mn mx).2.draws = g.draws := by
  unfold random_float_range rand
  split_ifs <;> rfl

theorem random_float_range_of_ge (E : Env F) (g : rng_t) (mn mx : F) (h : mn ≥ mx) :
    random_float_range E g mn mx = (mn, g) := by
  unfold random_float_range
  rw [if_pos h]

theorem randomize_one_draws (E : Env F) (c : context_t F) (g : rng_t) (osc : oscillator_t F) :
    (randomize_one E c g osc).2.draws = g.draws := by
  simp [randomize_one, random_float_range_draws, rand]

theorem randomize_loop_length (E : Env F) (c : context_t F) (l : List (oscillator_t F)) :
    ∀ g : rng_t, (randomize_loop E c g l).1.length = l.length := by
  induction l with
  | nil => intro g; rfl
  | cons osc rest ih => intro g; simp [randomize_loop, ih]

theorem randomize_loop_forall (E : Env F) (c : context_t F) (P : oscillator_t F → Prop)
    (l : List (oscillator_t F)) :
    ∀ g : rng_t, (∀ g1 : rng_t, g1.draws = g.draws → ∀ o, P (randomize_one E c g1 o).1) →
      ∀ osc ∈ (randomize_loop E c g l).1, P osc := by
  induction l with
  | nil => intro g _ osc h; simp [randomize_loop] at h
  | cons o rest ih =>
    intro g hP osc h
    simp only [randomize_loop, List.mem_cons] at h
    rcases h with h | h
    · rw [h]; exact hP g rfl o
    · refine ih (randomize_one E c g o).2 ?_ osc h
      intro g1 hg1 o1
      exact hP g1 (hg1.trans (randomize_one_draws E c g o)) o1

theorem randomize_oscillators_some (E : Env F) (g : rng_t) (c : context_t F) :
    randomize_oscillators E g (some c) =
      ((randomize_loop E c g c.oscillators).2,
        some { c with oscillators := (randomize_loop E c g c.oscillators).1 }) := rfl

theorem randomize_times_succ (E : Env F) (n : Nat) :
    ∀ s : rng_t × Option (context_t F),
      randomize_times E (n + 1) s =
        randomize_oscillators E (randomize_times E n s).1 (randomize_times E n s).2 := by
  induction n with
  | zero => intro s; rfl
  | succ n ih =>
    intro s
    show randomize_times E (n + 1) (randomize_oscillators E s.1 s.2) = _
    rw [ih]
    rfl

theorem randomize_times_frame (E : Env F) (n : Nat) :
    ∀ (g : rng_t) (c : context_t F),
      ∃ g1 c1, randomize_times E n (g, some c) = (g1, some c1) ∧
        c1.min_freq = c.min_freq ∧ c1.max_freq = c.max_freq ∧
        c1.oscillators.length = c.oscillators.length := by
  induction n with
  | zero => intro g c; exact ⟨g, c, rfl, rfl, rfl, rfl⟩
  | succ n ih =>
    intro g c
    obtain ⟨g1, c1, h, h1, h2, h3⟩ := ih g c
    rw [randomize_times_succ, h]
    exact ⟨_, _, rfl, h1, h2, (randomize_loop_length E c1 c1.oscillators g1).trans h3⟩

theorem mix_loop_bank (E : Env F) (c : context_t F) (l : List (oscillator_t F)) :
    ∀ (g : rng_t) (s : F), (mix_loop E c g s l).1 =
      l.map (fun osc => { osc with phase := advance_phase E c osc }) := by
  induction l with
  | nil => intro g s; rfl
  | cons osc rest ih => intro g s; simp [mix_loop, ih]

theorem generate_next_sample_ctx (E : Env F) (g : rng_t) (c : context_t F) :
    (generate_next_sample E g (some c)).2.2 =
      some { c with oscillators :=
        c.oscillators.map (fun osc => { osc with phase := advance_phase E c osc }) } := by
  simp [generate_next_sample, mix_loop_bank]

theorem generate_next_sample_fst (E : Env F) (g : rng_t) (c : context_t F) :
    (generate_next_sample E g (some c)).1 =
      (mix_loop E c g 0.0 c.oscillators).2.2
        * click_envelope c.global_time c.duration_sec * 0.15 := rfl

theorem driver_run_succ_last (E : Env F) (n : Nat) :
    ∀ s : rng_t × Option (context_t F),
      driver_run E (n + 1) s =
        ((driver_run E n s).1 ++ [(driver_step E (driver_run E n s).2).1],
          (driver_step E (driver_run E n s).2).2) := by
  induction n with
  | zero => intro s; rfl
  | succ n ih =>
    intro s
    have h : driver_run E (n + 1 + 1) s =
        ((driver_step E s).1 :: (driver_run E (n + 1) (driver_step E s).2).1,
          (driver_run E (n + 1) (driver_step E s).2).2) := rfl
    rw [h, ih]
    rfl

theorem driver_run_length (E : Env F) (n : Nat) :
    ∀ s : rng_t × Option (context_t F), (driver_run E n s).1.length = n := by
  induction n with
  | zero => intro s; rfl
  | succ n ih => intro s; simp [driver_run, ih]

theorem parse_args_nil (S : Scanf F) (cfg : config_t F) : parse_args S cfg [] = (true, cfg) := by
  rw [parse_args]

theorem parse_args_cons (S : Scanf F) (cfg : config_t F) (a : String) (rest : List String) :
    parse_args S cfg (a :: rest) =
      if (parse_option S cfg a rest).1 = true then
        parse_args S (parse_option S cfg a rest).2.1 (rest.drop (parse_option S cfg a rest).2.2)
      else (false, (parse_option S cfg a rest).2.1) := by
  rw [parse_args]

theorem update_global_time_reset (E : Env F) (g : rng_t) (c : context_t F)
    (h : c.global_time + 1.0 / (c.sample_rate : F) ≥ c.duration_sec) :
    update_global_time E g (some c) =
      (true, randomize_oscillators E g (some { c with global_time := 0.0 })) := by
  simp only [update_global_time]
  rw [if_pos h]

theorem update_global_time_advance (E : Env F) (g : rng_t) (c : context_t F)
    (h : ¬ (c.global_time + 1.0 / (c.sample_rate : F) ≥ c.duration_sec)) :
    update_global_time E g (some c) =
      (false, g, some { c with global_time := c.global_time + 1.0 / (c.sample_rate : F) }) := by
  simp only [update_global_time]
  rw [if_neg h]

theorem advance_phase_eq (E : Env F) (c : context_t F) (osc : oscillator_t F) :
    advance_phase E c osc =
      if osc.phase + 2.0 * E.MA_PI * osc.freq / (c.sample_rate : F) ≥ 2.0 * E.MA_PI then
        osc.phase + 2.0 * E.MA_PI * osc.freq / (c.sample_rate : F) - 2.0 * E.MA_PI
      else osc.phase + 2.0 * E.MA_PI * osc.freq / (c.sample_rate : F) := rfl

theorem generate_times_succ_ctx (E : Env F) (n : Nat) (g : rng_t) (c : context_t F) :
    generate_times E (n + 1) (g, some c) =
      generate_times E n ((generate_next_sample E g (some c)).2.1,
        some { c with oscillators :=
          c.oscillators.map (fun osc => { osc with phase := advance_phase E c osc }) }) := by
  show generate_times E n (generate_next_sample E g (some c)).2 = _
  rw [← generate_next_sample_ctx]

theorem driver_step_advance (E : Env F) (g : rng_t) (c : context_t F)
    (h : ¬ (c.global_time + 1.0 / (c.sample_rate : F) ≥ c.duration_sec)) :
    driver_step E (g, some c) =
      (((generate_next_sample E g (some c)).1, false),
        (generate_next_sample E g (some c)).2.1,
        some { c with
          oscillators :=
            c.oscillators.map (fun osc => { osc with phase := advance_phase E c osc }),
          global_time := c.global_time + 1.0 / (c.sample_rate : F) }) := by
  simp only [driver_step]
  rw [generate_next_sample_ctx, update_global_time_advance E _
    { c with oscillators :=
        c.oscillators.map (fun osc => { osc with phase := advance_phase E c osc }) } h]

theorem driver_step_reset (E : Env F) (g : rng_t) (c : context_t F)
    (h : c.global_time + 1.0 / (c.sample_rate : F) ≥ c.duration_sec) :
    driver_step E (g, some c) =
      (((generate_next_sample E g (some c)).1, true),
        randomize_oscillators E (generate_next_sample E g (some c)).2.1
          (some { c with
            oscillators :=
              c.oscillators.map (fun osc => { osc with phase := advance_phase E c osc }),
            global_time := 0.0 })) := by
  simp only [driver_step]
  rw [generate_next_sample_ctx, update_global_time_reset E _
    { c with oscillators :=
        c.oscillators.map (fun osc => { osc with phase := advance_phase E c osc }) } h]

/-- A run of the driver in which no boundary falls: the clock is the iterated rounded sum,
every flag is `0`, and the bank keeps its cells up to their phases. -/
theorem driver_run_clock (E : Env F) (n : Nat) :
    ∀ (g : rng_t) (c : context_t F),
      (∀ k, k < n → ¬ ((fun t : F => t + 1.0 / (c.sample_rate : F))^[k + 1] c.global_time
        ≥ c.duration_sec)) →
      ∃ g1 bank, (driver_run E n (g, some c)).2 =
          (g1, some { c with
            oscillators := bank,
            global_time := (fun t : F => t + 1.0 / (c.sample_rate : F))^[n] c.global_time }) ∧
        (driver_run E n (g, some c)).1.map Prod.snd = List.replicate n false ∧
        bank.map (fun o => (o.freq, o.amp, o.bps, o.type))
          = c.oscillators.map (fun o => (o.freq, o.amp, o.bps, o.type)) := by
  induction n with
  | zero =>
    intro g c _
    exact ⟨g, c.oscillators, rfl, rfl, rfl⟩
  | succ n ih =>
    intro g c h
    obtain ⟨g1, bank, e1, e2, e3⟩ := ih g c (fun k hk => h k (by omega))
    have hn := h n (by omega)
    rw [Function.iterate_succ_apply'] at hn
    rw [driver_run_succ_last, e1, driver_step_advance E g1 _ hn]
    refine ⟨(generate_next_sample E g1 (some { c with
        oscillators := bank,
        global_time := (fun t : F => t + 1.0 / (c.sample_rate : F))^[n] c.global_time })).2.1,
      bank.map (fun osc => { osc with phase := advance_phase E { c with
        oscillators := bank,
        global_time := (fun t : F => t + 1.0 / (c.sample_rate : F))^[n] c.global_time } osc }),
      ?_, ?_, ?_⟩
    · rw [Function.iterate_succ_apply']
    · rw [List.map_append, e2, List.replicate_succ']
      rfl
    · rw [← e3, List.map_map]
      rfl

/-- A property of the oscillators that every phase advance preserves holds after any number
of `generate_next_sample` calls. -/
theorem generate_times_forall (E : Env F) (N : Nat) (P : oscillator_t F → Prop)
    (hP : ∀ (c : context_t F) (osc : oscillator_t F), c.sample_rate = N → P osc →
      P { osc with phase := advance_phase E c osc }) (n : Nat) :
    ∀ (g : rng_t) (c : context_t F), c.sample_rate = N → (∀ osc ∈ c.oscillators, P osc) →
      ∃ c1, (generate_times E n (g, some c)).2 = some c1 ∧
        c1.oscillators.length = c.oscillators.length ∧ ∀ osc ∈ c1.oscillators, P osc := by
  induction n with
  | zero =>
    intro g c _ h
    exact ⟨c, rfl, rfl, h⟩
  | succ n ih =>
    intro g c hsr h
    rw [generate_times_succ_ctx]
    obtain ⟨c1, h1, h2, h3⟩ := ih (generate_next_sample E g (some c)).2.1
      { c with oscillators :=
          c.oscillators.map (fun osc => { osc with phase := advance_phase E c osc }) } hsr
      (by
        intro osc hosc
        simp only [List.mem_map] at hosc
        obtain ⟨o, ho, rfl⟩ := hosc
        exact hP c o hsr (h o ho))
    refine ⟨c1, h1, ?_, h3⟩
    rw [h2]
    simp

/-- A property of the oscillators, indexed by the number of `generate_next_sample` calls made
so far, that every phase advance carries to the next index holds after `n` further calls. -/
theorem generate_times_indexed (E : Env F) (N : Nat) (P : Nat → oscillator_t F → Prop)
    (hP : ∀ (k : Nat) (c : context_t F) (osc : oscillator_t F), c.sample_rate = N → P k osc →
      P (k + 1) { osc with phase := advance_phase E c osc }) (n : Nat) :
    ∀ (k : Nat) (g : rng_t) (c : context_t F), c.sample_rate = N →
      (∀ osc ∈ c.oscillators, P k osc) →
      ∃ c1, (generate_times E n (g, some c)).2 = some c1 ∧
        c1.oscillators.length = c.oscillators.length ∧
        ∀ osc ∈ c1.oscillators, P (k + n) osc := by
  induction n with
  | zero =>
    intro k g c _ h
    exact ⟨c, rfl, rfl, h⟩
  | succ n ih =>
    intro k g c hsr h
    rw [generate_times_succ_ctx]
    obtain ⟨c1, h1, h2, h3⟩ := ih (k + 1) (generate_next_sample E g (some c)).2.1
      { c with oscillators :=
          c.oscillators.map (fun osc => { osc with phase := advance_phase E c osc }) } hsr
      (by
        intro osc hosc
        simp only [List.mem_map] at hosc
        obtain ⟨o, ho, rfl⟩ := hosc
        exact hP k c o hsr (h o ho))
    refine ⟨c1, h1, ?_, ?_⟩
    · rw [h2]
      simp
    · intro osc hosc
      have e : k + (n + 1) = k + 1 + n := by omega
      rw [e]
      exact h3 osc hosc

end Structure

section Theorems

set_option linter.unusedSectionVars false
set_option linter.unusedVariables false

variable {F : Type} [LinearOrderedField F] [FloorRing F]

/-! ### Random source and bank randomization -/

/-- Claim C2: `random_float_range min max` returns exactly `min`, without consuming the
random source, whenever `min ≥ max`; and if `min_freq = max_freq`, then after any positive
number of calls of `randomize_oscillators` every oscillator of the bank has `freq` equal to
that value, whatever the random source yields. -/
theorem degenerate_range (E : Env F) :
    (∀ (g : rng_t) (mn mx : F), mn ≥ mx → random_float_range E g mn mx = (mn, g)) ∧
    (∀ (n : Nat) (g : rng_t) (c : context_t F), c.min_freq = c.max_freq →
      ∃ c1, (randomize_times E (n + 1) (g, some c)).2 = some c1 ∧
        c1.oscillators.length = c.oscillators.length ∧
        ∀ osc ∈ c1.oscillators, osc.freq = c.min_freq) := by
  refine ⟨random_float_range_of_ge E, ?_⟩
  intro n g c hc
  obtain ⟨g1, c1, h, h1, h2, h3⟩ := randomize_times_frame E n g c
  rw [randomize_times_succ, h]
  refine ⟨_, rfl, (randomize_loop_length E c1 c1.oscillators g1).trans h3, ?_⟩
  intro osc hosc
  refine randomize_loop_forall E c1 (fun o => o.freq = c.min_freq) c1.oscillators g1 ?_
    osc hosc
  intro g2 _ o
  have hge : c1.min_freq ≥ c1.max_freq := by rw [h1, h2, hc]
  show (random_float_range E (rand g2).2 c1.min_freq c1.max_freq).1 = c.min_freq
  rw [random_float_range_of_ge E _ _ _ hge, h1]

/-- Witness for claim C2: the range `[5, 2]` and, for the bank, a context whose frequency
range is the single value `440`, randomized three times. -/
theorem degenerate_range_witness :
    ((5 : ℝ) ≥ 2 ∧
      random_float_range (Env.mk 32767 Real.pi Real.sin Real.exp) (const_rng 7) (5 : ℝ) 2
        = (5, const_rng 7)) ∧
    ((440 : ℝ) = 440 ∧
      ∃ c1, (randomize_times (Env.mk 32767 Real.pi Real.sin Real.exp) (2 + 1) (const_rng 7,
          some { default_context ℝ [osc_of ℝ 6 1 1 1] with
            min_freq := 440, max_freq := 440 })).2 = some c1 ∧
        c1.oscillators.length = 1 ∧
        ∀ osc ∈ c1.oscillators, osc.freq = 440) :=
  ⟨⟨by norm_num,
    (degenerate_range (Env.mk 32767 Real.pi Real.sin Real.exp)).1 (const_rng 7) 5 2
      (by norm_num)⟩,
   ⟨rfl, (degenerate_range (Env.mk 32767 Real.pi Real.sin Real.exp)).2 2 (const_rng 7)
      { default_context ℝ [osc_of ℝ 6 1 1 1] with min_freq := 440, max_freq := 440 } rfl⟩⟩

/-! ### Phase advance -/

theorem advance_phase_mem (E : Env F) (c : context_t F) (osc : oscillator_t F)
    (hpi : 0 < E.MA_PI) (hsr : 0 < c.sample_rate)
    (hp0 : 0 ≤ osc.phase) (hp1 : osc.phase < 2 * E.MA_PI)
    (hf0 : 0 ≤ osc.freq) (hf1 : osc.freq ≤ (c.sample_rate : F)) :
    0 ≤ advance_phase E c osc ∧ advance_phase E c osc < 2 * E.MA_PI := by
  have hsr1 : (0 : F) < (c.sample_rate : F) := by exact_mod_cast hsr
  have hinc0 : 0 ≤ 2 * E.MA_PI * osc.freq / (c.sample_rate : F) :=
    div_nonneg (mul_nonneg (by linarith) hf0) hsr1.le
  have hinc1 : 2 * E.MA_PI * osc.freq / (c.sample_rate : F) ≤ 2 * E.MA_PI := by
    rw [div_le_iff₀ hsr1]
    exact mul_le_mul_of_nonneg_left hf1 (by linarith)
  unfold advance_phase
  norm_num only
  split_ifs with h
  · constructor <;> linarith
  · constructor
    · linarith
    · exact lt_of_not_ge h

/-! ### Global clock -/

theorem update_global_time_boundary (E : Env F) (g : rng_t) (c : context_t F)
    (h : c.global_time + 1 / (c.sample_rate : F) ≥ c.duration_sec) :
    update_global_time E g (some c) =
      (true, randomize_oscillators E g (some { c with global_time := 0 })) := by
  have h1 : c.global_time + 1.0 / (c.sample_rate : F) ≥ c.duration_sec := by
    norm_num only; simpa using h
  simp only [update_global_time]
  rw [if_pos h1]
  norm_num only

theorem update_global_time_mid (E : Env F) (g : rng_t) (c : context_t F)
    (h : ¬ (c.global_time + 1 / (c.sample_rate : F) ≥ c.duration_sec)) :
    update_global_time E g (some c) =
      (false, g, some { c with global_time := c.global_time + 1 / (c.sample_rate : F) }) := by
  have h1 : ¬ (c.global_time + 1.0 / (c.sample_rate : F) ≥ c.duration_sec) := by
    norm_num only; simpa using h
  simp only [update_global_time]
  rw [if_neg h1]
  norm_num only

/-- Claim C7: for a context with `duration_sec > 0`, `sample_rate > 0` and
`0 ≤ global_time < duration_sec`, the context after `update_global_time` still satisfies
`0 ≤ global_time < duration_sec` (with the same `duration_sec`), and `generate_next_sample`
changes neither `global_time` nor `duration_sec`, so the invariant holds after it too. -/
theorem clock_invariant (E : Env F) (g : rng_t) (c : context_t F)
    (hd : 0 < c.duration_sec) (hsr : 0 < c.sample_rate)
    (h0 : 0 ≤ c.global_time) (h1 : c.global_time < c.duration_sec) :
    (∃ c1, (update_global_time E g (some c)).2.2 = some c1 ∧
      c1.duration_sec = c.duration_sec ∧
      0 ≤ c1.global_time ∧ c1.global_time < c1.duration_sec) ∧
    (∃ c1, (generate_next_sample E g (some c)).2.2 = some c1 ∧
      c1.duration_sec = c.duration_sec ∧ c1.global_time = c.global_time ∧
      0 ≤ c1.global_time ∧ c1.global_time < c1.duration_sec) := by
  constructor
  · by_cases h : c.global_time + 1 / (c.sample_rate : F) ≥ c.duration_sec
    · rw [update_global_time_boundary E g c h]
      exact ⟨_, rfl, rfl, le_refl _, hd⟩
    · rw [update_global_time_mid E g c h]
      refine ⟨_, rfl, rfl, ?_, lt_of_not_ge h⟩
      have : (0 : F) ≤ 1 / (c.sample_rate : F) := by positivity
      show 0 ≤ c.global_time + 1 / (c.sample_rate : F)
      linarith
  · rw [generate_next_sample_ctx]
    exact ⟨_, rfl, rfl, rfl, h0, h1⟩

/-- Witness for claim C7: the default context at `global_time = 0`, `duration_sec = 7`. -/
theorem clock_invariant_witness :
    ((0 : ℝ) < 7.0 ∧ 0 < (44100 : Nat) ∧ (0 : ℝ) ≤ 0 ∧ (0 : ℝ) < 7.0) ∧
    ∃ c1, (update_global_time (Env.mk 32767 Real.pi Real.sin Real.exp) (const_rng 7)
        (some (default_context ℝ [osc_of ℝ 0 440 1 1]))).2.2 = some c1 ∧
      c1.duration_sec = 7.0 ∧ 0 ≤ c1.global_time ∧ c1.global_time < c1.duration_sec :=
  ⟨⟨by norm_num, by norm_num, le_refl _, by norm_num⟩,
   (clock_invariant (Env.mk 32767 Real.pi Real.sin Real.exp) (const_rng 7)
      (default_context ℝ [osc_of ℝ 0 440 1 1]) (by norm_num [default_context])
      (by norm_num [default_context]) (by norm_num [default_context])
      (by norm_num [default_context])).1⟩

/-! ### Beat envelope -/

theorem beat_env_attack (rm : Nat) (p : ℝ) (hp : p < 0.1) :
    beat_env (Env.mk rm Real.pi Real.sin Real.exp) p = 1 - Real.exp (-p * 8) := by
  unfold beat_env
  rw [if_pos hp]
  norm_num

theorem beat_env_decay (rm : Nat) (p : ℝ) (hp0 : 0.1 ≤ p) (hp1 : p < 0.4) :
    beat_env (Env.mk rm Real.pi Real.sin Real.exp) p
      = 0.3 + 0.7 * Real.exp (-(p - 0.1) * 5) := by
  unfold beat_env
  rw [if_neg (not_lt.mpr hp0), if_pos hp1]
  norm_num

theorem beat_env_release (rm : Nat) (p : ℝ) (hp : 0.4 ≤ p) :
    beat_env (Env.mk rm Real.pi Real.sin Real.exp) p
      = 0.3 * (1 - (p - 0.4) / 0.6) := by
  have h1 : ¬ p < 0.1 := by
    intro h
    norm_num at h hp
    linarith
  unfold beat_env
  rw [if_neg h1, if_neg (not_lt.mpr hp)]
  norm_num

theorem beat_env_gap (rm : Nat) (eps : ℝ) (heps : 0 < eps) :
    0.2 ≤ beat_env (Env.mk rm Real.pi Real.sin Real.exp) (0.1 + eps)
      - beat_env (Env.mk rm Real.pi Real.sin Real.exp) (0.1 - eps) := by
  have hl := beat_env_attack rm (0.1 - eps) (by linarith)
  have hexp1 := Real.add_one_le_exp (-(0.1 - eps) * 8)
  rw [hl]
  by_cases h : 0.1 + eps < 0.4
  · rw [beat_env_decay rm (0.1 + eps) (by linarith) h]
    have hexp2 := Real.add_one_le_exp (-(0.1 + eps - 0.1) * 5)
    norm_num at *
    linarith
  · rw [beat_env_release rm (0.1 + eps) (not_lt.mp h)]
    norm_num at *
    linarith

/-- Claim C8 as stated fails: the values of the envelope of `generate_beat` at
`0.1 - eps` and `0.1 + eps` do not come within every tolerance of each other; for the
tolerance `0.2` no `eps > 0` works. -/
theorem beat_env_continuity_counterexample :
    ¬ (∀ tol : ℝ, 0 < tol → ∃ eps : ℝ, 0 < eps ∧
        |beat_env (Env.mk 32767 Real.pi Real.sin Real.exp) (0.1 - eps)
          - beat_env (Env.mk 32767 Real.pi Real.sin Real.exp) (0.1 + eps)| < tol) := by
  intro h
  obtain ⟨eps, heps, hlt⟩ := h 0.2 (by norm_num)
  have hgap := beat_env_gap 32767 eps heps
  rw [abs_sub_comm, abs_lt] at hlt
  linarith [hlt.2]

/-- Claim C8, amended: the envelope of `generate_beat` has a jump at the attack/decay
boundary.  At beat phase `0.1` it takes the value of the decay expression, which is `1`;
for `p < 0.1` it is the attack expression `1 - exp (-8 p)`, which stays below
`1 - exp (-0.8) < 1`; and for every `eps > 0` the envelope at `0.1 + eps` exceeds the
envelope at `0.1 - eps` by at least `0.2`. -/
theorem beat_env_jump (rm : Nat) :
    beat_env (Env.mk rm Real.pi Real.sin Real.exp) 0.1 = 1 ∧
    (∀ p : ℝ, p < 0.1 →
      beat_env (Env.mk rm Real.pi Real.sin Real.exp) p = 1 - Real.exp (-p * 8) ∧
      beat_env (Env.mk rm Real.pi Real.sin Real.exp) p < 1 - Real.exp (-0.8)) ∧
    1 - Real.exp (-0.8) < (1 : ℝ) ∧
    (∀ eps : ℝ, 0 < eps →
      0.2 ≤ beat_env (Env.mk rm Real.pi Real.sin Real.exp) (0.1 + eps)
        - beat_env (Env.mk rm Real.pi Real.sin Real.exp) (0.1 - eps)) := by
  refine ⟨?_, ?_, ?_, beat_env_gap rm⟩
  · rw [beat_env_decay rm 0.1 (le_refl _) (by norm_num)]
    norm_num
  · intro p hp
    refine ⟨beat_env_attack rm p hp, ?_⟩
    rw [beat_env_attack rm p hp]
    have : Real.exp (-0.8) < Real.exp (-p * 8) := by
      apply Real.exp_lt_exp.mpr
      norm_num at hp ⊢
      linarith
    linarith
  · have := Real.exp_pos (-0.8)
    linarith

/-- Witness for claim C8 (amended): the envelope at `0.05`, at `0.1` and around `0.1`
with `eps = 0.05`. -/
theorem beat_env_jump_witness :
    ((0.05 : ℝ) < 0.1 ∧ (0 : ℝ) < 0.05) ∧
    beat_env (Env.mk 32767 Real.pi Real.sin Real.exp) 0.05 < 1 - Real.exp (-0.8) ∧
    0.2 ≤ beat_env (Env.mk 32767 Real.pi Real.sin Real.exp) (0.1 + 0.05)
      - beat_env (Env.mk 32767 Real.pi Real.sin Real.exp) (0.1 - 0.05) :=
  ⟨⟨by norm_num, by norm_num⟩,
   ((beat_env_jump 32767).2.1 0.05 (by norm_num)).2,
   (beat_env_jump 32767).2.2.2 0.05 (by norm_num)⟩

/-! ### Beat phase -/

theorem fmod_one_of_nonneg (x : F) (hx : 0 ≤ x) : fmod x (1.0 : F) = Int.fract x := by
  have h1 : (1.0 : F) = 1 := by norm_num
  unfold fmod
  rw [h1, div_one, if_pos hx, one_mul]
  rfl

theorem fmod_one_of_neg (x : F) (hx : x < 0) : fmod x (1.0 : F) = x - (⌈x⌉ : F) := by
  have h1 : (1.0 : F) = 1 := by norm_num
  unfold fmod
  rw [h1, div_one, if_neg (not_le.mpr hx), one_mul]

/-! ### Click-avoidance envelope -/

theorem click_envelope_one (t D : F) (h0 : 0.1 ≤ t) (h1 : t ≤ D - 0.1) :
    click_envelope t D = 1 := by
  unfold click_envelope
  rw [if_neg (not_lt.mpr h0), if_neg (by rw [not_lt]; linarith)]
  norm_num

theorem click_envelope_eq_spec (t D : F) : click_envelope t D = click_envelope_spec t D := by
  have h10 : ∀ x : F, x / 0.1 = x * 10.0 := by intro x; norm_num; ring
  have hlt : ∀ x : F, x < 0.1 ↔ x * 10.0 < 1 := by
    intro x
    constructor
    · intro h; norm_num at h ⊢; linarith
    · intro h; norm_num at h ⊢; linarith
  unfold click_envelope click_envelope_spec
  rw [h10, h10]
  congr 1
  · split_ifs with h
    · rw [min_eq_right (le_of_lt ((hlt _).mp h))]
    · rw [min_eq_left (not_lt.mp (fun h1 => h ((hlt _).mpr h1)))]
      norm_num
  · split_ifs with h
    · rw [min_eq_right (le_of_lt ((hlt _).mp h))]
    · rw [min_eq_left (not_lt.mp (fun h1 => h ((hlt _).mpr h1)))]
      norm_num

theorem click_envelope_onset (t D : F) (hD : 0.2 ≤ D) (h1 : t ≤ 0.1) :
    click_envelope t D = 10 * t := by
  have h2 : ¬ (D - t < 0.1) := by
    rw [not_lt]; norm_num at hD h1 ⊢; linarith
  unfold click_envelope
  rw [if_neg h2]
  rcases lt_or_eq_of_le h1 with h | h
  · rw [if_pos h]; norm_num; ring
  · have h3 : ¬ (t < 0.1) := by rw [h]; exact lt_irrefl _
    rw [if_neg h3, h]; norm_num

theorem click_envelope_tail (t D : F) (hD : 0.2 ≤ D) (h0 : D - 0.1 ≤ t) :
    click_envelope t D = 10 * (D - t) := by
  have h2 : ¬ (t < 0.1) := by
    rw [not_lt]; norm_num at hD h0 ⊢; linarith
  unfold click_envelope
  rw [if_neg h2]
  rcases lt_or_eq_of_le h0 with h | h
  · have h3 : D - t < 0.1 := by linarith
    rw [if_pos h3]; norm_num; ring
  · have h3 : ¬ (D - t < 0.1) := by rw [← h]; norm_num
    rw [if_neg h3, ← h]; norm_num

theorem generate_wave_draws (E : Env F) (g : rng_t) (ctx : Option (context_t F))
    (phase bps : F) (type : Int) :
    (generate_wave E g ctx phase bps type).2.draws = g.draws := by
  cases ctx with
  | none => rfl
  | some c =>
    simp only [generate_wave]
    split_ifs <;> first | rfl | exact random_float_range_draws E g _ _

theorem generate_wave_rng (E : Env F) (g : rng_t) (ctx : Option (context_t F))
    (phase bps : F) (type : Int) (h : type ≠ OSCILLATOR_TYPE_NOISE) :
    (generate_wave E g ctx phase bps type).2 = g := by
  cases ctx with
  | none => rfl
  | some c =>
    simp only [generate_wave]
    rw [if_neg h]
    split_ifs <;> rfl

theorem mix_loop_draws (E : Env F) (c : context_t F) (l : List (oscillator_t F)) :
    ∀ (g : rng_t) (s : F), (mix_loop E c g s l).2.1.draws = g.draws := by
  induction l with
  | nil => intro g s; rfl
  | cons osc rest ih =>
    intro g s
    simp only [mix_loop]
    rw [ih, generate_wave_draws]

theorem mix_loop_rng (E : Env F) (c : context_t F) (l : List (oscillator_t F)) :
    (∀ osc ∈ l, osc.type ≠ OSCILLATOR_TYPE_NOISE) →
      ∀ (g : rng_t) (s : F), (mix_loop E c g s l).2.1 = g := by
  induction l with
  | nil => intro _ g s; rfl
  | cons osc rest ih =>
    intro h g s
    simp only [mix_loop]
    rw [ih (fun o ho => h o (List.mem_cons_of_mem _ ho)),
      generate_wave_rng E g _ _ _ _ (h osc (List.mem_cons_self _ _))]

/-- Claim C16: `generate_next_sample` leaves every oscillator's `freq`, `amp`, `bps` and
`type` unchanged, cell by cell, and leaves every other field of the context unchanged
(`global_time`, `duration_sec`, `sample_rate`, `master_volume`, the six range fields and the
rest); the only thing it rewrites in the context is each oscillator's `phase`.  The sequence
of the random source is untouched, and the random source itself is unchanged when the bank
has no Noise oscillator. -/
theorem generate_next_sample_frame (E : Env F) (g : rng_t) (c : context_t F) :
    (generate_next_sample E g (some c)).2.2 =
      some { c with oscillators :=
        c.oscillators.map (fun osc => { osc with phase := advance_phase E c osc }) } ∧
    (∃ c1, (generate_next_sample E g (some c)).2.2 = some c1 ∧
      c1.oscillators.map (fun o => (o.freq, o.amp, o.bps, o.type))
        = c.oscillators.map (fun o => (o.freq, o.amp, o.bps, o.type)) ∧
      c1.global_time = c.global_time ∧ c1.duration_sec = c.duration_sec ∧
      c1.sample_rate = c.sample_rate ∧ c1.master_volume = c.master_volume ∧
      c1.min_freq = c.min_freq ∧ c1.max_freq = c.max_freq ∧
      c1.min_bps = c.min_bps ∧ c1.max_bps = c.max_bps ∧
      c1.min_amp = c.min_amp ∧ c1.max_amp = c.max_amp) ∧
    (generate_next_sample E g (some c)).2.1.draws = g.draws ∧
    ((∀ osc ∈ c.oscillators, osc.type ≠ OSCILLATOR_TYPE_NOISE) →
      (generate_next_sample E g (some c)).2.1 = g) := by
  refine ⟨generate_next_sample_ctx E g c, ?_, mix_loop_draws E c c.oscillators g 0.0, ?_⟩
  · rw [generate_next_sample_ctx]
    refine ⟨_, rfl, ?_, rfl, rfl, rfl, rfl, rfl, rfl, rfl, rfl, rfl, rfl⟩
    show (c.oscillators.map _).map _ = _
    rw [List.map_map]
    rfl
  · intro h
    exact mix_loop_rng E c c.oscillators h g 0.0

/-- Witness for claim C16: the default context with a flat and a beat oscillator. -/
theorem generate_next_sample_frame_witness :
    (∀ osc ∈ (default_context ℝ [osc_of ℝ 0 440 1 1, osc_of ℝ 4 110 1 2]).oscillators,
      osc.type ≠ OSCILLATOR_TYPE_NOISE) ∧
    (generate_next_sample (Env.mk 32767 Real.pi Real.sin Real.exp) (const_rng 7)
      (some (default_context ℝ [osc_of ℝ 0 440 1 1, osc_of ℝ 4 110 1 2]))).2.1 = const_rng 7 :=
  ⟨by simp [default_context, osc_of],
   (generate_next_sample_frame (Env.mk 32767 Real.pi Real.sin Real.exp) (const_rng 7)
      (default_context ℝ [osc_of ℝ 0 440 1 1, osc_of ℝ 4 110 1 2])).2.2.2
      (by simp [default_context, osc_of])⟩

/-- Claim C17: with a null context `generate_next_sample`, `generate_wave` and
`generate_beat` return `0` (and change nothing), `update_global_time` returns `0` and
`randomize_oscillators` does nothing; and with a context present, `generate_wave` returns
`0` without touching the random source for every type value outside the six variants. -/
theorem fail_soft_guards (E : Env F) (g : rng_t) :
    generate_next_sample E g none = (0, g, none) ∧
    (∀ (phase bps : F) (type : Int), generate_wave E g none phase bps type = (0, g)) ∧
    (∀ base bps : F, generate_beat E none base bps = 0) ∧
    update_global_time E g none = (false, g, none) ∧
    randomize_oscillators E g none = (g, none) ∧
    (∀ (c : context_t F) (phase bps : F) (type : Int),
      (type < 0 ∨ OSCILLATOR_TYPE_MAX_ENUM ≤ type) →
      generate_wave E g (some c) phase bps type = (0, g)) := by
  have h00 : (0.0 : F) = 0 := by norm_num
  refine ⟨?_, ?_, ?_, rfl, rfl, ?_⟩
  · show ((0.0 : F), g, none) = _
    rw [h00]
  · intro phase bps type
    show ((0.0 : F), g) = _
    rw [h00]
  · intro base bps
    exact h00
  · intro c phase bps type h
    simp only [generate_wave, OSCILLATOR_TYPE_FLAT, OSCILLATOR_TYPE_SAWTOOTH,
      OSCILLATOR_TYPE_NOISE, OSCILLATOR_TYPE_BEAT, OSCILLATOR_TYPE_WAVE,
      OSCILLATOR_TYPE_PULSE, OSCILLATOR_TYPE_MAX_ENUM] at h ⊢
    rw [if_neg (by omega), if_neg (by omega), if_neg (by omega), if_neg (by omega),
      if_neg (by omega), if_neg (by omega), h00]

/-- Witness for claim C17: the type values `6` (`OSCILLATOR_TYPE_MAX_ENUM`) and `-1`. -/
theorem fail_soft_guards_witness :
    (((-1 : Int) < 0 ∨ OSCILLATOR_TYPE_MAX_ENUM ≤ (-1 : Int)) ∧
      generate_wave (Env.mk 32767 Real.pi Real.sin Real.exp) (const_rng 7)
        (some (default_context ℝ [])) 1 1 (-1) = (0, const_rng 7)) ∧
    (((6 : Int) < 0 ∨ OSCILLATOR_TYPE_MAX_ENUM ≤ (6 : Int)) ∧
      generate_wave (Env.mk 32767 Real.pi Real.sin Real.exp) (const_rng 7)
        (some (default_context ℝ [])) 1 1 6 = (0, const_rng 7)) :=
  ⟨⟨Or.inl (by decide),
    (fail_soft_guards (Env.mk 32767 Real.pi Real.sin Real.exp) (const_rng 7)).2.2.2.2.2
      (default_context ℝ []) 1 1 (-1) (Or.inl (by decide))⟩,
   ⟨Or.inr (by decide),
    (fail_soft_guards (Env.mk 32767 Real.pi Real.sin Real.exp) (const_rng 7)).2.2.2.2.2
      (default_context ℝ []) 1 1 6 (Or.inr (by decide))⟩⟩

/-! ### One subtraction suffices -/

theorem reduce_mod_of_lt (x m : F) (hm : 0 < m) (h0 : 0 ≤ x) (h1 : x < m) :
    reduce_mod x m = x := by
  have hf : ⌊x / m⌋ = 0 := by
    rw [Int.floor_eq_iff]
    constructor
    · simpa using div_nonneg h0 hm.le
    · simpa using (div_lt_one hm).mpr h1
  unfold reduce_mod
  rw [hf]
  simp

theorem reduce_mod_of_ge (x m : F) (hm : 0 < m) (h0 : m ≤ x) (h1 : x < 2 * m) :
    reduce_mod x m = x - m := by
  have hf : ⌊x / m⌋ = 1 := by
    rw [Int.floor_eq_iff]
    constructor
    · simpa using (one_le_div hm).mpr h0
    · have : x / m < 2 := (div_lt_iff₀ hm).mpr h1
      push_cast
      linarith
  unfold reduce_mod
  rw [hf]
  simp

theorem beat_env_mem (rm : Nat) (p : ℝ) (hp0 : 0 ≤ p) (hp1 : p < 1) :
    0 ≤ beat_env (Env.mk rm Real.pi Real.sin Real.exp) p ∧
    beat_env (Env.mk rm Real.pi Real.sin Real.exp) p ≤ 1 := by
  by_cases h1 : p < 0.1
  · rw [beat_env_attack rm p h1]
    have hpos := Real.exp_pos (-p * 8)
    have hle : Real.exp (-p * 8) ≤ 1 := by
      rw [← Real.exp_zero]
      exact Real.exp_le_exp.mpr (by linarith)
    constructor <;> linarith
  · by_cases h2 : p < 0.4
    · rw [beat_env_decay rm p (not_lt.mp h1) h2]
      have hpos := Real.exp_pos (-(p - 0.1) * 5)
      have hle : Real.exp (-(p - 0.1) * 5) ≤ 1 := by
        rw [← Real.exp_zero]
        apply Real.exp_le_exp.mpr
        have := not_lt.mp h1
        linarith
      constructor <;> linarith
    · rw [beat_env_release rm p (not_lt.mp h2)]
      have := not_lt.mp h2
      constructor
      · norm_num at this ⊢
        linarith
      · norm_num at this ⊢
        linarith

theorem beat_wave_mem (rm : Nat) (p : ℝ) :
    -1 ≤ beat_wave (Env.mk rm Real.pi Real.sin Real.exp) p ∧
    beat_wave (Env.mk rm Real.pi Real.sin Real.exp) p ≤ 1 := by
  have hpos := Real.exp_pos (Real.sin (2.0 * Real.pi * p) - 1.0)
  have hle : Real.exp (Real.sin (2.0 * Real.pi * p) - 1.0) ≤ 1 := by
    rw [← Real.exp_zero]
    apply Real.exp_le_exp.mpr
    have := Real.sin_le_one (2.0 * Real.pi * p)
    norm_num at this ⊢
    linarith
  unfold beat_wave
  constructor
  · show (-1 : ℝ) ≤ 2.0 * Real.exp (Real.sin (2.0 * Real.pi * p) - 1.0) - 1.0
    norm_num at hpos ⊢
    linarith
  · show 2.0 * Real.exp (Real.sin (2.0 * Real.pi * p) - 1.0) - 1.0 ≤ (1 : ℝ)
    norm_num at hle ⊢
    linarith

/-- Claim C19: for every beat phase `p` in `[0, 1)` the envelope of `generate_beat` lies in
`[0, 1]` and the carrier `2 * exp (sin (2 * pi * p) - 1) - 1` lies in `[-1, 1]`; hence, when
the beat phase of the context lies in `[0, 1)`, for every `base` with `|base| ≤ 1` the
value returned by `generate_beat` has absolute value at most `7.5 * |base|`. -/
theorem generate_beat_bounded (rm : Nat) :
    (∀ p : ℝ, 0 ≤ p → p < 1 →
      (0 ≤ beat_env (Env.mk rm Real.pi Real.sin Real.exp) p ∧
        beat_env (Env.mk rm Real.pi Real.sin Real.exp) p ≤ 1) ∧
      beat_wave (Env.mk rm Real.pi Real.sin Real.exp) p
        = 2 * Real.exp (Real.sin (2 * Real.pi * p) - 1) - 1 ∧
      (-1 ≤ beat_wave (Env.mk rm Real.pi Real.sin Real.exp) p ∧
        beat_wave (Env.mk rm Real.pi Real.sin Real.exp) p ≤ 1)) ∧
    (∀ (c : context_t ℝ) (base bps : ℝ),
      0 ≤ beat_phase c.global_time bps → beat_phase c.global_time bps < 1 → |base| ≤ 1 →
      |generate_beat (Env.mk rm Real.pi Real.sin Real.exp) (some c) base bps|
        ≤ 7.5 * |base|) := by
  constructor
  · intro p hp0 hp1
    refine ⟨beat_env_mem rm p hp0 hp1, ?_, beat_wave_mem rm p⟩
    unfold beat_wave
    norm_num
  · intro c base bps hp0 hp1 _
    obtain ⟨he0, he1⟩ := beat_env_mem rm _ hp0 hp1
    obtain ⟨hw0, hw1⟩ := beat_wave_mem rm (beat_phase c.global_time bps)
    have hw : |beat_wave (Env.mk rm Real.pi Real.sin Real.exp) (beat_phase c.global_time bps)|
        ≤ 1 := abs_le.mpr ⟨hw0, hw1⟩
    have he : |beat_env (Env.mk rm Real.pi Real.sin Real.exp) (beat_phase c.global_time bps)|
        ≤ 1 := abs_le.mpr ⟨by linarith, he1⟩
    show |base * BEAT_AMP_SCALE ℝ * beat_wave _ (beat_phase c.global_time bps)
      * beat_env _ (beat_phase c.global_time bps)| ≤ 7.5 * |base|
    rw [abs_mul, abs_mul, abs_mul]
    have h75 : |BEAT_AMP_SCALE ℝ| = 7.5 := by
      unfold BEAT_AMP_SCALE
      rw [abs_of_nonneg (by norm_num)]
    rw [h75]
    have hb := abs_nonneg base
    have h1 : |base| * 7.5 * |beat_wave (Env.mk rm Real.pi Real.sin Real.exp)
        (beat_phase c.global_time bps)| ≤ |base| * 7.5 * 1 :=
      mul_le_mul_of_nonneg_left hw (by positivity)
    have h2 := mul_le_mul h1 he (abs_nonneg _) (by positivity)
    linarith

/-- Witness for claim C19: beat phase `0.25`, and `generate_beat` in the default context
advanced to `global_time = 0.5` with `bps = 0.5` and `base = 0.5`. -/
theorem generate_beat_bounded_witness :
    (((0 : ℝ) ≤ 0.25 ∧ (0.25 : ℝ) < 1) ∧
      (0 ≤ beat_env (Env.mk 32767 Real.pi Real.sin Real.exp) 0.25 ∧
        beat_env (Env.mk 32767 Real.pi Real.sin Real.exp) 0.25 ≤ 1)) ∧
    ((0 ≤ beat_phase (0.5 : ℝ) 0.5 ∧ beat_phase (0.5 : ℝ) 0.5 < 1 ∧ |(0.5 : ℝ)| ≤ 1) ∧
      |generate_beat (Env.mk 32767 Real.pi Real.sin Real.exp)
          (some { default_context ℝ [] with global_time := 0.5 }) 0.5 0.5|
        ≤ 7.5 * |(0.5 : ℝ)|) :=
  have h : beat_phase (0.5 : ℝ) 0.5 = Int.fract ((0.5 : ℝ) * 0.5) :=
    fmod_one_of_nonneg _ (by norm_num)
  have hb : |(0.5 : ℝ)| ≤ 1 := by rw [abs_of_nonneg (by norm_num)]; norm_num
  ⟨⟨⟨by norm_num, by norm_num⟩,
    ((generate_beat_bounded 32767).1 0.25 (by norm_num) (by norm_num)).1⟩,
   ⟨⟨by rw [h]; exact Int.fract_nonneg _, by rw [h]; exact Int.fract_lt_one _, hb⟩,
    (generate_beat_bounded 32767).2 { default_context ℝ [] with global_time := 0.5 } 0.5 0.5
      (by rw [h]; exact Int.fract_nonneg _) (by rw [h]; exact Int.fract_lt_one _) hb⟩⟩

/-! ### Configuration parsing -/

theorem opt_save_only_update (cfg : config_t F) (rest : List String)
    (h : (opt_save_only cfg rest).1 = true) : cfg_update cfg (opt_save_only cfg rest).2.1 := by
  unfold opt_save_only at h ⊢
  split at h
  · exact Bool.noConfusion h
  · split at h
    · exact Bool.noConfusion h
    · rename_i hd
      simp only [if_neg hd]
      exact cfg_update.save_only _

theorem opt_save_update (cfg : config_t F) (rest : List String)
    (h : (opt_save cfg rest).1 = true) : cfg_update cfg (opt_save cfg rest).2.1 := by
  unfold opt_save at h ⊢
  split at h
  · exact Bool.noConfusion h
  · split at h
    · exact Bool.noConfusion h
    · rename_i hd
      simp only [if_neg hd]
      exact cfg_update.save _

theorem opt_sample_rate_update (S : Scanf F) (cfg : config_t F) (rest : List String)
    (h : (opt_sample_rate S cfg rest).1 = true) :
    cfg_update cfg (opt_sample_rate S cfg rest).2.1 := by
  unfold opt_sample_rate at h ⊢
  split at h
  · exact Bool.noConfusion h
  · split at h
    · exact Bool.noConfusion h
    · rename_i v _ u hu
      split at h
      · exact Bool.noConfusion h
      · rename_i hd
        simp only [hu, if_neg hd]
        exact cfg_update.sample_rate u hd

theorem opt_loop_count_update (S : Scanf F) (cfg : config_t F) (rest : List String)
    (h : (opt_loop_count S cfg rest).1 = true) :
    cfg_update cfg (opt_loop_count S cfg rest).2.1 ∧
    (opt_loop_count S cfg rest).2.1.limited = true := by
  unfold opt_loop_count at h ⊢
  split at h
  · exact Bool.noConfusion h
  · split at h
    · exact Bool.noConfusion h
    · rename_i v _ u hu
      split at h
      · exact Bool.noConfusion h
      · rename_i hd
        simp only [hu, if_neg hd]
        exact ⟨cfg_update.loop_count u hd, trivial⟩

theorem opt_oscillators_update (S : Scanf F) (cfg : config_t F) (rest : List String)
    (h : (opt_oscillators S cfg rest).1 = true) :
    cfg_update cfg (opt_oscillators S cfg rest).2.1 := by
  unfold opt_oscillators at h ⊢
  split at h
  · exact Bool.noConfusion h
  · split at h
    · exact Bool.noConfusion h
    · rename_i v _ u hu
      split at h
      · exact Bool.noConfusion h
      · rename_i hd
        simp only [hu, if_neg hd]
        rw [not_or, not_lt] at hd
        exact cfg_update.oscillators u hd.1 hd.2

theorem opt_duration_update (S : Scanf F) (cfg : config_t F) (rest : List String)
    (h : (opt_duration S cfg rest).1 = true) :
    cfg_update cfg (opt_duration S cfg rest).2.1 := by
  unfold opt_duration at h ⊢
  split at h
  · exact Bool.noConfusion h
  · split at h
    · exact Bool.noConfusion h
    · rename_i v _ f hf
      split at h
      · exact Bool.noConfusion h
      · rename_i hd
        simp only [hf, if_neg hd]
        exact cfg_update.duration f (not_le.mp hd)

theorem opt_freq_range_update (S : Scanf F) (cfg : config_t F) (rest : List String)
    (h : (opt_freq_range S cfg rest).1 = true) :
    cfg_update cfg (opt_freq_range S cfg rest).2.1 := by
  unfold opt_freq_range at h ⊢
  split at h
  · split at h
    · exact Bool.noConfusion h
    · rename_i mn hmn
      split at h
      · exact Bool.noConfusion h
      · rename_i mx hmx
        split at h
        · exact Bool.noConfusion h
        · rename_i hd
          simp only [hmn, hmx, if_neg hd]
          exact cfg_update.freq mn mx (not_lt.mp hd)
  · exact Bool.noConfusion h

theorem opt_bps_range_update (S : Scanf F) (cfg : config_t F) (rest : List String)
    (h : (opt_bps_range S cfg rest).1 = true) :
    cfg_update cfg (opt_bps_range S cfg rest).2.1 := by
  unfold opt_bps_range at h ⊢
  split at h
  · split at h
    · exact Bool.noConfusion h
    · rename_i mn hmn
      split at h
      · exact Bool.noConfusion h
      · rename_i mx hmx
        split at h
        · exact Bool.noConfusion h
        · rename_i hd
          simp only [hmn, hmx, if_neg hd]
          exact cfg_update.bps mn mx (not_lt.mp hd)
  · exact Bool.noConfusion h

theorem opt_amplitude_range_update (S : Scanf F) (cfg : config_t F) (rest : List String)
    (h : (opt_amplitude_range S cfg rest).1 = true) :
    cfg_update cfg (opt_amplitude_range S cfg rest).2.1 := by
  unfold opt_amplitude_range at h ⊢
  split at h
  · split at h
    · exact Bool.noConfusion h
    · rename_i mn hmn
      split at h
      · exact Bool.noConfusion h
      · rename_i mx hmx
        split at h
        · exact Bool.noConfusion h
        · rename_i hd
          simp only [hmn, hmx, if_neg hd]
          exact cfg_update.amp mn mx (not_lt.mp hd)
  · exact Bool.noConfusion h

theorem opt_volume_update (S : Scanf F) (cfg : config_t F) (rest : List String)
    (h : (opt_volume S cfg rest).1 = true) :
    cfg_update cfg (opt_volume S cfg rest).2.1 := by
  have h1 : (1.0 : F) = 1 := by norm_num
  unfold opt_volume at h ⊢
  split at h
  · exact Bool.noConfusion h
  · split at h
    · exact Bool.noConfusion h
    · rename_i v _ f hf
      split at h
      · exact Bool.noConfusion h
      · rename_i hd
        simp only [hf, if_neg hd]
        rw [not_or, not_lt, not_lt, h1] at hd
        exact cfg_update.volume f hd.1 hd.2

theorem parse_option_update (S : Scanf F) (cfg : config_t F) (a : String)
    (rest : List String) (h : (parse_option S cfg a rest).1 = true) :
    cfg_update cfg (parse_option S cfg a rest).2.1 := by
  unfold parse_option at h ⊢
  by_cases c0 : a = "-h" ∨ a = "--help"
  · rw [if_pos c0] at h; exact Bool.noConfusion h
  rw [if_neg c0] at h ⊢
  by_cases c1 : a = "-S" ∨ a = "--save-only"
  · rw [if_pos c1] at h ⊢; exact opt_save_only_update cfg rest h
  rw [if_neg c1] at h ⊢
  by_cases c2 : a = "-s" ∨ a = "--save"
  · rw [if_pos c2] at h ⊢; exact opt_save_update cfg rest h
  rw [if_neg c2] at h ⊢
  by_cases c3 : a = "-r" ∨ a = "--sample-rate"
  · rw [if_pos c3] at h ⊢; exact opt_sample_rate_update S cfg rest h
  rw [if_neg c3] at h ⊢
  by_cases c4 : a = "-C" ∨ a = "--loop-count"
  · rw [if_pos c4] at h ⊢; exact (opt_loop_count_update S cfg rest h).1
  rw [if_neg c4] at h ⊢
  by_cases c5 : a = "-c" ∨ a = "--osclillators"
  · rw [if_pos c5] at h ⊢; exact opt_oscillators_update S cfg rest h
  rw [if_neg c5] at h ⊢
  by_cases c6 : a = "-d" ∨ a = "--duration"
  · rw [if_pos c6] at h ⊢; exact opt_duration_update S cfg rest h
  rw [if_neg c6] at h ⊢
  by_cases c7 : a = "-f" ∨ a = "--freq-range"
  · rw [if_pos c7] at h ⊢; exact opt_freq_range_update S cfg rest h
  rw [if_neg c7] at h ⊢
  by_cases c8 : a = "-b" ∨ a = "--bps-range"
  · rw [if_pos c8] at h ⊢; exact opt_bps_range_update S cfg rest h
  rw [if_neg c8] at h ⊢
  by_cases c9 : a = "-a" ∨ a = "--amplitude-range"
  · rw [if_pos c9] at h ⊢; exact opt_amplitude_range_update S cfg rest h
  rw [if_neg c9] at h ⊢
  by_cases c10 : a = "-v" ∨ a = "--volume"
  · rw [if_pos c10] at h ⊢; exact opt_volume_update S cfg rest h
  rw [if_neg c10] at h
  exact Bool.noConfusion h

theorem parse_option_loop_count (S : Scanf F) (cfg : config_t F) (a : String)
    (rest : List String) (ha : a = "-C" ∨ a = "--loop-count")
    (h : (parse_option S cfg a rest).1 = true) :
    (parse_option S cfg a rest).2.1.limited = true := by
  have e : parse_option S cfg a rest = opt_loop_count S cfg rest := by
    unfold parse_option
    rcases ha with rfl | rfl
    · rw [if_neg (by decide), if_neg (by decide), if_neg (by decide), if_neg (by decide),
        if_pos (by decide)]
    · rw [if_neg (by decide), if_neg (by decide), if_neg (by decide), if_neg (by decide),
        if_pos (by decide)]
  rw [e] at h ⊢
  exact (opt_loop_count_update S cfg rest h).2

theorem parse_args_invariant (S : Scanf F) (P : config_t F → Prop)
    (hP : ∀ c c1 : config_t F, P c → cfg_update c c1 → P c1) (n : Nat) :
    ∀ (cfg : config_t F) (args : List String), args.length ≤ n → P cfg →
      (parse_args S cfg args).1 = true → P (parse_args S cfg args).2 := by
  induction n with
  | zero =>
    intro cfg args hlen hc _
    have : args = [] := List.length_eq_zero.mp (Nat.le_zero.mp hlen)
    rw [this, parse_args_nil]
    exact hc
  | succ n ih =>
    intro cfg args hlen hc hs
    cases args with
    | nil => rw [parse_args_nil]; exact hc
    | cons a rest =>
      rw [parse_args_cons] at hs ⊢
      by_cases hstep : (parse_option S cfg a rest).1 = true
      · rw [if_pos hstep] at hs ⊢
        refine ih _ _ ?_ (hP _ _ hc (parse_option_update S cfg a rest hstep)) hs
        simp only [List.length_drop, List.length_cons] at hlen ⊢
        omega
      · rw [if_neg hstep] at hs
        exact Bool.noConfusion hs

theorem parse_config_cases (S : Scanf F) (argv : List String)
    (h : (parse_config S argv).1 = true) :
    (argv.length ≤ 1 ∧ parse_config S argv = (true, default_config F)) ∨
    (1 < argv.length ∧ (parse_args S (default_config F) argv.tail).1 = true ∧
      parse_config S argv = (true, (parse_args S (default_config F) argv.tail).2) ∧
      ¬ ((parse_args S (default_config F) argv.tail).2.sound_action
          = sound_action_t.SOUND_ACTION_ONLY_PLAY ∧
        (parse_args S (default_config F) argv.tail).2.save_path.isSome = true) ∧
      ¬ ((parse_args S (default_config F) argv.tail).2.limited = true ∧
        (parse_args S (default_config F) argv.tail).2.sound_action
          ≠ sound_action_t.SOUND_ACTION_ONLY_RECORD)) := by
  unfold parse_config at h ⊢
  by_cases h0 : argv.length ≤ 1
  · left
    rw [if_pos h0]
    exact ⟨h0, rfl⟩
  · right
    rw [if_neg h0] at h ⊢
    simp only at h ⊢
    by_cases h1 : (parse_args S (default_config F) argv.tail).1 = false
    · rw [if_pos h1] at h; exact Bool.noConfusion h
    rw [if_neg h1] at h ⊢
    by_cases h2 : (parse_args S (default_config F) argv.tail).2.sound_action
          = sound_action_t.SOUND_ACTION_ONLY_PLAY ∧
        (parse_args S (default_config F) argv.tail).2.save_path.isSome = true
    · rw [if_pos h2] at h; exact Bool.noConfusion h
    rw [if_neg h2] at h ⊢
    by_cases h3 : (parse_args S (default_config F) argv.tail).2.limited = true ∧
        (parse_args S (default_config F) argv.tail).2.sound_action
          ≠ sound_action_t.SOUND_ACTION_ONLY_RECORD
    · rw [if_pos h3] at h; exact Bool.noConfusion h
    rw [if_neg h3]
    exact ⟨not_le.mp h0, by simpa using h1, rfl, h2, h3⟩

theorem cfg_update_mode (c c1 : config_t F)
    (hm : c.save_path.isSome = true ↔ c.sound_action ≠ sound_action_t.SOUND_ACTION_ONLY_PLAY)
    (hu : cfg_update c c1) :
    c1.save_path.isSome = true ↔ c1.sound_action ≠ sound_action_t.SOUND_ACTION_ONLY_PLAY := by
  cases hu with
  | save_only p =>
    exact ⟨fun _ => (show sound_action_t.SOUND_ACTION_ONLY_RECORD
      ≠ sound_action_t.SOUND_ACTION_ONLY_PLAY by decide), fun _ => rfl⟩
  | save p =>
    exact ⟨fun _ => (show sound_action_t.SOUND_ACTION_PLAY_AND_RECORD
      ≠ sound_action_t.SOUND_ACTION_ONLY_PLAY by decide), fun _ => rfl⟩
  | sample_rate u h => exact hm
  | loop_count u h => exact hm
  | oscillators u h0 h1 => exact hm
  | duration f h => exact hm
  | freq mn mx h => exact hm
  | bps mn mx h => exact hm
  | amp mn mx h => exact hm
  | volume f h0 h1 => exact hm

theorem cfg_update_limited (c c1 : config_t F) (hl : c.limited = true)
    (hu : cfg_update c c1) : c1.limited = true := by
  cases hu with
  | save_only p => rfl
  | save p => exact hl
  | sample_rate u h => exact hl
  | loop_count u h => rfl
  | oscillators u h0 h1 => exact hl
  | duration f h => exact hl
  | freq mn mx h => exact hl
  | bps mn mx h => exact hl
  | amp mn mx h => exact hl
  | volume f h0 h1 => exact hl

theorem options_read_nil (S : Scanf F) (cfg : config_t F) : options_read S cfg [] = [] := by
  rw [options_read]

theorem options_read_cons (S : Scanf F) (cfg : config_t F) (a : String)
    (rest : List String) :
    options_read S cfg (a :: rest) =
      if (parse_option S cfg a rest).1 = true then
        a :: options_read S (parse_option S cfg a rest).2.1
          (rest.drop (parse_option S cfg a rest).2.2)
      else [a] := by
  rw [options_read]

theorem parse_args_limited (S : Scanf F) (n : Nat) :
    ∀ (cfg : config_t F) (args : List String), args.length ≤ n →
      (parse_args S cfg args).1 = true →
      (cfg.limited = true ∨
        ∃ o ∈ options_read S cfg args, o = "-C" ∨ o = "--loop-count") →
      (parse_args S cfg args).2.limited = true := by
  induction n with
  | zero =>
    intro cfg args hlen _ hor
    have : args = [] := List.length_eq_zero.mp (Nat.le_zero.mp hlen)
    subst this
    rw [parse_args_nil]
    rcases hor with h | ⟨o, ho, _⟩
    · exact h
    · rw [options_read_nil] at ho
      exact absurd ho (List.not_mem_nil o)
  | succ n ih =>
    intro cfg args hlen hs hor
    cases args with
    | nil =>
      rw [parse_args_nil]
      rcases hor with h | ⟨o, ho, _⟩
      · exact h
      · rw [options_read_nil] at ho
        exact absurd ho (List.not_mem_nil o)
    | cons a rest =>
      rw [parse_args_cons] at hs ⊢
      by_cases hstep : (parse_option S cfg a rest).1 = true
      · rw [if_pos hstep] at hs ⊢
        have hlen1 : (rest.drop (parse_option S cfg a rest).2.2).length ≤ n := by
          simp only [List.length_drop, List.length_cons] at hlen ⊢
          omega
        refine ih _ _ hlen1 hs ?_
        rcases hor with h | ⟨o, ho, hoC⟩
        · exact Or.inl (cfg_update_limited _ _ h (parse_option_update S cfg a rest hstep))
        · rw [options_read_cons, if_pos hstep, List.mem_cons] at ho
          rcases ho with rfl | ho
          · exact Or.inl (parse_option_loop_count S cfg o rest hoC hstep)
          · exact Or.inr ⟨o, ho, hoC⟩
      · rw [if_neg hstep] at hs
        exact Bool.noConfusion hs

/-- Claim C13 as stated fails in its last part: the argument vector `-s -C` contains `-C`,
is accepted, and its final mode is play-and-record, because `-C` is read as the file name
that follows `-s`. -/
theorem mode_flag_counterexample :
    "-C" ∈ ["randau", "-s", "-C"] ∧
    parse_config (sample_scanf ℝ) ["randau", "-s", "-C"] =
      (true, { default_config ℝ with
        save_path := some "-C",
        sound_action := sound_action_t.SOUND_ACTION_PLAY_AND_RECORD }) ∧
    (parse_config (sample_scanf ℝ) ["randau", "-s", "-C"]).2.sound_action
      ≠ sound_action_t.SOUND_ACTION_ONLY_RECORD := by
  have h : parse_config (sample_scanf ℝ) ["randau", "-s", "-C"] =
      (true, { default_config ℝ with
        save_path := some "-C",
        sound_action := sound_action_t.SOUND_ACTION_PLAY_AND_RECORD }) := by
    simp [parse_config, parse_args_cons, parse_args_nil, parse_option, opt_save,
      has_dotdot, default_config]
  refine ⟨by decide, h, ?_⟩
  rw [h]
  decide

/-- Claim C13, amended: on every argument vector on which `parse_config` returns success,
`limited = 1` only if the sound action is record-only, and `save_path` is non-null if and
only if the sound action is not play-only; in particular every argument vector in which
`-C` / `--loop-count` is read as an option (rather than as the value of a preceding option)
and whose final mode is not record-only is rejected. -/
theorem mode_flag_consistency (S : Scanf F) (argv : List String)
    (h : (parse_config S argv).1 = true) :
    ((parse_config S argv).2.limited = true →
      (parse_config S argv).2.sound_action = sound_action_t.SOUND_ACTION_ONLY_RECORD) ∧
    ((parse_config S argv).2.save_path.isSome = true ↔
      (parse_config S argv).2.sound_action ≠ sound_action_t.SOUND_ACTION_ONLY_PLAY) ∧
    ((∃ o ∈ options_read S (default_config F) argv.tail, o = "-C" ∨ o = "--loop-count") →
      (parse_config S argv).2.sound_action = sound_action_t.SOUND_ACTION_ONLY_RECORD) := by
  have hm0 : (default_config F).save_path.isSome = true ↔
      (default_config F).sound_action ≠ sound_action_t.SOUND_ACTION_ONLY_PLAY := by
    constructor
    · intro h; exact Bool.noConfusion h
    · intro h; exact absurd rfl h
  rcases parse_config_cases S argv h with ⟨hlen, e⟩ | ⟨_, hs, e, _, h3⟩
  · rw [e]
    refine ⟨fun hl => Bool.noConfusion hl, hm0, ?_⟩
    rintro ⟨o, ho, _⟩
    have : argv.tail = [] := by
      apply List.length_eq_zero.mp
      rw [List.length_tail]
      omega
    rw [this, options_read_nil] at ho
    exact absurd ho (List.not_mem_nil o)
  · rw [e]
    have hrec : (parse_args S (default_config F) argv.tail).2.limited = true →
        (parse_args S (default_config F) argv.tail).2.sound_action
          = sound_action_t.SOUND_ACTION_ONLY_RECORD := by
      intro hl
      by_contra hne
      exact h3 ⟨hl, hne⟩
    refine ⟨hrec, ?_, ?_⟩
    · exact parse_args_invariant S _ cfg_update_mode _ _ _ (le_refl _) hm0 hs
    · intro hex
      exact hrec (parse_args_limited S _ _ _ (le_refl _) hs (Or.inr hex))

/-- Witness for claim C13 (amended): the arguments `-S out.wav -C 2`, in which `-C` is read
as an option. -/
theorem mode_flag_consistency_witness :
    ((parse_config (sample_scanf ℝ) ["randau", "-S", "out.wav", "-C", "2"]).1 = true ∧
      ∃ o ∈ options_read (sample_scanf ℝ) (default_config ℝ)
        (["randau", "-S", "out.wav", "-C", "2"] : List String).tail,
        o = "-C" ∨ o = "--loop-count") ∧
    (parse_config (sample_scanf ℝ) ["randau", "-S", "out.wav", "-C", "2"]).2.sound_action
      = sound_action_t.SOUND_ACTION_ONLY_RECORD :=
  have h : (parse_config (sample_scanf ℝ) ["randau", "-S", "out.wav", "-C", "2"]).1
      = true := by
    simp [parse_config, parse_args_cons, parse_args_nil, parse_option, opt_save_only,
      opt_loop_count, has_dotdot, sample_scanf, default_config]
  have hex : ∃ o ∈ options_read (sample_scanf ℝ) (default_config ℝ)
      (["randau", "-S", "out.wav", "-C", "2"] : List String).tail,
      o = "-C" ∨ o = "--loop-count" :=
    ⟨"-C", by
      simp [options_read_cons, options_read_nil, parse_option, opt_save_only,
        opt_loop_count, has_dotdot, sample_scanf, default_config], Or.inl rfl⟩
  ⟨⟨h, hex⟩, (mode_flag_consistency (sample_scanf ℝ) _ h).2.2 hex⟩

/-- Claim C14 fails on the code for the option `-c`: the help text documents the long form
`--oscillators`, and `-c 5` is accepted with `oscillators = 5`, but `--oscillators 5` is
rejected as an unknown argument by every scanner, because the loop compares against the
misspelt string `--osclillators`.  For every other option line of the help text the loop
body treats the long form exactly like the short form. -/
theorem long_option_oscillators_rejected :
    ("-c", "--oscillators") ∈ help_options ∧
    parse_config (sample_scanf ℝ) ["randau", "-c", "5"]
      = (true, { default_config ℝ with oscillators := 5 }) ∧
    parse_config (sample_scanf ℝ) ["randau", "--oscillators", "5"]
      = (false, default_config ℝ) ∧
    (∀ S : Scanf ℝ, parse_config S ["randau", "--oscillators", "5"]
      = (false, default_config ℝ)) ∧
    parse_config (sample_scanf ℝ) ["randau", "--osclillators", "5"]
      = (true, { default_config ℝ with oscillators := 5 }) ∧
    (∀ p ∈ help_options, p ≠ ("-c", "--oscillators") →
      ∀ (S : Scanf ℝ) (cfg : config_t ℝ) (rest : List String),
        parse_option S cfg p.1 rest = parse_option S cfg p.2 rest) := by
  have hlong : ∀ S : Scanf ℝ, parse_config S ["randau", "--oscillators", "5"]
      = (false, default_config ℝ) := by
    intro S
    simp [parse_config, parse_args_cons, parse_option]
  refine ⟨by simp [help_options], ?_, hlong _, hlong, ?_, ?_⟩
  · simp [parse_config, parse_args_cons, parse_args_nil, parse_option, opt_oscillators,
      sample_scanf, default_config, OSCILLATORS_MAX_COUNT]
  · simp [parse_config, parse_args_cons, parse_args_nil, parse_option, opt_oscillators,
      sample_scanf, default_config, OSCILLATORS_MAX_COUNT]
  · intro p hp hne S cfg rest
    simp only [help_options, List.mem_cons, List.mem_singleton, List.not_mem_nil,
      or_false] at hp
    rcases hp with rfl | rfl | rfl | rfl | rfl | rfl | rfl | rfl | rfl | rfl | rfl
    · simp [parse_option]
    · simp [parse_option]
    · simp [parse_option]
    · exact absurd rfl hne
    · simp [parse_option]
    · simp [parse_option]
    · simp [parse_option]
    · simp [parse_option]
    · simp [parse_option]
    · simp [parse_option]
    · simp [parse_option]

/-! ### Offline recording -/

theorem update_global_time_frame (E : Env F) (g : rng_t) (c : context_t F) :
    ∃ c1, (update_global_time E g (some c)).2.2 = some c1 ∧
      c1.duration_sec = c.duration_sec ∧ c1.sample_rate = c.sample_rate ∧
      c1.loop_count = c.loop_count := by
  by_cases h : c.global_time + 1 / (c.sample_rate : F) ≥ c.duration_sec
  · rw [update_global_time_boundary E g c h]
    exact ⟨_, rfl, rfl, rfl, rfl⟩
  · rw [update_global_time_mid E g c h]
    exact ⟨_, rfl, rfl, rfl, rfl⟩

theorem record_for_frame (E : Env F) (n : Nat) :
    ∀ (i : Nat) (g : rng_t) (c : context_t F) (out : Nat → F),
      ∃ c1, (record_for E n i (g, some c, out)).1.2.1 = some c1 ∧
        c1.duration_sec = c.duration_sec ∧ c1.sample_rate = c.sample_rate ∧
        c1.loop_count = c.loop_count := by
  induction n with
  | zero => intro i g c out; exact ⟨c, rfl, rfl, rfl, rfl⟩
  | succ n ih =>
    intro i g c out
    simp only [record_for]
    rw [generate_next_sample_ctx]
    obtain ⟨c1, e1, f1, f2, f3⟩ := update_global_time_frame E
      (generate_next_sample E g (some c)).2.1
      { c with oscillators :=
          c.oscillators.map (fun osc => { osc with phase := advance_phase E c osc }) }
    split_ifs with hb
    · exact ⟨c1, e1, f1, f2, f3⟩
    · rw [e1]
      obtain ⟨c2, e2, h1, h2, h3⟩ := ih (i + 1) _ c1 _
      exact ⟨c2, e2, h1.trans f1, h2.trans f2, h3.trans f3⟩

theorem RANDAU_MIN_bounds (n : Nat) (hn : n ≠ 0) :
    1 ≤ RANDAU_MIN RECORD_FRAME_SIZE n ∧ RANDAU_MIN RECORD_FRAME_SIZE n ≤ RECORD_FRAME_SIZE ∧
    RANDAU_MIN RECORD_FRAME_SIZE n ≤ n := by
  unfold RANDAU_MIN RECORD_FRAME_SIZE
  split_ifs <;> omega

theorem record_while_zero (E : Env F) (st : record_t F) : record_while E 0 st = st := by
  rw [record_while]
  simp

theorem record_while_pos (E : Env F) (n : Nat) (hn : n ≠ 0) (st : record_t F) :
    record_while E n st =
      record_while E (n - RANDAU_MIN RECORD_FRAME_SIZE n)
        { rng := (record_for E (RANDAU_MIN RECORD_FRAME_SIZE n) 0
            (st.rng, st.ctx, st.output)).1.1,
          ctx := (record_for E (RANDAU_MIN RECORD_FRAME_SIZE n) 0
            (st.rng, st.ctx, st.output)).1.2.1,
          output := (record_for E (RANDAU_MIN RECORD_FRAME_SIZE n) 0
            (st.rng, st.ctx, st.output)).1.2.2,
          sink := st.sink ++
            [(List.range (RANDAU_MIN RECORD_FRAME_SIZE n)).map
              (record_for E (RANDAU_MIN RECORD_FRAME_SIZE n) 0
                (st.rng, st.ctx, st.output)).1.2.2],
          generated := st.generated ++
            [(record_for E (RANDAU_MIN RECORD_FRAME_SIZE n) 0
              (st.rng, st.ctx, st.output)).2] } := by
  rw [record_while]
  simp [hn]

theorem record_while_sink (E : Env F) (m : Nat) :
    ∀ (n : Nat) (st : record_t F) (c : context_t F), n ≤ m → st.ctx = some c →
      ∃ chunks c1, (record_while E n st).sink = st.sink ++ chunks ∧
        (∀ ch ∈ chunks, 1 ≤ ch.length ∧ ch.length ≤ RECORD_FRAME_SIZE) ∧
        (chunks.map List.length).sum = n ∧
        (record_while E n st).ctx = some c1 ∧
        c1.duration_sec = c.duration_sec ∧ c1.sample_rate = c.sample_rate ∧
        c1.loop_count = c.loop_count := by
  induction m with
  | zero =>
    intro n st c hn hc
    have : n = 0 := Nat.le_zero.mp hn
    subst this
    rw [record_while_zero]
    exact ⟨[], c, by simp, by simp, rfl, hc, rfl, rfl, rfl⟩
  | succ m ih =>
    intro n st c hn hc
    by_cases h0 : n = 0
    · subst h0
      rw [record_while_zero]
      exact ⟨[], c, by simp, by simp, rfl, hc, rfl, rfl, rfl⟩
    · obtain ⟨b1, b2, b3⟩ := RANDAU_MIN_bounds n h0
      obtain ⟨c1, e1, f1, f2, f3⟩ := record_for_frame E (RANDAU_MIN RECORD_FRAME_SIZE n) 0
        st.rng c st.output
      rw [record_while_pos E n h0, hc]
      obtain ⟨chunks, c2, s1, s2, s3, s4, s5, s6, s7⟩ := ih
        (n - RANDAU_MIN RECORD_FRAME_SIZE n)
        { rng := (record_for E (RANDAU_MIN RECORD_FRAME_SIZE n) 0
            (st.rng, some c, st.output)).1.1,
          ctx := (record_for E (RANDAU_MIN RECORD_FRAME_SIZE n) 0
            (st.rng, some c, st.output)).1.2.1,
          output := (record_for E (RANDAU_MIN RECORD_FRAME_SIZE n) 0
            (st.rng, some c, st.output)).1.2.2,
          sink := st.sink ++
            [(List.range (RANDAU_MIN RECORD_FRAME_SIZE n)).map
              (record_for E (RANDAU_MIN RECORD_FRAME_SIZE n) 0
                (st.rng, some c, st.output)).1.2.2],
          generated := st.generated ++
            [(record_for E (RANDAU_MIN RECORD_FRAME_SIZE n) 0
              (st.rng, some c, st.output)).2] } c1 (by omega) e1
      refine ⟨((List.range (RANDAU_MIN RECORD_FRAME_SIZE n)).map
          (record_for E (RANDAU_MIN RECORD_FRAME_SIZE n) 0
            (st.rng, some c, st.output)).1.2.2) :: chunks, c2, ?_, ?_, ?_, s4,
        s5.trans f1, s6.trans f2, s7.trans f3⟩
      · rw [s1]
        simp
      · intro ch hch
        rcases List.mem_cons.mp hch with rfl | hch
        · simp only [List.length_map, List.length_range]
          exact ⟨b1, b2⟩
        · exact s2 ch hch
      · simp only [List.map_cons, List.sum_cons, List.length_map, List.length_range, s3]
        omega
theorem record_sample_count_eq_spec (c : context_t F)
    (hno : ⌊c.duration_sec * 1000⌋₊ * c.sample_rate < SIZE_T_RANGE) :
    record_sample_count c = record_frames_spec c.duration_sec c.sample_rate := by
  have h1000 : (1000.0 : F) = 1000 := by norm_num
  have hfl : ⌊c.duration_sec * 1000⌋.toNat = ⌊c.duration_sec * 1000⌋₊ := rfl
  unfold record_sample_count record_frames_spec
  rw [h1000, hfl]
  by_cases hs : c.sample_rate = 0
  · simp [hs]
  · have hpos : 0 < c.sample_rate := Nat.pos_of_ne_zero hs
    have hlt : ⌊c.duration_sec * 1000⌋₊ < SIZE_T_RANGE :=
      lt_of_le_of_lt (Nat.le_mul_of_pos_right _ hpos) hno
    rw [Nat.mod_eq_of_lt hlt, Nat.mod_eq_of_lt hno]
    have hc : ((⌊c.duration_sec * 1000⌋₊ : F) * (c.sample_rate : F)) / 1000
        = ((⌊c.duration_sec * 1000⌋₊ * c.sample_rate : Nat) : F) / ((1000 : Nat) : F) := by
      push_cast
      rfl
    rw [hc, Nat.floor_div_eq_div]

theorem record_sample_count_val (c : context_t F) (d : Nat)
    (hd : c.duration_sec * 1000 = (d : F)) :
    record_sample_count c = (d % SIZE_T_RANGE * c.sample_rate % SIZE_T_RANGE) / 1000 := by
  have h1000 : (1000.0 : F) = 1000 := by norm_num
  unfold record_sample_count
  rw [h1000, hd, Int.floor_natCast, Int.toNat_ofNat]

theorem record_single_loop_sink (E : Env F) (buffer : Nat → F) (st : record_t F)
    (c : context_t F) (hc : st.ctx = some c) :
    ∃ chunks c1, (record_single_loop E buffer st).sink = st.sink ++ chunks ∧
      (∀ ch ∈ chunks, 1 ≤ ch.length ∧ ch.length ≤ RECORD_FRAME_SIZE) ∧
      (chunks.map List.length).sum = record_sample_count c ∧
      (record_single_loop E buffer st).ctx = some c1 ∧
      c1.duration_sec = c.duration_sec ∧ c1.sample_rate = c.sample_rate ∧
      c1.loop_count = c.loop_count := by
  have e : record_single_loop E buffer st =
      record_while E (record_sample_count c) { st with output := buffer } := by
    unfold record_single_loop
    rw [hc]
  rw [e]
  exact record_while_sink E _ _ { st with output := buffer } c (le_refl _) hc

theorem record_sample_count_congr (c c1 : context_t F)
    (h1 : c1.duration_sec = c.duration_sec) (h2 : c1.sample_rate = c.sample_rate) :
    record_sample_count c1 = record_sample_count c := by
  unfold record_sample_count
  rw [h1, h2]

theorem record_loops_sink (E : Env F) (buffers : Nat → Nat → F) (n : Nat) :
    ∀ (i : Nat) (st : record_t F) (c : context_t F), st.ctx = some c →
      ∃ chunks, (record_loops E buffers n i st).sink = st.sink ++ chunks ∧
        (∀ ch ∈ chunks, 1 ≤ ch.length ∧ ch.length ≤ RECORD_FRAME_SIZE) ∧
        (chunks.map List.length).sum = n * record_sample_count c := by
  induction n with
  | zero =>
    intro i st c _
    exact ⟨[], by simp [record_loops], by simp, by simp⟩
  | succ n ih =>
    intro i st c hc
    obtain ⟨ch1, c1, a1, a2, a3, a4, a5, a6, _⟩ := record_single_loop_sink E (buffers i) st c hc
    obtain ⟨ch2, b1, b2, b3⟩ := ih (i + 1) (record_single_loop E (buffers i) st) c1 a4
    refine ⟨ch1 ++ ch2, ?_, ?_, ?_⟩
    · show (record_loops E buffers n (i + 1) (record_single_loop E (buffers i) st)).sink = _
      rw [b1, a1, List.append_assoc]
    · intro ch hch
      rcases List.mem_append.mp hch with h | h
      · exact a2 ch h
      · exact b2 ch h
    · rw [List.map_append, List.sum_append, a3, b3, record_sample_count_congr c c1 a5 a6]
      ring

/-- Claim C20 as stated fails for large values: with `duration_sec = 16777216` and
`sample_rate = 2147483648` the product `floor(duration_sec * 1000) * sample_rate` exceeds
the range of `size_t`, and the number of frames that `record_single_loop` writes is
`17582052945254416`, not `floor(floor(duration_sec * 1000) * sample_rate / 1000)
= 36028797018963968`. -/
theorem record_length_counterexample :
    (0 : ℝ) < 16777216 ∧ 0 < (2147483648 : Nat) ∧
    record_frames_spec (16777216 : ℝ) 2147483648 = 36028797018963968 ∧
    ∃ chunks, (record_single_loop (Env.mk 32767 Real.pi Real.sin Real.exp) (fun _ => 0)
        { rng := const_rng 7,
          ctx := some { default_context ℝ [osc_of ℝ 0 440 1 1] with
            sample_rate := 2147483648, duration_sec := 16777216 },
          output := fun _ => 0, sink := [], generated := [] }).sink = chunks ∧
      (chunks.map List.length).sum = 17582052945254416 ∧
      (chunks.map List.length).sum ≠ record_frames_spec (16777216 : ℝ) 2147483648 := by
  have hfl : ⌊(16777216 : ℝ) * 1000⌋₊ = 16777216000 := by
    have : (16777216 : ℝ) * 1000 = ((16777216000 : Nat) : ℝ) := by norm_num
    rw [this, Nat.floor_natCast]
  have hspec : record_frames_spec (16777216 : ℝ) 2147483648 = 36028797018963968 := by
    unfold record_frames_spec
    rw [hfl]
    have : ((16777216000 : Nat) : ℝ) * ((2147483648 : Nat) : ℝ) / 1000
        = ((36028797018963968 : Nat) : ℝ) := by norm_num
    rw [this, Nat.floor_natCast]
  have hmod : (16777216000 % SIZE_T_RANGE * 2147483648 % SIZE_T_RANGE) / 1000
      = 17582052945254416 := by
    norm_num [SIZE_T_RANGE]
  have hcount : record_sample_count ({ default_context ℝ [osc_of ℝ 0 440 1 1] with
      sample_rate := 2147483648, duration_sec := 16777216 }) = 17582052945254416 := by
    rw [record_sample_count_val _ 16777216000 (by norm_num)]
    exact hmod
  refine ⟨by norm_num, by norm_num, hspec, ?_⟩
  obtain ⟨chunks, c1, a1, _, a3, _⟩ := record_single_loop_sink
    (Env.mk 32767 Real.pi Real.sin Real.exp) (fun _ => (0 : ℝ))
    { rng := const_rng 7,
      ctx := some { default_context ℝ [osc_of ℝ 0 440 1 1] with
        sample_rate := 2147483648, duration_sec := 16777216 },
      output := fun _ => 0, sink := [], generated := [] } _ rfl
  refine ⟨_, rfl, ?_, ?_⟩
  · rw [a1, List.nil_append, a3, hcount]
  · rw [a1, List.nil_append, a3, hcount, hspec]
    norm_num
/-- Claim C20, amended: for every context with `sample_rate > 0`, `duration_sec > 0` and
`floor(duration_sec * 1000) * sample_rate` within the range of `size_t`,
`record_single_loop` terminates (the model is a total function whose `while` loop consumes
a decreasing `sample_rest`), hands the sink blocks of between `1` and `1024` frames each,
and the block sizes sum to exactly `floor(floor(duration_sec * 1000) * sample_rate / 1000)`
frames, wherever cycle boundaries fall and whatever the initial state of clock, bank and
buffer; `record_all_loops` repeats this `loop_count` times. -/
theorem record_length (E : Env F) (buffers : Nat → Nat → F) (st : record_t F)
    (c : context_t F) (hc : st.ctx = some c) (hsr : 0 < c.sample_rate)
    (hd : 0 < c.duration_sec)
    (hno : ⌊c.duration_sec * 1000⌋₊ * c.sample_rate < SIZE_T_RANGE) :
    (∃ chunks, (record_single_loop E (buffers 0) st).sink = st.sink ++ chunks ∧
      (∀ ch ∈ chunks, 1 ≤ ch.length ∧ ch.length ≤ 1024) ∧
      (chunks.map List.length).sum = record_frames_spec c.duration_sec c.sample_rate) ∧
    (∃ chunks, (record_all_loops E buffers st).sink = st.sink ++ chunks ∧
      (∀ ch ∈ chunks, 1 ≤ ch.length ∧ ch.length ≤ 1024) ∧
      (chunks.map List.length).sum
        = c.loop_count * record_frames_spec c.duration_sec c.sample_rate) := by
  have hspec := record_sample_count_eq_spec c hno
  constructor
  · obtain ⟨chunks, _, a1, a2, a3, _⟩ := record_single_loop_sink E (buffers 0) st c hc
    exact ⟨chunks, a1, a2, a3.trans hspec⟩
  · have e : record_all_loops E buffers st = record_loops E buffers c.loop_count 0 st := by
      unfold record_all_loops
      rw [hc]
    obtain ⟨chunks, a1, a2, a3⟩ := record_loops_sink E buffers c.loop_count 0 st c hc
    rw [e]
    exact ⟨chunks, a1, a2, by rw [a3, hspec]⟩

/-- Witness for claim C20 (amended): the default context (`duration_sec = 7`,
`sample_rate = 44100`, `loop_count = 1`), which records `308700` frames. -/
theorem record_length_witness :
    (0 < (44100 : Nat) ∧ (0 : ℝ) < 7.0 ∧ ⌊(7.0 : ℝ) * 1000⌋₊ * 44100 < SIZE_T_RANGE ∧
      record_frames_spec (7.0 : ℝ) 44100 = 308700) ∧
    ∃ chunks, (record_single_loop (Env.mk 32767 Real.pi Real.sin Real.exp) (fun _ => 0)
        { rng := const_rng 7, ctx := some (default_context ℝ [osc_of ℝ 0 440 1 1]),
          output := fun _ => 0, sink := [], generated := [] }).sink = [] ++ chunks ∧
      (∀ ch ∈ chunks, 1 ≤ ch.length ∧ ch.length ≤ 1024) ∧
      (chunks.map List.length).sum = record_frames_spec (7.0 : ℝ) 44100 :=
  have hfl : ⌊(7.0 : ℝ) * 1000⌋₊ = 7000 := by
    have : (7.0 : ℝ) * 1000 = ((7000 : Nat) : ℝ) := by norm_num
    rw [this, Nat.floor_natCast]
  have hno : ⌊(7.0 : ℝ) * 1000⌋₊ * 44100 < SIZE_T_RANGE := by
    rw [hfl]; norm_num [SIZE_T_RANGE]
  have hspec : record_frames_spec (7.0 : ℝ) 44100 = 308700 := by
    unfold record_frames_spec
    rw [hfl]
    have : ((7000 : Nat) : ℝ) * ((44100 : Nat) : ℝ) / 1000 = ((308700 : Nat) : ℝ) := by
      norm_num
    rw [this, Nat.floor_natCast]
  ⟨⟨by norm_num, by norm_num, hno, hspec⟩,
   (record_length (Env.mk 32767 Real.pi Real.sin Real.exp) (fun _ _ => 0)
      { rng := const_rng 7, ctx := some (default_context ℝ [osc_of ℝ 0 440 1 1]),
        output := fun _ => 0, sink := [], generated := [] }
      (default_context ℝ [osc_of ℝ 0 440 1 1]) rfl (by norm_num [default_context])
      (by norm_num [default_context]) hno).1⟩
theorem record_for_boundary (E : Env F) (n i : Nat) (g : rng_t) (c : context_t F)
    (out : Nat → F) (h : c.global_time + 1 / (c.sample_rate : F) ≥ c.duration_sec) :
    record_for E (n + 1) i (g, some c, out) =
      (((update_global_time E (generate_next_sample E g (some c)).2.1
            (generate_next_sample E g (some c)).2.2).2.1,
        (update_global_time E (generate_next_sample E g (some c)).2.1
            (generate_next_sample E g (some c)).2.2).2.2,
        Function.update out i (generate_next_sample E g (some c)).1),
       [(generate_next_sample E g (some c)).1]) := by
  have hb : (update_global_time E (generate_next_sample E g (some c)).2.1
      (generate_next_sample E g (some c)).2.2).1 = true := by
    rw [generate_next_sample_ctx, update_global_time_boundary E _
      { c with oscillators :=
          c.oscillators.map (fun osc => { osc with phase := advance_phase E c osc }) } h]
  simp only [record_for]
  rw [if_pos hb]

theorem record_for_mid (E : Env F) (n : Nat) :
    ∀ (i : Nat) (g : rng_t) (c : context_t F) (out : Nat → F),
      c.global_time + (n : F) * (1 / (c.sample_rate : F)) < c.duration_sec →
      0 < c.sample_rate →
      ∃ g1 bank, (record_for E n i (g, some c, out)).1.1 = g1 ∧
        (record_for E n i (g, some c, out)).1.2.1 = some { c with
          oscillators := bank,
          global_time := c.global_time + (n : F) * (1 / (c.sample_rate : F)) } ∧
        (record_for E n i (g, some c, out)).2.length = n := by
  induction n with
  | zero =>
    intro i g c out _ _
    refine ⟨g, c.oscillators, rfl, ?_, rfl⟩
    show some c = _
    simp
  | succ n ih =>
    intro i g c out hlt hsr
    have hpos : (0 : F) < 1 / (c.sample_rate : F) := by positivity
    have hn0 : (0 : F) ≤ (n : F) * (1 / (c.sample_rate : F)) :=
      mul_nonneg (Nat.cast_nonneg n) hpos.le
    have hcast : ((n + 1 : Nat) : F) = (n : F) + 1 := by push_cast; rfl
    rw [hcast] at hlt
    have hmid : ¬ (c.global_time + 1 / (c.sample_rate : F) ≥ c.duration_sec) := by
      rw [not_le]
      nlinarith
    have hb : ¬ ((update_global_time E (generate_next_sample E g (some c)).2.1
        (generate_next_sample E g (some c)).2.2).1 = true) := by
      rw [generate_next_sample_ctx, update_global_time_mid E _
        { c with oscillators :=
            c.oscillators.map (fun osc => { osc with phase := advance_phase E c osc }) } hmid]
      exact Bool.false_ne_true
    simp only [record_for]
    rw [if_neg hb, generate_next_sample_ctx, update_global_time_mid E _
      { c with oscillators :=
          c.oscillators.map (fun osc => { osc with phase := advance_phase E c osc }) } hmid]
    obtain ⟨g1, bank, e1, e2, e3⟩ := ih (i + 1) (generate_next_sample E g (some c)).2.1
      { c with
        oscillators :=
          c.oscillators.map (fun osc => { osc with phase := advance_phase E c osc }),
        global_time := c.global_time + 1 / (c.sample_rate : F) }
      (Function.update out i (generate_next_sample E g (some c)).1)
      (by
        show c.global_time + 1 / (c.sample_rate : F) + (n : F) * (1 / (c.sample_rate : F))
          < c.duration_sec
        linarith)
      hsr
    refine ⟨g1, bank, e1, ?_, ?_⟩
    · rw [e2, hcast]
      simp only [Option.some.injEq]
      congr 1
      ring
    · simp only [List.length_cons, e3]

theorem record_single_loop_one_chunk (E : Env F) (buffer : Nat → F) (st : record_t F)
    (c : context_t F) (hc : st.ctx = some c) (n : Nat) (hn : record_sample_count c = n)
    (h0 : n ≠ 0) (h1 : n ≤ RECORD_FRAME_SIZE) :
    record_single_loop E buffer st =
      { rng := (record_for E n 0 (st.rng, some c, buffer)).1.1,
        ctx := (record_for E n 0 (st.rng, some c, buffer)).1.2.1,
        output := (record_for E n 0 (st.rng, some c, buffer)).1.2.2,
        sink := st.sink ++
          [(List.range n).map (record_for E n 0 (st.rng, some c, buffer)).1.2.2],
        generated := st.generated ++ [(record_for E n 0 (st.rng, some c, buffer)).2] } := by
  have hmin : RANDAU_MIN RECORD_FRAME_SIZE n = n := by
    unfold RANDAU_MIN
    split_ifs <;> omega
  unfold record_single_loop
  rw [hc]
  simp only [hn]
  rw [record_while_pos E n h0, hmin, Nat.sub_self, record_while_zero]
theorem record_single_loop_no_boundary (E : Env F) (buffer : Nat → F) (st : record_t F)
    (c : context_t F) (hc : st.ctx = some c) (n : Nat) (hn : record_sample_count c = n)
    (h0 : n ≠ 0) (h1 : n ≤ RECORD_FRAME_SIZE)
    (hlt : c.global_time + (n : F) * (1 / (c.sample_rate : F)) < c.duration_sec)
    (hsr : 0 < c.sample_rate) :
    ∃ chunk gen bank,
      (record_single_loop E buffer st).sink = st.sink ++ [chunk] ∧ chunk.length = n ∧
      (record_single_loop E buffer st).generated = st.generated ++ [gen] ∧ gen.length = n ∧
      (record_single_loop E buffer st).ctx = some { c with
        oscillators := bank,
        global_time := c.global_time + (n : F) * (1 / (c.sample_rate : F)) } := by
  obtain ⟨g1, bank, _, m2, m3⟩ := record_for_mid E n 0 st.rng c buffer hlt hsr
  rw [record_single_loop_one_chunk E buffer st c hc n hn h0 h1]
  exact ⟨_, _, bank, rfl, by simp, rfl, m3, m2⟩

theorem record_single_loop_boundary_first (E : Env F) (buffer : Nat → F) (st : record_t F)
    (c : context_t F) (hc : st.ctx = some c) (hn : record_sample_count c = 6)
    (hb : c.global_time + 1 / (c.sample_rate : F) ≥ c.duration_sec) :
    ∃ s, (record_single_loop E buffer st).sink =
        st.sink ++ [[s, buffer 1, buffer 2, buffer 3, buffer 4, buffer 5]] ∧
      (record_single_loop E buffer st).generated = st.generated ++ [[s]] := by
  rw [record_single_loop_one_chunk E buffer st c hc 6 hn (by norm_num) (by norm_num),
    record_for_boundary E 5 0 st.rng c buffer hb]
  refine ⟨(generate_next_sample E st.rng (some c)).1, ?_, rfl⟩
  simp [List.range_succ, Function.update]

/-- Claim C15 fails on the code: `record_single_loop` leaves the `for` loop at a cycle
boundary but still hands `current_samples` frames to the sink.  With `sample_rate = 4`,
`duration_sec = 1.6` and `loop_count = 2` each recording loop has `6` samples and the cycle
boundary falls after the first sample of the second loop: the second block handed to the
sink has `6` frames although only one sample `s` was generated for it, and its other five
frames are the indeterminate content `buffers 1 1 .. buffers 1 5` of the array `output`. -/
theorem record_chunk_not_truncated (buffers : Nat → Nat → ℝ) :
    ∃ s : ℝ,
      (record_all_loops (Env.mk 32767 Real.pi Real.sin Real.exp) buffers
        { rng := const_rng 7,
          ctx := some { default_context ℝ [osc_of ℝ 0 440 1 1] with
            sample_rate := 4, duration_sec := 1.6, loop_count := 2 },
          output := fun _ => 0, sink := [], generated := [] }).sink.map List.length
        = [6, 6] ∧
      (record_all_loops (Env.mk 32767 Real.pi Real.sin Real.exp) buffers
        { rng := const_rng 7,
          ctx := some { default_context ℝ [osc_of ℝ 0 440 1 1] with
            sample_rate := 4, duration_sec := 1.6, loop_count := 2 },
          output := fun _ => 0, sink := [], generated := [] }).generated.map List.length
        = [6, 1] ∧
      (record_all_loops (Env.mk 32767 Real.pi Real.sin Real.exp) buffers
        { rng := const_rng 7,
          ctx := some { default_context ℝ [osc_of ℝ 0 440 1 1] with
            sample_rate := 4, duration_sec := 1.6, loop_count := 2 },
          output := fun _ => 0, sink := [], generated := [] }).generated[1]? = some [s] ∧
      (record_all_loops (Env.mk 32767 Real.pi Real.sin Real.exp) buffers
        { rng := const_rng 7,
          ctx := some { default_context ℝ [osc_of ℝ 0 440 1 1] with
            sample_rate := 4, duration_sec := 1.6, loop_count := 2 },
          output := fun _ => 0, sink := [], generated := [] }).sink[1]?
        = some [s, buffers 1 1, buffers 1 2, buffers 1 3, buffers 1 4, buffers 1 5] := by
  have hR : (1600 % SIZE_T_RANGE * 4 % SIZE_T_RANGE) / 1000 = 6 := by
    norm_num [SIZE_T_RANGE]
  have hall : record_all_loops (Env.mk 32767 Real.pi Real.sin Real.exp) buffers
      { rng := const_rng 7,
        ctx := some { default_context ℝ [osc_of ℝ 0 440 1 1] with
          sample_rate := 4, duration_sec := 1.6, loop_count := 2 },
        output := fun _ => 0, sink := [], generated := [] } =
      record_single_loop (Env.mk 32767 Real.pi Real.sin Real.exp) (buffers 1)
        (record_single_loop (Env.mk 32767 Real.pi Real.sin Real.exp) (buffers 0)
          { rng := const_rng 7,
            ctx := some { default_context ℝ [osc_of ℝ 0 440 1 1] with
              sample_rate := 4, duration_sec := 1.6, loop_count := 2 },
            output := fun _ => 0, sink := [], generated := [] }) := rfl
  -- first recording loop: six samples, no cycle boundary
  obtain ⟨chunk, gen, bank, a1, a2, a3, a4, a5⟩ := record_single_loop_no_boundary
    (Env.mk 32767 Real.pi Real.sin Real.exp) (buffers 0)
    { rng := const_rng 7,
      ctx := some { default_context ℝ [osc_of ℝ 0 440 1 1] with
        sample_rate := 4, duration_sec := 1.6, loop_count := 2 },
      output := fun _ => 0, sink := [], generated := [] } _ rfl 6
    (by rw [record_sample_count_val _ 1600 (by norm_num)]; exact hR)
    (by norm_num) (by norm_num) (by norm_num [default_context]) (by norm_num)
  -- second recording loop: the cycle boundary comes with its first sample
  obtain ⟨s, b1, b2⟩ := record_single_loop_boundary_first
    (Env.mk 32767 Real.pi Real.sin Real.exp) (buffers 1) _ _ a5
    (by rw [record_sample_count_val _ 1600 (by norm_num)]; exact hR)
    (by norm_num [default_context])
  rw [hall]
  refine ⟨s, ?_, ?_, ?_, ?_⟩
  · rw [b1, a1]
    simp [a2]
  · rw [b2, a3]
    simp [a4]
  · rw [b2, a3]
    simp
  · rw [b1, a1]
    simp

end Theorems

/-! ## Theorems about the binary32 instance -/

section Binary32

set_option linter.unusedSectionVars false
set_option linter.unusedVariables false

/-! ### Binary32 rounding -/

theorem round_half_even_eq (x : ℚ) (n : ℤ) (h1 : (n : ℚ) - 1 / 2 < x) (h2 : x < n + 1 / 2) :
    round_half_even x = n := by
  unfold round_half_even
  have hf := Int.floor_le x
  have hl := Int.lt_floor_add_one x
  by_cases c1 : x - ⌊x⌋ < 1 / 2
  · rw [if_pos c1]
    have a1 : ((⌊x⌋ : ℤ) : ℚ) < ((n + 1 : ℤ) : ℚ) := by push_cast; linarith
    have a2 : (n : ℚ) < ((⌊x⌋ + 1 : ℤ) : ℚ) := by push_cast; linarith
    have b1 : ⌊x⌋ < n + 1 := by exact_mod_cast a1
    have b2 : n < ⌊x⌋ + 1 := by exact_mod_cast a2
    omega
  · rw [if_neg c1]
    by_cases c2 : 1 / 2 < x - ⌊x⌋
    · rw [if_pos c2]
      have a1 : ((⌊x⌋ : ℤ) : ℚ) < n := by linarith
      have a2 : ((n - 1 : ℤ) : ℚ) < ((⌊x⌋ + 1 : ℤ) : ℚ) := by push_cast; linarith
      have b1 : ⌊x⌋ < n := by exact_mod_cast a1
      have b2 : n - 1 < ⌊x⌋ + 1 := by exact_mod_cast a2
      omega
    · exfalso
      have e : x - ⌊x⌋ = 1 / 2 := le_antisymm (not_lt.mp c2) (not_lt.mp c1)
      have a1 : ((⌊x⌋ : ℤ) : ℚ) < n := by linarith
      have a2 : ((n - 1 : ℤ) : ℚ) < ⌊x⌋ := by push_cast; linarith
      have b1 : ⌊x⌋ < n := by exact_mod_cast a1
      have b2 : n - 1 < ⌊x⌋ := by exact_mod_cast a2
      omega

theorem round_half_even_tie (x : ℚ) (n : ℤ) (hx : x = n + 1 / 2) :
    round_half_even x = if n % 2 = 0 then n else n + 1 := by
  have hfl : ⌊x⌋ = n := by
    rw [Int.floor_eq_iff, hx]
    constructor <;> linarith
  unfold round_half_even
  rw [hfl, hx]
  rw [if_neg (by norm_num), if_neg (by norm_num)]

theorem round_half_even_near (x : ℚ) :
    |(round_half_even x : ℚ) - x| ≤ 1 / 2 := by
  unfold round_half_even
  have hf := Int.floor_le x
  have hl := Int.lt_floor_add_one x
  rw [abs_le]
  split_ifs with c1 c2 c3
  · constructor <;> linarith
  · push_cast; constructor <;> linarith
  · have e : x - ⌊x⌋ = 1 / 2 := le_antisymm (not_lt.mp c2) (not_lt.mp c1)
    constructor <;> linarith
  · have e : x - ⌊x⌋ = 1 / 2 := le_antisymm (not_lt.mp c2) (not_lt.mp c1)
    push_cast; constructor <;> linarith

theorem round_half_even_nonneg (x : ℚ) (hx : 0 ≤ x) : 0 ≤ round_half_even x := by
  unfold round_half_even
  have h0 : 0 ≤ ⌊x⌋ := Int.floor_nonneg.mpr hx
  split_ifs <;> omega

theorem f32_quantum_pos (q : ℚ) : 0 < f32_quantum q := by
  unfold f32_quantum
  positivity

theorem f32_quantum_eq (q : ℚ) (e : ℤ) (he : -126 ≤ e) (h1 : 2 ^ e ≤ |q|)
    (h2 : |q| < 2 ^ (e + 1)) : f32_quantum q = 2 ^ (e - 23) := by
  have hpos : 0 < |q| := lt_of_lt_of_le (by positivity) h1
  have hlog : Int.log 2 |q| = e := by
    apply le_antisymm
    · have := (@Int.lt_zpow_iff_log_lt ℚ _ _ 2 (by norm_num) _ _ hpos).mp h2
      omega
    · exact (@Int.zpow_le_iff_le_log ℚ _ _ 2 (by norm_num) _ _ hpos).mp h1
  unfold f32_quantum
  rw [hlog, max_eq_left he]

theorem f32_nearest_zero : f32_nearest 0 = 0 := by
  unfold f32_nearest
  have h : round_half_even (0 / f32_quantum 0) = 0 := by
    apply round_half_even_eq <;> norm_num
  rw [h]
  norm_num

theorem f32_round_zero : f32_round 0 = f32.fin 0 := by
  unfold f32_round
  rw [f32_nearest_zero]
  norm_num

theorem f32_round_near (q r u : ℚ) (e n : ℤ) (he : -126 ≤ e) (he2 : e ≤ 126)
    (hu : u = 2 ^ (e - 23)) (h1 : 2 ^ e ≤ |q|) (h2 : |q| < 2 ^ (e + 1))
    (hr : r = n * u) (hn : |q - r| < u / 2) : f32_round q = f32.fin r := by
  have hq := f32_quantum_eq q e he h1 h2
  have hupos : 0 < u := by rw [hu]; positivity
  have hrd : round_half_even (q / u) = n := by
    apply round_half_even_eq
    · rw [lt_div_iff₀ hupos]
      have := (abs_lt.mp hn).1
      rw [hr] at this
      linarith
    · rw [div_lt_iff₀ hupos]
      have := (abs_lt.mp hn).2
      rw [hr] at this
      linarith
  unfold f32_round f32_nearest
  rw [hq, ← hu, hrd, ← hr]
  rw [if_neg]
  rw [not_le]
  have hule : u ≤ 2 ^ e := by
    rw [hu]
    exact zpow_le_zpow_right₀ (by norm_num) (by omega)
  have h3 : |r| ≤ |q| + |q - r| := by
    have := abs_sub_abs_le_abs_sub r q
    rw [abs_sub_comm r q] at this
    linarith
  have h4 : (2 : ℚ) ^ (e + 1) = 2 * 2 ^ e := by
    rw [zpow_add_one₀ (by norm_num)]; ring
  have h5 : (2 : ℚ) ^ e ≤ 2 ^ (126 : ℤ) := zpow_le_zpow_right₀ (by norm_num) he2
  have h6 : (2 : ℚ) ^ (128 : ℕ) = 4 * 2 ^ (126 : ℤ) := by norm_num
  rw [h6]
  have : (0 : ℚ) < 2 ^ e := by positivity
  linarith

/-- Evaluation of `f32_round` at a positive number that is not halfway between two
neighbours. -/
theorem f32_round_pos (q r u : ℚ) (e n : ℤ) (he : -126 ≤ e) (he2 : e ≤ 126)
    (hu : u = 2 ^ (e - 23)) (h1 : 2 ^ e ≤ q) (h2 : q < 2 ^ (e + 1))
    (hr : r = n * u) (hn1 : r - u / 2 < q) (hn2 : q < r + u / 2) :
    f32_round q = f32.fin r := by
  have hq0 : 0 < q := lt_of_lt_of_le (by positivity) h1
  apply f32_round_near q r u e n he he2 hu
  · rwa [abs_of_pos hq0]
  · rwa [abs_of_pos hq0]
  · exact hr
  · rw [abs_lt]; constructor <;> linarith

/-- Evaluation of `f32_round` at a negative number that is not halfway between two
neighbours. -/
theorem f32_round_neg (q r u : ℚ) (e n : ℤ) (he : -126 ≤ e) (he2 : e ≤ 126)
    (hu : u = 2 ^ (e - 23)) (h1 : 2 ^ e ≤ -q) (h2 : -q < 2 ^ (e + 1))
    (hr : r = n * u) (hn1 : r - u / 2 < q) (hn2 : q < r + u / 2) :
    f32_round q = f32.fin r := by
  have hq0 : q < 0 := by
    have : (0 : ℚ) < 2 ^ e := by positivity
    linarith
  apply f32_round_near q r u e n he he2 hu
  · rwa [abs_of_neg hq0]
  · rwa [abs_of_neg hq0]
  · exact hr
  · rw [abs_lt]; constructor <;> linarith

/-- Evaluation of `f32_round` at a positive number halfway between two neighbours. -/
theorem f32_round_tie (q u : ℚ) (e n : ℤ) (he : -126 ≤ e) (he2 : e ≤ 126)
    (hu : u = 2 ^ (e - 23)) (h1 : 2 ^ e ≤ q) (h2 : q < 2 ^ (e + 1))
    (hq : q = (n + 1 / 2) * u) :
    f32_round q = f32.fin (((if n % 2 = 0 then n else n + 1 : ℤ) : ℚ) * u) := by
  have hq0 : 0 < q := lt_of_lt_of_le (by positivity) h1
  have hqe := f32_quantum_eq q e he (by rwa [abs_of_pos hq0]) (by rwa [abs_of_pos hq0])
  have hupos : 0 < u := by rw [hu]; positivity
  have hrd : round_half_even (q / u) = if n % 2 = 0 then n else n + 1 := by
    apply round_half_even_tie
    rw [hq]
    field_simp
    ring
  unfold f32_round f32_nearest
  rw [hqe, ← hu, hrd]
  rw [if_neg]
  rw [not_le]
  have hule : u ≤ 2 ^ e := by
    rw [hu]
    exact zpow_le_zpow_right₀ (by norm_num) (by omega)
  have h4 : (2 : ℚ) ^ (e + 1) = 2 * 2 ^ e := by
    rw [zpow_add_one₀ (by norm_num)]; ring
  have h5 : (2 : ℚ) ^ e ≤ 2 ^ (126 : ℤ) := zpow_le_zpow_right₀ (by norm_num) he2
  have h6 : (2 : ℚ) ^ (128 : ℕ) = 4 * 2 ^ (126 : ℤ) := by norm_num
  rw [h6]
  have hpe : (0 : ℚ) < 2 ^ e := by positivity
  have hn0 : (0 : ℚ) ≤ n + 1 / 2 := by
    by_contra hc
    have : (n + 1 / 2 : ℚ) * u < 0 := mul_neg_of_neg_of_pos (not_le.mp hc) hupos
    linarith
  have hb : (((if n % 2 = 0 then n else n + 1 : ℤ) : ℚ)) * u ≤ q + u := by
    split_ifs
    · rw [hq]; nlinarith
    · rw [hq]; push_cast; nlinarith
  have hb0 : 0 ≤ (((if n % 2 = 0 then n else n + 1 : ℤ) : ℚ)) * u := by
    apply mul_nonneg _ hupos.le
    have hn1 : (-1 : ℚ) < n := by linarith
    have hn2 : (-1 : ℤ) < n := by exact_mod_cast hn1
    split_ifs
    · exact_mod_cast (by omega : (0 : ℤ) ≤ n)
    · exact_mod_cast (by omega : (0 : ℤ) ≤ n + 1)
  rw [abs_of_nonneg hb0]
  linarith

theorem f32_nearest_near (q : ℚ) : |f32_nearest q - q| ≤ f32_quantum q / 2 := by
  have hu := f32_quantum_pos q
  have h := round_half_even_near (q / f32_quantum q)
  unfold f32_nearest
  have e : (round_half_even (q / f32_quantum q) : ℚ) * f32_quantum q - q
      = ((round_half_even (q / f32_quantum q) : ℚ) - q / f32_quantum q) * f32_quantum q := by
    field_simp
  rw [e, abs_mul, abs_of_pos hu]
  calc |(round_half_even (q / f32_quantum q) : ℚ) - q / f32_quantum q| * f32_quantum q
      ≤ 1 / 2 * f32_quantum q := mul_le_mul_of_nonneg_right h hu.le
    _ = f32_quantum q / 2 := by ring

theorem f32_nearest_nonneg (q : ℚ) (hq : 0 ≤ q) : 0 ≤ f32_nearest q := by
  unfold f32_nearest
  have hu := f32_quantum_pos q
  have h : 0 ≤ round_half_even (q / f32_quantum q) :=
    round_half_even_nonneg _ (div_nonneg hq hu.le)
  exact mul_nonneg (by exact_mod_cast h) hu.le

theorem f32_quantum_le_of_normal (q : ℚ) (h : 2 ^ (-126 : ℤ) ≤ |q|) :
    f32_quantum q ≤ |q| * 2 ^ (-23 : ℤ) := by
  have hpos : 0 < |q| := lt_of_lt_of_le (by positivity) h
  have hlog : -126 ≤ Int.log 2 |q| :=
    (@Int.zpow_le_iff_le_log ℚ _ _ 2 (by norm_num) _ _ hpos).mp (by exact_mod_cast h)
  have hle : (2 : ℚ) ^ Int.log 2 |q| ≤ |q| := by
    have := @Int.zpow_log_le_self ℚ _ _ 2 |q| (by norm_num) hpos
    exact_mod_cast this
  unfold f32_quantum
  rw [max_eq_left hlog, zpow_sub₀ (by norm_num), zpow_neg, div_eq_mul_inv]
  exact mul_le_mul_of_nonneg_right hle (by positivity)

theorem f32_quantum_le (q : ℚ) : f32_quantum q ≤ max |q| 1 := by
  by_cases h : 2 ^ (-126 : ℤ) ≤ |q|
  · have h1 := f32_quantum_le_of_normal q h
    have h2 : |q| * 2 ^ (-23 : ℤ) ≤ |q| := by
      have : (2 : ℚ) ^ (-23 : ℤ) ≤ 1 := by norm_num
      nlinarith [abs_nonneg q]
    exact le_trans (le_trans h1 h2) (le_max_left _ _)
  · have hlt : |q| < 2 ^ (-126 : ℤ) := not_le.mp h
    have hlog : Int.log 2 |q| ≤ 0 := by
      by_cases h0 : |q| = 0
      · rw [h0]; simp
      · have hpos : 0 < |q| := lt_of_le_of_ne (abs_nonneg q) (Ne.symm h0)
        have h6 : Int.log 2 |q| < -126 :=
          (@Int.lt_zpow_iff_log_lt ℚ _ _ 2 (by norm_num) _ _ hpos).mp
            (by exact_mod_cast hlt)
        omega
    unfold f32_quantum
    have h3 : max (Int.log 2 |q|) (-126) - 23 ≤ 0 := by
      have := max_le hlog (by norm_num : (-126 : ℤ) ≤ 0)
      omega
    have h4 : (2 : ℚ) ^ (max (Int.log 2 |q|) (-126) - 23) ≤ 2 ^ (0 : ℤ) :=
      zpow_le_zpow_right₀ (by norm_num) h3
    rw [zpow_zero] at h4
    exact le_trans h4 (le_max_right _ _)

/-- A number of magnitude below `2 ^ 127` rounds to a finite value. -/
theorem f32_round_fin (q : ℚ) (h : |q| < 2 ^ 127) : f32_round q = f32.fin (f32_nearest q) := by
  unfold f32_round
  rw [if_neg]
  rw [not_le]
  have h1 := f32_nearest_near q
  have h2 := f32_quantum_le q
  have h3 : |f32_nearest q| ≤ |q| + |f32_nearest q - q| := by
    have := abs_sub_abs_le_abs_sub (f32_nearest q) q
    linarith
  have h4 : max |q| 1 < 2 ^ 127 := max_lt h (by norm_num)
  have h5 : (2 : ℚ) ^ 128 = 2 * 2 ^ 127 := by norm_num
  rw [h5]
  linarith

/-- The rounding of a number that is not negative is finite and not negative, or the
positive infinity. -/
theorem f32_round_of_nonneg (q : ℚ) (hq : 0 ≤ q) :
    (f32_round q = f32.fin (f32_nearest q) ∧ 0 ≤ f32_nearest q) ∨
      f32_round q = f32.inf false := by
  unfold f32_round
  by_cases h : 2 ^ 128 ≤ |f32_nearest q|
  · right
    rw [if_pos h]
    simp [not_lt.mpr hq]
  · left
    rw [if_neg h]
    exact ⟨rfl, f32_nearest_nonneg q hq⟩

/-! ### Binary32 operations on finite values -/

theorem f32_add_fin (a b : ℚ) : f32.fin a + f32.fin b = f32_round (a + b) := rfl

theorem f32_sub_fin (a b : ℚ) : f32.fin a - f32.fin b = f32_round (a - b) := rfl

theorem f32_mul_fin (a b : ℚ) : f32.fin a * f32.fin b = f32_round (a * b) := rfl

theorem f32_div_fin (a b : ℚ) (hb : b ≠ 0) : f32.fin a / f32.fin b = f32_round (a / b) := by
  show (if b = 0 then (if a = 0 then f32.nan else f32.inf (decide (a < 0)))
    else f32_round (a / b)) = _
  rw [if_neg hb]

theorem f32_natCast (n : ℕ) : ((n : ℕ) : f32) = f32_round (n : ℚ) := rfl

theorem f32_ofScientific (m : ℕ) (s : Bool) (e : ℕ) :
    (OfScientific.ofScientific m s e : f32) = f32_round (OfScientific.ofScientific m s e) := rfl

theorem f32_zero : (0 : f32) = f32.fin 0 := rfl

theorem f32_one : (1 : f32) = f32.fin 1 := rfl

theorem f32_fin_le (a b : ℚ) : f32.fin a ≤ f32.fin b ↔ a ≤ b := by
  show f32.ble (f32.fin a) (f32.fin b) = true ↔ _
  simp [f32.ble]

theorem f32_fin_lt (a b : ℚ) : f32.fin a < f32.fin b ↔ a < b := by
  show f32.blt (f32.fin a) (f32.fin b) = true ↔ _
  simp [f32.blt]

/-- Evaluation of `f32_round` at a number of the format. -/
theorem f32_round_exact (q u : ℚ) (e n : ℤ) (he : -126 ≤ e) (he2 : e ≤ 126)
    (hu : u = 2 ^ (e - 23)) (h1 : 2 ^ e ≤ |q|) (h2 : |q| < 2 ^ (e + 1))
    (hr : q = n * u) : f32_round q = f32.fin q := by
  apply f32_round_near q q u e n he he2 hu h1 h2 hr
  rw [sub_self, abs_zero, hu]
  positivity

/-! ### Relative error of binary32 rounding -/

/-- In the normal range the rounding error is at most `2 ^ (-24)` times the magnitude. -/
theorem f32_nearest_rel (q : ℚ) (h : 2 ^ (-126 : ℤ) ≤ |q|) :
    |f32_nearest q - q| ≤ |q| * 2 ^ (-24 : ℤ) := by
  have h1 := f32_nearest_near q
  have h2 := f32_quantum_le_of_normal q h
  have h3 : |q| * 2 ^ (-23 : ℤ) / 2 = |q| * 2 ^ (-24 : ℤ) := by
    norm_num
    ring
  calc |f32_nearest q - q| ≤ f32_quantum q / 2 := h1
    _ ≤ |q| * 2 ^ (-23 : ℤ) / 2 := by
      apply div_le_div_of_nonneg_right h2 (by norm_num)
    _ = |q| * 2 ^ (-24 : ℤ) := h3

theorem f32_nearest_abs_le (q : ℚ) (h : 2 ^ (-126 : ℤ) ≤ |q|) :
    |f32_nearest q| ≤ |q| * (1 + 2 ^ (-24 : ℤ)) := by
  have h1 := f32_nearest_rel q h
  have h2 : |f32_nearest q| ≤ |q| + |f32_nearest q - q| := by
    have := abs_sub_abs_le_abs_sub (f32_nearest q) q
    linarith
  linarith

theorem f32_nearest_abs_ge (q : ℚ) (h : 2 ^ (-126 : ℤ) ≤ |q|) :
    |q| * (1 - 2 ^ (-24 : ℤ)) ≤ |f32_nearest q| := by
  have h1 := f32_nearest_rel q h
  have h2 : |q| ≤ |f32_nearest q| + |f32_nearest q - q| := by
    have := abs_sub_abs_le_abs_sub q (f32_nearest q)
    rw [abs_sub_comm q (f32_nearest q)] at this
    linarith
  linarith

theorem f32_nearest_ge (q : ℚ) (hq : 0 ≤ q) (h : 2 ^ (-126 : ℤ) ≤ q) :
    q * (1 - 2 ^ (-24 : ℤ)) ≤ f32_nearest q := by
  have h1 := f32_nearest_abs_ge q (by rwa [abs_of_nonneg hq])
  rw [abs_of_nonneg hq, abs_of_nonneg (f32_nearest_nonneg q hq)] at h1
  exact h1

/-! ### Error bounds of binary32 rounding -/

theorem f32_quantum_sub (q : ℚ) (h0 : q ≠ 0) (h2 : |q| < 2 ^ (-126 : ℤ)) :
    f32_quantum q = 2 ^ (-149 : ℤ) := by
  unfold f32_quantum
  have hlog : Int.log 2 |q| ≤ -126 := by
    have hpos : 0 < |q| := abs_pos.mpr h0
    have h6 : Int.log 2 |q| < -126 :=
      (@Int.lt_zpow_iff_log_lt ℚ _ _ 2 (by norm_num) _ _ hpos).mp (by exact_mod_cast h2)
    omega
  rw [max_eq_right hlog]
  norm_num

/-- The rounding error is at most `2 ^ (-24)` times the magnitude plus `2 ^ (-150)`. -/
theorem f32_nearest_err (q : ℚ) :
    |f32_nearest q - q| ≤ |q| / 16777216 + 1 / 2 ^ 150 := by
  by_cases h0 : q = 0
  · rw [h0, f32_nearest_zero]
    norm_num
  · by_cases hn : 2 ^ (-126 : ℤ) ≤ |q|
    · have h1 := f32_nearest_rel q hn
      have h2 : |q| * 2 ^ (-24 : ℤ) = |q| / 16777216 := by
        norm_num
        ring
      rw [h2] at h1
      have h3 : (0 : ℚ) ≤ 1 / 2 ^ 150 := by positivity
      linarith
    · have h1 := f32_nearest_near q
      rw [f32_quantum_sub q h0 (not_le.mp hn)] at h1
      have h2 : (2 : ℚ) ^ (-149 : ℤ) / 2 = 1 / 2 ^ 150 := by norm_num
      rw [h2] at h1
      have h3 : (0 : ℚ) ≤ |q| / 16777216 := by positivity
      linarith

/-- Rounding of a number `0 ≤ q ≤ 2 ^ 64`: the result is finite, not negative, and within
the error bound. -/
theorem f32_round_bound (q : ℚ) (h0 : 0 ≤ q) (h1 : q ≤ 2 ^ 64) :
    ∃ r, f32_round q = f32.fin r ∧ 0 ≤ r ∧ r ≤ q + (q / 16777216 + 1 / 2 ^ 150) ∧
      q - (q / 16777216 + 1 / 2 ^ 150) ≤ r := by
  have hfin : f32_round q = f32.fin (f32_nearest q) := by
    apply f32_round_fin
    rw [abs_of_nonneg h0]
    have : (2 : ℚ) ^ 64 < 2 ^ 127 := by norm_num
    linarith
  have he := f32_nearest_err q
  rw [abs_of_nonneg h0, abs_le] at he
  exact ⟨_, hfin, f32_nearest_nonneg q h0, by linarith [he.2], by linarith [he.1]⟩

/-! ### The clock in binary32 -/

theorem f32_lit_zero : (0.0 : f32) = 0 :=
  (f32_ofScientific 0 true 1).trans (by
    have h : (OfScientific.ofScientific 0 true 1 : ℚ) = 0 := by norm_num
    rw [h, f32_round_zero]
    rfl)

theorem f32_lit_one : (1.0 : f32) = f32.fin 1 :=
  f32_round_pos (1.0 : ℚ) 1 (1 / 8388608) 0 8388608 (by norm_num) (by norm_num)
    (by norm_num) (by norm_num) (by norm_num) (by norm_num) (by norm_num) (by norm_num)

theorem f32_cast_44100 : ((44100 : ℕ) : f32) = f32.fin 44100 :=
  (f32_natCast 44100).trans
    (f32_round_pos ((44100 : ℕ) : ℚ) 44100 (1 / 256) 15 11289600 (by norm_num) (by norm_num)
      (by norm_num) (by norm_num) (by norm_num) (by norm_num) (by norm_num) (by norm_num))

/-- The clock increment `1.0f / sample_rate` at the sample rate 44100. -/
theorem f32_increment_44100 :
    (1.0 : f32) / ((44100 : ℕ) : f32) = f32.fin (6233059 / 274877906944) := by
  rw [f32_lit_one, f32_cast_44100, f32_div_fin _ _ (by norm_num)]
  exact f32_round_pos (1 / 44100) (6233059 / 274877906944) (1 / 549755813888) (-16) 12466118
    (by norm_num) (by norm_num) (by norm_num) (by norm_num) (by norm_num) (by norm_num)
    (by norm_num) (by norm_num)

theorem f32_lit_0_1 : (0.1 : f32) = f32.fin (13421773 / 134217728) :=
  f32_round_pos (0.1 : ℚ) (13421773 / 134217728) (1 / 134217728) (-4) 13421773 (by norm_num)
    (by norm_num) (by norm_num) (by norm_num) (by norm_num) (by norm_num) (by norm_num)
    (by norm_num)

theorem f32_lit_10 : (10.0 : f32) = f32.fin 10 :=
  f32_round_pos (10.0 : ℚ) 10 (1 / 1048576) 3 10485760 (by norm_num)
    (by norm_num) (by norm_num) (by norm_num) (by norm_num) (by norm_num) (by norm_num)
    (by norm_num)

theorem f32_lit_0_15 : (0.15 : f32) = f32.fin (5033165 / 33554432) :=
  f32_round_pos (0.15 : ℚ) (5033165 / 33554432) (1 / 67108864) (-3) 10066330 (by norm_num)
    (by norm_num) (by norm_num) (by norm_num) (by norm_num) (by norm_num) (by norm_num)
    (by norm_num)

theorem f32_zero_mul_fin (a : ℚ) : f32.fin 0 * f32.fin a = f32.fin 0 := by
  rw [f32_mul_fin, zero_mul, f32_round_zero]

theorem f32_fin_mul_zero (a : ℚ) : f32.fin a * f32.fin 0 = f32.fin 0 := by
  rw [f32_mul_fin, mul_zero, f32_round_zero]

/-- The second factor of the click envelope at `global_time = 0` is finite as soon as
`duration_sec` passes the test of `parse_config` (it is not `≤ 0`). -/
theorem click_envelope_tail_finite (D : f32) (hD : ¬ (D ≤ 0)) :
    ∃ s : ℚ, (if D - (0 : f32) < 0.1 then (D - (0 : f32)) * 10.0 else 1.0) = f32.fin s := by
  rw [f32_lit_0_1, f32_lit_10, f32_lit_one, f32_zero]
  cases D with
  | fin d =>
    have hd : 0 ≤ d := by
      have h2 : ¬ (d ≤ 0) := fun h => hD ((f32_fin_le d 0).mpr h)
      exact le_of_lt (not_le.mp h2)
    rw [f32_sub_fin, sub_zero]
    rcases f32_round_of_nonneg d hd with ⟨h1, h2⟩ | h1
    · rw [h1]
      by_cases hc : f32.fin (f32_nearest d) < f32.fin (13421773 / 134217728)
      · rw [if_pos hc, f32_mul_fin]
        rw [f32_fin_lt] at hc
        refine ⟨_, f32_round_fin _ ?_⟩
        rw [abs_of_nonneg (mul_nonneg h2 (by norm_num))]
        have h3 : (2 : ℚ) ≤ 2 ^ 127 := by norm_num
        linarith only [hc, h3]
      · rw [if_neg hc]
        exact ⟨1, rfl⟩
    · rw [h1, if_neg (by show ¬ (f32.blt _ _ = true); simp [f32.blt])]
      exact ⟨1, rfl⟩
  | inf s =>
    have hs : s = false := by
      cases s
      · rfl
      · exact absurd (show f32.ble (f32.inf true) (f32.fin 0) = true by simp [f32.ble]) hD
    rw [hs, if_neg (by show ¬ (f32.blt _ _ = true); simp [f32.blt, HSub.hSub, Sub.sub, f32.sub])]
    exact ⟨1, rfl⟩
  | nan =>
    rw [if_neg (by show ¬ (f32.blt _ _ = true); simp [f32.blt, HSub.hSub, Sub.sub, f32.sub])]
    exact ⟨1, rfl⟩

theorem click_envelope_onset_f32 (D : f32) (hD : ¬ (D ≤ 0)) :
    click_envelope (0 : f32) D = 0 := by
  obtain ⟨s, hs⟩ := click_envelope_tail_finite D hD
  unfold click_envelope
  rw [hs]
  have h01 : (0 : f32) < 0.1 := by
    rw [f32_lit_0_1, f32_zero, f32_fin_lt]
    norm_num
  rw [if_pos h01, f32_lit_10, f32_zero, f32_zero_mul_fin, f32_zero_mul_fin]

theorem f32_lit_7 : (7.0 : f32) = f32.fin 7 :=
  f32_round_pos (7.0 : ℚ) 7 (1 / 2097152) 2 14680064 (by norm_num) (by norm_num)
    (by norm_num) (by norm_num) (by norm_num) (by norm_num) (by norm_num) (by norm_num)

theorem f32_nan_mul (x : f32) : f32.nan * x = f32.nan := by
  cases x <;> rfl

theorem f32_inf_mul_zero (t : Bool) : f32.inf t * f32.fin 0 = f32.nan := by
  show f32.mul (f32.inf t) (f32.fin 0) = f32.nan
  simp [f32.mul]

/-- With an infinite amplitude the mixed sum of one oscillator is an infinity or NaN,
whatever the waveform value `w` is. -/
theorem mix_infinite_amp (w : f32) :
    (∃ t, (0.0 : f32) + (0.15 : f32) * f32.inf false * w = f32.inf t) ∨
      (0.0 : f32) + (0.15 : f32) * f32.inf false * w = f32.nan := by
  have h1 : (0.15 : f32) * f32.inf false = f32.inf false := by
    rw [f32_lit_0_15]
    show (if (5033165 / 33554432 : ℚ) = 0 then f32.nan else _) = _
    rw [if_neg (by norm_num)]
    norm_num
  rw [h1, f32_lit_zero, f32_zero]
  cases w with
  | fin a =>
    by_cases ha : a = 0
    · right
      rw [ha, f32_inf_mul_zero]
      rfl
    · left
      refine ⟨xor false (decide (a < 0)), ?_⟩
      show f32.fin 0 + (if a = 0 then f32.nan else f32.inf (xor false (decide (a < 0)))) = _
      rw [if_neg ha]
      rfl
  | inf t => exact Or.inl ⟨xor false t, rfl⟩
  | nan => exact Or.inr rfl

/-- At `global_time = 0` the click envelope of a context whose `duration_sec` is the negative
infinity is `0 * (-inf)`, which is NaN. -/
theorem click_envelope_neg_inf : click_envelope (0 : f32) (f32.inf true) = f32.nan := by
  unfold click_envelope
  have h01 : (0 : f32) < 0.1 := by
    rw [f32_lit_0_1, f32_zero, f32_fin_lt]
    norm_num
  have hs : f32.inf true - (0 : f32) = f32.inf true := rfl
  have hlt : f32.inf true < (0.1 : f32) := by
    rw [f32_lit_0_1]
    rfl
  have hm : f32.inf true * (10.0 : f32) = f32.inf true := by
    rw [f32_lit_10]
    show (if (10 : ℚ) = 0 then f32.nan else f32.inf (xor true (decide ((10 : ℚ) < 0)))) = _
    rw [if_neg (by norm_num)]
    norm_num
  rw [if_pos h01, hs, if_pos hlt, hm, f32_lit_10, f32_zero, f32_zero_mul_fin]
  show f32.mul (f32.fin 0) (f32.inf true) = f32.nan
  simp [f32.mul]

theorem f32_mul_nonneg_fin (x y : f32) (p : ℚ) (hx : 0 ≤ x) (hy : 0 ≤ y)
    (hp : x * y = f32.fin p) : 0 ≤ p := by
  cases x with
  | fin a =>
    cases y with
    | fin b =>
      have ha : 0 ≤ a := (f32_fin_le 0 a).mp hx
      have hb : 0 ≤ b := (f32_fin_le 0 b).mp hy
      rw [f32_mul_fin] at hp
      rcases f32_round_of_nonneg (a * b) (mul_nonneg ha hb) with ⟨h1, h2⟩ | h1
      · rw [h1] at hp
        injection hp with hp
        rw [← hp]
        exact h2
      · rw [h1] at hp
        exact f32.noConfusion hp
    | inf t =>
      exfalso
      have h : f32.fin a * f32.inf t = f32.mul (f32.fin a) (f32.inf t) := rfl
      rw [h] at hp
      simp only [f32.mul] at hp
      split at hp <;> exact f32.noConfusion hp
    | nan => exact f32.noConfusion (show f32.nan = f32.fin p from hp)
  | inf s =>
    exfalso
    cases y with
    | fin b =>
      have h : f32.inf s * f32.fin b = f32.mul (f32.inf s) (f32.fin b) := rfl
      rw [h] at hp
      simp only [f32.mul] at hp
      split at hp <;> exact f32.noConfusion hp
    | inf t => exact f32.noConfusion (show f32.inf (xor s t) = f32.fin p from hp)
    | nan => exact f32.noConfusion (show f32.nan = f32.fin p from hp)
  | nan =>
    exfalso
    have h : f32.nan * y = f32.nan := by cases y <;> rfl
    rw [h] at hp
    exact f32.noConfusion hp

theorem beat_phase_fin (x y : f32) (p : ℚ) (hp : x * y = f32.fin p) :
    beat_phase x y = f32.fin (fmod p 1) := by
  show f32.fmod (x * y) (1.0 : f32) = _
  rw [hp, f32_lit_one]
  show (if (1 : ℚ) = 0 then f32.nan else f32.fin (fmod p 1)) = _
  rw [if_neg (by norm_num)]

theorem f32_round_overflow : f32_round (2 * 2 ^ 127) = f32.inf false := by
  have hq : f32_quantum (2 * 2 ^ 127) = 2 ^ (105 : ℤ) := by
    have h := f32_quantum_eq (2 * 2 ^ 127) 128 (by norm_num)
      (by rw [abs_of_pos (by positivity)]; norm_num)
      (by rw [abs_of_pos (by positivity)]; norm_num)
    rw [h]
    norm_num
  have hrd : round_half_even ((2 * 2 ^ 127 : ℚ) / 2 ^ (105 : ℤ)) = 8388608 := by
    apply round_half_even_eq <;> norm_num
  unfold f32_round f32_nearest
  rw [hq, hrd, if_pos (by norm_num)]
  simp

theorem f32_lit_neg_half : (-0.5 : f32) = f32.fin (-1 / 2) := by
  have h : (0.5 : f32) = f32.fin (1 / 2) :=
    f32_round_pos (0.5 : ℚ) (1 / 2) (1 / 16777216) (-1) 8388608 (by norm_num) (by norm_num)
      (by norm_num) (by norm_num) (by norm_num) (by norm_num) (by norm_num) (by norm_num)
  show f32.neg (0.5 : f32) = _
  rw [h]
  show f32.fin (-(1 / 2)) = _
  norm_num

theorem beat_phase_inf (x y : f32) (t : Bool) (hp : x * y = f32.inf t) :
    beat_phase x y = f32.nan := by
  show f32.fmod (x * y) (1.0 : f32) = _
  rw [hp, f32_lit_one]
  rfl

theorem f32_lit_0_7 : (0.7 : f32) = f32.fin (11744051 / 16777216) :=
  f32_round_pos (0.7 : ℚ) (11744051 / 16777216) (1 / 16777216) (-1) 11744051 (by norm_num)
    (by norm_num) (by norm_num) (by norm_num) (by norm_num) (by norm_num) (by norm_num)
    (by norm_num)

theorem f32_lit_1_9 : (1.9 : f32) = f32.fin (15938355 / 8388608) :=
  f32_round_pos (1.9 : ℚ) (15938355 / 8388608) (1 / 8388608) 0 15938355 (by norm_num)
    (by norm_num) (by norm_num) (by norm_num) (by norm_num) (by norm_num) (by norm_num)
    (by norm_num)

theorem f32_cast_32767 : ((32767 : ℕ) : f32) = f32.fin 32767 :=
  (f32_natCast 32767).trans
    (f32_round_pos ((32767 : ℕ) : ℚ) 32767 (1 / 512) 14 16776704 (by norm_num) (by norm_num)
      (by norm_num) (by norm_num) (by norm_num) (by norm_num) (by norm_num) (by norm_num))

theorem random_float_range_top (sin exp : f32 → f32) (g : rng_t)
    (hg : g.draws g.pos = 32767) :
    (random_float_range (Env.mk 32767 MA_PI_F sin exp) g 0.7 1.9).1
      = f32.fin (3984589 / 2097152) := by
  have hc : ¬ ((0.7 : f32) ≥ 1.9) := by
    rw [f32_lit_0_7, f32_lit_1_9]
    show ¬ (f32.fin _ ≤ f32.fin _)
    rw [f32_fin_le]
    norm_num
  have h1 : f32_round (32767 / 32767 : ℚ) = f32.fin 1 :=
    f32_round_pos (32767 / 32767 : ℚ) 1 (1 / 8388608) 0 8388608 (by norm_num) (by norm_num)
      (by norm_num) (by norm_num) (by norm_num) (by norm_num) (by norm_num) (by norm_num)
  have h2 : f32_round ((15938355 / 8388608) - (11744051 / 16777216) : ℚ)
      = f32.fin (5033165 / 4194304) :=
    (f32_round_tie ((15938355 / 8388608) - (11744051 / 16777216)) (1 / 8388608) 0 10066329
      (by norm_num) (by norm_num) (by norm_num) (by norm_num) (by norm_num)
      (by norm_num)).trans (by norm_num)
  have h3 : f32_round (1 * (5033165 / 4194304) : ℚ) = f32.fin (5033165 / 4194304) :=
    f32_round_pos (1 * (5033165 / 4194304)) (5033165 / 4194304) (1 / 8388608) 0 10066330
      (by norm_num) (by norm_num) (by norm_num) (by norm_num) (by norm_num) (by norm_num)
      (by norm_num) (by norm_num)
  have h4 : f32_round ((11744051 / 16777216) + (5033165 / 4194304) : ℚ)
      = f32.fin (3984589 / 2097152) :=
    (f32_round_tie ((11744051 / 16777216) + (5033165 / 4194304)) (1 / 8388608) 0 15938355
      (by norm_num) (by norm_num) (by norm_num) (by norm_num) (by norm_num)
      (by norm_num)).trans (by norm_num)
  unfold random_float_range
  rw [if_neg hc]
  show (0.7 : f32) + (((g.draws g.pos : ℕ) : f32) / ((32767 : ℕ) : f32)) * (1.9 - 0.7) = _
  rw [hg, f32_lit_0_7, f32_lit_1_9, f32_cast_32767, f32_div_fin _ _ (by norm_num), h1,
    f32_sub_fin, h2, f32_mul_fin, h3, f32_add_fin, h4]

/-- Claim C1 fails on the code.  The comment above `random_float_range` (main.c 99-101)
promises a result in `[min, max]`, but in binary32 the sum `min + 1 * (max - min)` can round
to the number above `max`: with the frequency range `[0.7f, 1.9f]` (`min ≤ max`) and `rand()`
returning `RAND_MAX` (a value in `[0, RAND_MAX]`), `max - min` and then `min + (max - min)`
both lie halfway between two binary32 numbers and round upwards, so that the frequency
which `randomize_oscillators` writes is `3984589 / 2097152 = 1.9000001`, above
`max_freq = 15938355 / 8388608`. -/
theorem randomize_oscillators_above_max :
    ((0.7 : f32) ≤ 1.9 ∧ ∀ k, (const_rng 32767).draws k ≤ 32767) ∧
    ∀ sin exp : f32 → f32,
      ∃ c1, (randomize_oscillators (Env.mk 32767 MA_PI_F sin exp) (const_rng 32767)
          (some { default_context f32 [osc_of f32 0 0 0 0] with
            min_freq := 0.7, max_freq := 1.9 })).2 = some c1 ∧
        c1.max_freq = f32.fin (15938355 / 8388608) ∧
        ∃ osc ∈ c1.oscillators,
          osc.freq = f32.fin (3984589 / 2097152) ∧ ¬ (osc.freq ≤ c1.max_freq) := by
  refine ⟨⟨?_, fun k => le_refl _⟩, ?_⟩
  · rw [f32_lit_0_7, f32_lit_1_9, f32_fin_le]
    norm_num
  · intro sin exp
    rw [randomize_oscillators_some]
    refine ⟨_, rfl, f32_lit_1_9, ?_⟩
    refine ⟨_, List.mem_cons_self _ _, ?_⟩
    have hf := random_float_range_top sin exp (rand (const_rng 32767)).2 rfl
    constructor
    · exact hf
    · show ¬ ((random_float_range (Env.mk 32767 MA_PI_F sin exp) (rand (const_rng 32767)).2
        0.7 1.9).1 ≤ (1.9 : f32))
      rw [hf, f32_lit_1_9, f32_fin_le]
      norm_num

/-! ### NaN in the configuration -/

theorem f32_nan_not_le (x : f32) : ¬ (f32.nan ≤ x) := by
  show ¬ (f32.ble f32.nan x = true)
  simp [f32.ble]

theorem f32_not_lt_nan (x : f32) : ¬ (x < f32.nan) := by
  show ¬ (f32.blt x f32.nan = true)
  cases x <;> simp [f32.blt]

theorem parse_option_duration (S : Scanf f32) (cfg : config_t f32) (rest : List String) :
    parse_option S cfg "-d" rest = opt_duration S cfg rest := by
  unfold parse_option
  rw [if_neg (by decide), if_neg (by decide), if_neg (by decide), if_neg (by decide),
    if_neg (by decide), if_neg (by decide), if_pos (by decide)]

theorem opt_duration_nan (cfg : config_t f32) :
    opt_duration special_scanf cfg ["nan"] = (true, { cfg with duration_sec := f32.nan }, 1) := by
  have hs : special_scanf.scan_f "nan" = some f32.nan := by
    simp [special_scanf]
  simp only [opt_duration, hs]
  rw [if_neg (f32_nan_not_le _)]

theorem parse_args_duration_nan (cfg : config_t f32) :
    parse_args special_scanf cfg ["-d", "nan"] = (true, { cfg with duration_sec := f32.nan }) := by
  rw [parse_args_cons, parse_option_duration, opt_duration_nan]
  simp [parse_args_nil]

/-- Claim C12 fails on the code: `sscanf` with `%f` converts the string `"nan"` to NaN, and
the duration test `f_dummy <= 0` (main.c 370) is false for NaN, as every comparison with NaN
is; so `parse_config` returns success on `-d nan` and leaves `duration_sec = NaN`, which is
not a positive duration. -/
theorem parse_config_accepts_nan :
    parse_config special_scanf ["randau", "-d", "nan"]
      = (true, { default_config f32 with duration_sec := f32.nan }) ∧
    ¬ (0 < (parse_config special_scanf ["randau", "-d", "nan"]).2.duration_sec) ∧
    ¬ config_valid (parse_config special_scanf ["randau", "-d", "nan"]).2 := by
  have h : parse_config special_scanf ["randau", "-d", "nan"]
      = (true, { default_config f32 with duration_sec := f32.nan }) := by
    unfold parse_config
    rw [if_neg (by decide)]
    simp only [List.tail_cons, parse_args_duration_nan]
    simp [default_config]
  rw [h]
  refine ⟨rfl, f32_not_lt_nan _, ?_⟩
  intro hv
  exact f32_not_lt_nan _ hv.2.2.2.1

/-! ### Phase wrap in binary32 -/

theorem f32_lit_2 : (2.0 : f32) = f32.fin 2 :=
  f32_round_pos (2.0 : ℚ) 2 (1 / 4194304) 1 8388608 (by norm_num) (by norm_num)
    (by norm_num) (by norm_num) (by norm_num) (by norm_num) (by norm_num) (by norm_num)

theorem f32_MA_PI : MA_PI_F = f32.fin (13176795 / 4194304) :=
  f32_round_pos (3.14159265358979323846264 : ℚ) (13176795 / 4194304) (1 / 4194304) 1 13176795
    (by norm_num) (by norm_num) (by norm_num) (by norm_num) (by norm_num) (by norm_num)
    (by norm_num) (by norm_num)

/-- The constant `2.0f * MA_PI` of `generate_next_sample`. -/
theorem f32_two_pi : (2.0 : f32) * MA_PI_F = f32.fin (13176795 / 2097152) := by
  rw [f32_lit_2, f32_MA_PI, f32_mul_fin]
  exact f32_round_pos (2 * (13176795 / 4194304)) (13176795 / 2097152) (1 / 2097152) 2 13176795
    (by norm_num) (by norm_num) (by norm_num) (by norm_num) (by norm_num) (by norm_num)
    (by norm_num) (by norm_num)

/-- The phase increment at the frequency 88200 and the sample rate 44100. -/
theorem f32_increment_88200 :
    (2.0 : f32) * MA_PI_F * f32.fin 88200 / ((44100 : ℕ) : f32)
      = f32.fin (6588397 / 524288) := by
  rw [f32_two_pi, f32_cast_44100, f32_mul_fin]
  have h1 : f32_round ((13176795 / 2097152) * 88200) = f32.fin (8866831 / 16) :=
    f32_round_pos ((13176795 / 2097152) * 88200) (8866831 / 16) (1 / 16) 19 8866831
      (by norm_num) (by norm_num) (by norm_num) (by norm_num) (by norm_num) (by norm_num)
      (by norm_num) (by norm_num)
  rw [h1, f32_div_fin _ _ (by norm_num)]
  exact f32_round_pos ((8866831 / 16) / 44100) (6588397 / 524288) (1 / 1048576) 3 13176794
    (by norm_num) (by norm_num) (by norm_num) (by norm_num) (by norm_num) (by norm_num)
    (by norm_num) (by norm_num)

/-- The phase increment at the frequency -440 and the sample rate 44100. -/
theorem f32_increment_neg_440 :
    (2.0 : f32) * MA_PI_F * f32.fin (-440) / ((44100 : ℕ) : f32)
      = f32.fin (-4207013 / 67108864) := by
  rw [f32_two_pi, f32_cast_44100, f32_mul_fin]
  have h1 : f32_round ((13176795 / 2097152) * (-440)) = f32.fin (-353869 / 128) :=
    f32_round_neg ((13176795 / 2097152) * (-440)) (-353869 / 128) (1 / 4096) 11 (-11323808)
      (by norm_num) (by norm_num) (by norm_num) (by norm_num) (by norm_num) (by norm_num)
      (by norm_num) (by norm_num)
  rw [h1, f32_div_fin _ _ (by norm_num)]
  exact f32_round_neg ((-353869 / 128) / 44100) (-4207013 / 67108864) (1 / 134217728) (-4)
    (-8414026) (by norm_num) (by norm_num) (by norm_num) (by norm_num) (by norm_num)
    (by norm_num) (by norm_num) (by norm_num)

theorem advance_phase_88200_first (sin exp : f32 → f32) (c : context_t f32)
    (osc : oscillator_t f32) (hsr : c.sample_rate = 44100) (hf : osc.freq = f32.fin 88200)
    (hp : osc.phase = 0) :
    advance_phase (Env.mk 32767 MA_PI_F sin exp) c osc = f32.fin (13176793 / 2097152) := by
  rw [advance_phase_eq, hsr, hf, hp]
  show (if (0 : f32) + (2.0 : f32) * MA_PI_F * f32.fin 88200 / ((44100 : ℕ) : f32)
      ≥ (2.0 : f32) * MA_PI_F then
      (0 : f32) + (2.0 : f32) * MA_PI_F * f32.fin 88200 / ((44100 : ℕ) : f32)
        - (2.0 : f32) * MA_PI_F
    else (0 : f32) + (2.0 : f32) * MA_PI_F * f32.fin 88200 / ((44100 : ℕ) : f32)) = _
  rw [f32_increment_88200, f32_two_pi, f32_zero, f32_add_fin]
  have h1 : f32_round (0 + (6588397 / 524288)) = f32.fin (6588397 / 524288) :=
    f32_round_pos (0 + (6588397 / 524288)) (6588397 / 524288) (1 / 1048576) 3 13176794
      (by norm_num) (by norm_num) (by norm_num) (by norm_num) (by norm_num) (by norm_num)
      (by norm_num) (by norm_num)
  rw [h1, if_pos ((f32_fin_le _ _).mpr (by norm_num)), f32_sub_fin]
  exact f32_round_pos ((6588397 / 524288) - (13176795 / 2097152)) (13176793 / 2097152)
    (1 / 2097152) 2 13176793 (by norm_num) (by norm_num) (by norm_num) (by norm_num)
    (by norm_num) (by norm_num) (by norm_num) (by norm_num)

theorem advance_phase_88200_second (sin exp : f32 → f32) (c : context_t f32)
    (osc : oscillator_t f32) (hsr : c.sample_rate = 44100) (hf : osc.freq = f32.fin 88200)
    (hp : osc.phase = f32.fin (13176793 / 2097152)) :
    advance_phase (Env.mk 32767 MA_PI_F sin exp) c osc = f32.fin (1647099 / 131072) := by
  rw [advance_phase_eq, hsr, hf, hp]
  show (if f32.fin (13176793 / 2097152)
        + (2.0 : f32) * MA_PI_F * f32.fin 88200 / ((44100 : ℕ) : f32)
      ≥ (2.0 : f32) * MA_PI_F then
      f32.fin (13176793 / 2097152)
        + (2.0 : f32) * MA_PI_F * f32.fin 88200 / ((44100 : ℕ) : f32)
        - (2.0 : f32) * MA_PI_F
    else f32.fin (13176793 / 2097152)
        + (2.0 : f32) * MA_PI_F * f32.fin 88200 / ((44100 : ℕ) : f32)) = _
  rw [f32_increment_88200, f32_two_pi, f32_add_fin]
  have h1 : f32_round ((13176793 / 2097152) + (6588397 / 524288)) = f32.fin (9882595 / 524288) :=
    f32_round_pos ((13176793 / 2097152) + (6588397 / 524288)) (9882595 / 524288) (1 / 524288)
      4 9882595 (by norm_num) (by norm_num) (by norm_num) (by norm_num) (by norm_num)
      (by norm_num) (by norm_num) (by norm_num)
  rw [h1, if_pos ((f32_fin_le _ _).mpr (by norm_num)), f32_sub_fin]
  exact (f32_round_tie ((9882595 / 524288) - (13176795 / 2097152)) (1 / 1048576) 3 13176792
    (by norm_num) (by norm_num) (by norm_num) (by norm_num) (by norm_num)
    (by norm_num)).trans (by norm_num)

theorem advance_phase_neg_440 (sin exp : f32 → f32) (c : context_t f32)
    (osc : oscillator_t f32) (hsr : c.sample_rate = 44100) (hf : osc.freq = f32.fin (-440))
    (hp : osc.phase = 0) :
    advance_phase (Env.mk 32767 MA_PI_F sin exp) c osc = f32.fin (-4207013 / 67108864) := by
  rw [advance_phase_eq, hsr, hf, hp]
  show (if (0 : f32) + (2.0 : f32) * MA_PI_F * f32.fin (-440) / ((44100 : ℕ) : f32)
      ≥ (2.0 : f32) * MA_PI_F then
      (0 : f32) + (2.0 : f32) * MA_PI_F * f32.fin (-440) / ((44100 : ℕ) : f32)
        - (2.0 : f32) * MA_PI_F
    else (0 : f32) + (2.0 : f32) * MA_PI_F * f32.fin (-440) / ((44100 : ℕ) : f32)) = _
  rw [f32_increment_neg_440, f32_two_pi, f32_zero, f32_add_fin]
  have h1 : f32_round (0 + (-4207013 / 67108864)) = f32.fin (-4207013 / 67108864) :=
    f32_round_neg (0 + (-4207013 / 67108864)) (-4207013 / 67108864) (1 / 134217728) (-4)
      (-8414026) (by norm_num) (by norm_num) (by norm_num) (by norm_num) (by norm_num)
      (by norm_num) (by norm_num) (by norm_num)
  rw [h1, if_neg (fun h => absurd ((f32_fin_le _ _).mp h) (by norm_num))]

/-! ### Phase wrap with a frequency range that reaches the sample rate -/

/-- A multiple of `2 ^ (-21)` below `8` is a binary32 number. -/
theorem f32_round_grid_small (n : ℕ) (hn : n < 16777216) :
    f32_round ((n : ℚ) / 2097152) = f32.fin ((n : ℚ) / 2097152) := by
  rcases Nat.eq_zero_or_pos n with h0 | hpos
  · subst h0
    simp [f32_round_zero]
  · have hq : (0 : ℚ) < (n : ℚ) / 2097152 := by positivity
    have hn1 : (1 : ℚ) ≤ n := by exact_mod_cast hpos
    have hn2 : (n : ℚ) < 16777216 := by exact_mod_cast hn
    have h1 : (2 : ℚ) ^ (Int.log 2 ((n : ℚ) / 2097152)) ≤ (n : ℚ) / 2097152 :=
      (@Int.zpow_le_iff_le_log ℚ _ _ 2 (by norm_num) _ _ hq).mpr (le_refl _)
    have h2 : (n : ℚ) / 2097152 < (2 : ℚ) ^ (Int.log 2 ((n : ℚ) / 2097152) + 1) :=
      (@Int.lt_zpow_iff_log_lt ℚ _ _ 2 (by norm_num) _ _ hq).mpr (by omega)
    have he2 : Int.log 2 ((n : ℚ) / 2097152) < 3 :=
      (@Int.lt_zpow_iff_log_lt ℚ _ _ 2 (by norm_num) _ _ hq).mp (by
        rw [div_lt_iff₀ (by norm_num)]
        norm_num
        linarith)
    have he1 : -21 ≤ Int.log 2 ((n : ℚ) / 2097152) :=
      (@Int.zpow_le_iff_le_log ℚ _ _ 2 (by norm_num) _ _ hq).mp (by
        rw [le_div_iff₀ (by norm_num)]
        norm_num
        linarith)
    generalize Int.log 2 ((n : ℚ) / 2097152) = e at h1 h2 he1 he2
    have hk : (((2 - e).toNat : ℕ) : ℤ) = 2 - e := Int.toNat_of_nonneg (by omega)
    apply f32_round_exact _ (2 ^ (e - 23)) e ((n : ℤ) * 2 ^ (2 - e).toNat) (by omega)
      (by omega) rfl (by rwa [abs_of_pos hq]) (by rwa [abs_of_pos hq])
    push_cast
    rw [← zpow_natCast (2 : ℚ) (2 - e).toNat, hk, mul_assoc, ← zpow_add₀ (by norm_num)]
    have : (2 - e + (e - 23) : ℤ) = -21 := by ring
    rw [this]
    norm_num
    ring

theorem f32_cast_12582919 : ((12582919 : ℕ) : f32) = f32.fin 12582919 :=
  (f32_natCast 12582919).trans
    (f32_round_pos ((12582919 : ℕ) : ℚ) 12582919 1 23 12582919 (by norm_num) (by norm_num)
      (by norm_num) (by norm_num) (by norm_num) (by norm_num) (by norm_num) (by norm_num))

/-- The phase increment at the frequency 12582920 and the sample rate 12582919: two units
`2 ^ (-21)` more than `2.0f * MA_PI`. -/
theorem f32_increment_top :
    (2.0 : f32) * MA_PI_F * f32.fin 12582920 / ((12582919 : ℕ) : f32)
      = f32.fin (13176797 / 2097152) := by
  rw [f32_two_pi, f32_cast_12582919, f32_mul_fin]
  have h1 : f32_round ((13176795 / 2097152) * 12582920) = f32.fin 79060824 :=
    f32_round_pos ((13176795 / 2097152) * 12582920) 79060824 8 26 9882603 (by norm_num)
      (by norm_num) (by norm_num) (by norm_num) (by norm_num) (by norm_num) (by norm_num)
      (by norm_num)
  rw [h1, f32_div_fin _ _ (by norm_num)]
  exact f32_round_pos (79060824 / 12582919) (13176797 / 2097152) (1 / 2097152) 2 13176797
    (by norm_num) (by norm_num) (by norm_num) (by norm_num) (by norm_num) (by norm_num)
    (by norm_num) (by norm_num)

/-- With `rand()` returning `RAND_MAX`, the range `[4194309.5, 12582919]` yields the
frequency `12582920`: both `max - min` and `min + (max - min)` lie halfway between two
binary32 numbers and round upwards. -/
theorem random_float_range_over (sin exp : f32 → f32) (g : rng_t)
    (hg : g.draws g.pos = 32767) :
    (random_float_range (Env.mk 32767 MA_PI_F sin exp) g (f32.fin (8388619 / 2))
      (f32.fin 12582919)).1 = f32.fin 12582920 := by
  have hc : ¬ (f32.fin (8388619 / 2) ≥ f32.fin 12582919) := by
    show ¬ (f32.fin _ ≤ f32.fin _)
    rw [f32_fin_le]
    norm_num
  have h1 : f32_round (32767 / 32767 : ℚ) = f32.fin 1 :=
    f32_round_pos (32767 / 32767 : ℚ) 1 (1 / 8388608) 0 8388608 (by norm_num) (by norm_num)
      (by norm_num) (by norm_num) (by norm_num) (by norm_num) (by norm_num) (by norm_num)
  have h2 : f32_round (12582919 - (8388619 / 2) : ℚ) = f32.fin 8388610 :=
    (f32_round_tie (12582919 - (8388619 / 2)) 1 23 8388609 (by norm_num) (by norm_num)
      (by norm_num) (by norm_num) (by norm_num) (by norm_num)).trans (by norm_num)
  have h3 : f32_round (1 * 8388610 : ℚ) = f32.fin 8388610 :=
    f32_round_pos (1 * 8388610) 8388610 1 23 8388610 (by norm_num) (by norm_num)
      (by norm_num) (by norm_num) (by norm_num) (by norm_num) (by norm_num) (by norm_num)
  have h4 : f32_round ((8388619 / 2) + 8388610 : ℚ) = f32.fin 12582920 :=
    (f32_round_tie ((8388619 / 2) + 8388610) 1 23 12582919 (by norm_num) (by norm_num)
      (by norm_num) (by norm_num) (by norm_num) (by norm_num)).trans (by norm_num)
  unfold random_float_range
  rw [if_neg hc]
  show f32.fin (8388619 / 2) + (((g.draws g.pos : ℕ) : f32) / ((32767 : ℕ) : f32))
    * (f32.fin 12582919 - f32.fin (8388619 / 2)) = _
  rw [hg, f32_cast_32767, f32_div_fin _ _ (by norm_num), h1, f32_sub_fin, h2, f32_mul_fin, h3,
    f32_add_fin, h4]

/-- While `phase + increment` stays below `8`, every sum and difference of the advance is a
binary32 number, and the phase grows by two units. -/
theorem advance_phase_top_low (sin exp : f32 → f32) (c : context_t f32)
    (osc : oscillator_t f32) (k : ℕ) (hsr : c.sample_rate = 12582919)
    (hf : osc.freq = f32.fin 12582920) (hp : osc.phase = f32.fin ((k : ℕ) / 2097152))
    (hk : k + 13176797 < 16777216) :
    advance_phase (Env.mk 32767 MA_PI_F sin exp) c osc
      = f32.fin (((k + 2 : ℕ) : ℚ) / 2097152) := by
  rw [advance_phase_eq, hsr, hf, hp]
  show (if f32.fin ((k : ℕ) / 2097152)
        + (2.0 : f32) * MA_PI_F * f32.fin 12582920 / ((12582919 : ℕ) : f32)
      ≥ (2.0 : f32) * MA_PI_F then
      f32.fin ((k : ℕ) / 2097152)
        + (2.0 : f32) * MA_PI_F * f32.fin 12582920 / ((12582919 : ℕ) : f32)
        - (2.0 : f32) * MA_PI_F
    else f32.fin ((k : ℕ) / 2097152)
        + (2.0 : f32) * MA_PI_F * f32.fin 12582920 / ((12582919 : ℕ) : f32)) = _
  rw [f32_increment_top, f32_two_pi, f32_add_fin]
  have hk0 : (0 : ℚ) ≤ (k : ℚ) := Nat.cast_nonneg k
  have hk1 : (k : ℚ) + 13176797 < 16777216 := by exact_mod_cast hk
  have hpos : (0 : ℚ) < (k : ℚ) / 2097152 + 13176797 / 2097152 := by positivity
  have h1 : f32_round ((k : ℚ) / 2097152 + 13176797 / 2097152)
      = f32.fin ((k : ℚ) / 2097152 + 13176797 / 2097152) :=
    f32_round_exact _ (1 / 2097152) 2 ((k : ℤ) + 13176797) (by norm_num) (by norm_num)
      (by norm_num)
      (by rw [abs_of_pos hpos]; norm_num; linarith)
      (by rw [abs_of_pos hpos]; norm_num; linarith)
      (by push_cast; ring)
  rw [h1, if_pos ((f32_fin_le _ _).mpr (by linarith)), f32_sub_fin]
  have h2 : (k : ℚ) / 2097152 + 13176797 / 2097152 - 13176795 / 2097152
      = ((k + 2 : ℕ) : ℚ) / 2097152 := by
    push_cast
    ring
  rw [h2]
  exact f32_round_grid_small (k + 2) (by omega)

/-- The advance at the phase `3600420 * 2 ^ (-21)`: the sum `8 + 2 ^ (-21)` lies halfway
between two binary32 numbers and rounds down to `8`, so the phase grows by one unit. -/
theorem advance_phase_top_tie (sin exp : f32 → f32) (c : context_t f32)
    (osc : oscillator_t f32) (hsr : c.sample_rate = 12582919)
    (hf : osc.freq = f32.fin 12582920)
    (hp : osc.phase = f32.fin ((3600420 : ℕ) / 2097152)) :
    advance_phase (Env.mk 32767 MA_PI_F sin exp) c osc
      = f32.fin ((3600421 : ℕ) / 2097152) := by
  rw [advance_phase_eq, hsr, hf, hp]
  show (if f32.fin ((3600420 : ℕ) / 2097152)
        + (2.0 : f32) * MA_PI_F * f32.fin 12582920 / ((12582919 : ℕ) : f32)
      ≥ (2.0 : f32) * MA_PI_F then
      f32.fin ((3600420 : ℕ) / 2097152)
        + (2.0 : f32) * MA_PI_F * f32.fin 12582920 / ((12582919 : ℕ) : f32)
        - (2.0 : f32) * MA_PI_F
    else f32.fin ((3600420 : ℕ) / 2097152)
        + (2.0 : f32) * MA_PI_F * f32.fin 12582920 / ((12582919 : ℕ) : f32)) = _
  rw [f32_increment_top, f32_two_pi, f32_add_fin]
  have h1 : f32_round (((3600420 : ℕ) : ℚ) / 2097152 + 13176797 / 2097152) = f32.fin 8 :=
    (f32_round_tie ((3600420 : ℕ) / 2097152 + 13176797 / 2097152) (1 / 1048576) 3 8388608
      (by norm_num) (by norm_num) (by norm_num) (by norm_num) (by norm_num)
      (by norm_num)).trans (by norm_num)
  rw [h1, if_pos ((f32_fin_le _ _).mpr (by norm_num)), f32_sub_fin]
  have h2 : (8 : ℚ) - 13176795 / 2097152 = ((3600421 : ℕ) : ℚ) / 2097152 := by norm_num
  rw [h2]
  exact f32_round_grid_small 3600421 (by norm_num)

/-- From an odd multiple of `2 ^ (-21)` on, with `phase + increment` in `[8, 16)`, every sum
and difference of the advance is a binary32 number again, and the phase grows by two
units. -/
theorem advance_phase_top_high (sin exp : f32 → f32) (c : context_t f32)
    (osc : oscillator_t f32) (j : ℕ) (hsr : c.sample_rate = 12582919)
    (hf : osc.freq = f32.fin 12582920)
    (hp : osc.phase = f32.fin (((2 * j + 1 : ℕ) : ℚ) / 2097152))
    (hj1 : 1800209 ≤ j) (hj2 : j ≤ 6588396) :
    advance_phase (Env.mk 32767 MA_PI_F sin exp) c osc
      = f32.fin (((2 * j + 3 : ℕ) : ℚ) / 2097152) := by
  rw [advance_phase_eq, hsr, hf, hp]
  show (if f32.fin (((2 * j + 1 : ℕ) : ℚ) / 2097152)
        + (2.0 : f32) * MA_PI_F * f32.fin 12582920 / ((12582919 : ℕ) : f32)
      ≥ (2.0 : f32) * MA_PI_F then
      f32.fin (((2 * j + 1 : ℕ) : ℚ) / 2097152)
        + (2.0 : f32) * MA_PI_F * f32.fin 12582920 / ((12582919 : ℕ) : f32)
        - (2.0 : f32) * MA_PI_F
    else f32.fin (((2 * j + 1 : ℕ) : ℚ) / 2097152)
        + (2.0 : f32) * MA_PI_F * f32.fin 12582920 / ((12582919 : ℕ) : f32)) = _
  rw [f32_increment_top, f32_two_pi, f32_add_fin]
  have hj0 : (1800209 : ℚ) ≤ (j : ℚ) := by exact_mod_cast hj1
  have hj3 : (j : ℚ) ≤ 6588396 := by exact_mod_cast hj2
  have hpos : (0 : ℚ) < ((2 * j + 1 : ℕ) : ℚ) / 2097152 + 13176797 / 2097152 := by positivity
  have h1 : f32_round (((2 * j + 1 : ℕ) : ℚ) / 2097152 + 13176797 / 2097152)
      = f32.fin (((2 * j + 1 : ℕ) : ℚ) / 2097152 + 13176797 / 2097152) :=
    f32_round_exact _ (1 / 1048576) 3 ((j : ℤ) + 6588399) (by norm_num) (by norm_num)
      (by norm_num)
      (by rw [abs_of_pos hpos]; push_cast; norm_num; linarith)
      (by rw [abs_of_pos hpos]; push_cast; norm_num; linarith)
      (by push_cast; ring)
  rw [h1, if_pos ((f32_fin_le _ _).mpr (by push_cast; linarith)), f32_sub_fin]
  have h2 : ((2 * j + 1 : ℕ) : ℚ) / 2097152 + 13176797 / 2097152 - 13176795 / 2097152
      = ((2 * j + 3 : ℕ) : ℚ) / 2097152 := by
    push_cast
    ring
  rw [h2]
  exact f32_round_grid_small (2 * j + 3) (by omega)

/-- The phases of a bank at the frequency `12582920` and the sample rate `12582919`, started
at `0`: `2 * k` units `2 ^ (-21)` after `k ≤ 1800210` calls of `generate_next_sample`, and
`2 * k - 1` units after `1800211 ≤ k ≤ 6588398` calls, which for `k = 6588398` is the value
`13176795 * 2 ^ (-21)` of `2.0f * MA_PI`. -/
theorem generate_times_top (sin exp : f32 → f32) (g : rng_t) (c : context_t f32)
    (hsr : c.sample_rate = 12582919)
    (h : ∀ osc ∈ c.oscillators, osc.freq = f32.fin 12582920 ∧ osc.phase = 0) :
    ∃ c1, (generate_times (Env.mk 32767 MA_PI_F sin exp) 6588398 (g, some c)).2 = some c1 ∧
      c1.oscillators.length = c.oscillators.length ∧
      ∀ osc ∈ c1.oscillators, osc.phase = f32.fin (13176795 / 2097152) := by
  obtain ⟨c1, h1, h2, h3⟩ := generate_times_indexed (Env.mk 32767 MA_PI_F sin exp) 12582919
    (fun k o => o.freq = f32.fin 12582920 ∧
      (k ≤ 1800210 → o.phase = f32.fin (((2 * k : ℕ) : ℚ) / 2097152)) ∧
      (1800211 ≤ k → k ≤ 6588398 → o.phase = f32.fin (((2 * k - 1 : ℕ) : ℚ) / 2097152)))
    (by
      intro k c2 osc hc2 ⟨hf, ha, hb⟩
      refine ⟨hf, ?_, ?_⟩
      · intro hk
        have e : 2 * (k + 1) = 2 * k + 2 := by omega
        rw [e]
        exact advance_phase_top_low sin exp c2 osc (2 * k) hc2 hf (ha (by omega)) (by omega)
      · intro hk1 hk2
        rcases Nat.eq_or_lt_of_le hk1 with hk | hk
        · have e1 : k = 1800210 := by omega
          subst e1
          exact advance_phase_top_tie sin exp c2 osc hc2 hf (ha (le_refl _))
        · have e1 : 2 * k - 1 = 2 * (k - 1) + 1 := by omega
          have e2 : 2 * (k + 1) - 1 = 2 * (k - 1) + 3 := by omega
          have hp := hb (by omega) (by omega)
          rw [e1] at hp
          rw [e2]
          exact advance_phase_top_high sin exp c2 osc (k - 1) hc2 hf hp (by omega) (by omega))
    6588398 0 g c hsr
    (by
      intro osc hosc
      obtain ⟨hf, hp⟩ := h osc hosc
      refine ⟨hf, fun _ => ?_, fun hk => absurd hk (by norm_num)⟩
      rw [hp]
      show f32.fin 0 = _
      norm_num)
  refine ⟨c1, h1, h2, ?_⟩
  intro osc hosc
  have hp := (h3 osc hosc).2.2 (by norm_num) (by norm_num)
  rw [hp]
  norm_num

/-- At the sample rate `12582919` with the frequency range `[4194309.5, 12582919]` and
`rand()` returning `RAND_MAX`, a bank of one oscillator has the phase `2.0f * MA_PI` after
6588398 calls of `generate_next_sample`. -/
theorem phase_top_reaches (sin exp : f32 → f32) (c : context_t f32)
    (hsr : c.sample_rate = 12582919) (hmin : c.min_freq = f32.fin (8388619 / 2))
    (hmax : c.max_freq = f32.fin 12582919) (hlen : c.oscillators.length = 1) :
    ∃ c1, (generate_times (Env.mk 32767 MA_PI_F sin exp) 6588398
        (randomize_oscillators (Env.mk 32767 MA_PI_F sin exp) (const_rng 32767)
          (some c))).2 = some c1 ∧
      ∃ osc ∈ c1.oscillators, osc.phase = f32.fin (13176795 / 2097152) ∧
        ¬ (0 ≤ osc.phase ∧ osc.phase < 2.0 * MA_PI_F) := by
  rw [randomize_oscillators_some]
  obtain ⟨c1, h1, h2, h3⟩ := generate_times_top sin exp
    (randomize_loop (Env.mk 32767 MA_PI_F sin exp) c (const_rng 32767) c.oscillators).2
    { c with oscillators :=
        (randomize_loop (Env.mk 32767 MA_PI_F sin exp) c (const_rng 32767) c.oscillators).1 }
    hsr
    (by
      intro osc hosc
      refine randomize_loop_forall (Env.mk 32767 MA_PI_F sin exp) c
        (fun o => o.freq = f32.fin 12582920 ∧ o.phase = 0) c.oscillators (const_rng 32767) ?_
        osc hosc
      intro g1 hg1 o
      refine ⟨?_, rfl⟩
      show (random_float_range (Env.mk 32767 MA_PI_F sin exp) (rand g1).2 c.min_freq
        c.max_freq).1 = f32.fin 12582920
      rw [hmin, hmax]
      refine random_float_range_over sin exp (rand g1).2 ?_
      show g1.draws _ = 32767
      rw [hg1]
      rfl)
  have hl : c1.oscillators.length = 1 := by
    rw [h2]
    exact (randomize_loop_length _ c c.oscillators (const_rng 32767)).trans hlen
  obtain ⟨o, ho⟩ := List.length_eq_one.mp hl
  refine ⟨c1, h1, o, by rw [ho]; exact List.mem_cons_self _ _, ?_⟩
  have hp := h3 o (by rw [ho]; exact List.mem_cons_self _ _)
  refine ⟨hp, fun h => ?_⟩
  have h4 := h.2
  rw [f32_two_pi, hp, f32_fin_lt] at h4
  exact lt_irrefl _ h4

/-- Claim C3 as stated fails on the code.  With the default sample rate `44100` and the
accepted frequency range `[88200, 88200]` the phase after the first `generate_next_sample`
call is `12.566370 - 6.2831855 = 6.2831845`, and after the second call it is
`18.849554 - 6.2831855 = 12.566368` (exactly `1647099 / 131072`), which is not below
`2 * pi`: a single subtraction is not enough.  With the accepted range `[-440, -440]` the
phase after one call is `-4207013 / 67108864 = -0.0626894`, which is negative: nothing
wraps from below.  And a range that ends at the sample rate is not safe either: with the
sample rate `12582919`, the range `[4194309.5, 12582919]` and `rand()` returning `RAND_MAX`,
`random_float_range` rounds to the frequency `12582920`, the increment is
`2.0f * MA_PI + 2 ^ (-20)`, and after 6588398 calls the phase is exactly `2.0f * MA_PI`
(`13176795 / 2 ^ 21 = 6.2831855`, above `2 * pi`). -/
theorem phase_wrap_counterexample :
    (0 < (44100 : ℕ) ∧ f32.fin 88200 ≤ f32.fin 88200 ∧ f32.fin (-440) ≤ f32.fin (-440) ∧
      (2 : ℝ) * Real.pi ≤ 1647099 / 131072 ∧ (-4207013 / 67108864 : ℚ) < 0 ∧
      0 < (12582919 : ℕ) ∧ (0 : ℚ) ≤ 8388619 / 2 ∧ (8388619 / 2 : ℚ) ≤ 12582919 ∧
      (12582919 : ℚ) ≤ ((12582919 : ℕ) : ℚ) ∧ (∀ k, (const_rng 32767).draws k ≤ 32767) ∧
      (2 : ℝ) * Real.pi ≤ 13176795 / 2097152) ∧
    ∀ sin exp : f32 → f32,
      (∃ c1, (generate_times (Env.mk 32767 MA_PI_F sin exp) 2
          (randomize_oscillators (Env.mk 32767 MA_PI_F sin exp) (const_rng 0)
            (some { default_context f32 [osc_of f32 0 0 0 0] with
              min_freq := f32.fin 88200, max_freq := f32.fin 88200 }))).2 = some c1 ∧
        ∃ osc ∈ c1.oscillators, osc.phase = f32.fin (1647099 / 131072) ∧
          ¬ (0 ≤ osc.phase ∧ osc.phase < 2.0 * MA_PI_F)) ∧
      (∃ c1, (generate_times (Env.mk 32767 MA_PI_F sin exp) 1
          (randomize_oscillators (Env.mk 32767 MA_PI_F sin exp) (const_rng 0)
            (some { default_context f32 [osc_of f32 0 0 0 0] with
              min_freq := f32.fin (-440), max_freq := f32.fin (-440) }))).2 = some c1 ∧
        ∃ osc ∈ c1.oscillators, osc.phase = f32.fin (-4207013 / 67108864) ∧
          ¬ (0 ≤ osc.phase ∧ osc.phase < 2.0 * MA_PI_F)) ∧
      (∃ c1, (generate_times (Env.mk 32767 MA_PI_F sin exp) 6588398
          (randomize_oscillators (Env.mk 32767 MA_PI_F sin exp) (const_rng 32767)
            (some { default_context f32 [osc_of f32 0 0 0 0] with
              sample_rate := 12582919,
              min_freq := f32.fin (8388619 / 2),
              max_freq := f32.fin 12582919 }))).2 = some c1 ∧
        ∃ osc ∈ c1.oscillators, osc.phase = f32.fin (13176795 / 2097152) ∧
          ¬ (0 ≤ osc.phase ∧ osc.phase < 2.0 * MA_PI_F)) := by
  refine ⟨⟨by norm_num, (f32_fin_le _ _).mpr (le_refl _), (f32_fin_le _ _).mpr (le_refl _),
    ?_, by norm_num, by norm_num, by norm_num, by norm_num, by norm_num,
    fun k => le_refl _, ?_⟩, ?_⟩
  · have := Real.pi_lt_d2
    linarith
  · have := Real.pi_lt_d20
    have h : (2 : ℝ) * 3.14159265358979323847 ≤ 13176795 / 2097152 := by norm_num
    linarith
  · intro sin exp
    refine ⟨?_, ?_, phase_top_reaches sin exp _ rfl rfl rfl rfl⟩
    · rw [randomize_oscillators_some, generate_times_succ_ctx, generate_times_succ_ctx]
      refine ⟨_, rfl, _, List.mem_cons_self _ _, ?_⟩
      have hf : (random_float_range (Env.mk 32767 MA_PI_F sin exp) (rand (const_rng 0)).2
          (f32.fin 88200) (f32.fin 88200)).1 = f32.fin 88200 := by
        rw [random_float_range_of_ge _ _ _ _ ((f32_fin_le _ _).mpr (le_refl _))]
      have key : ∀ p : f32, p = f32.fin (1647099 / 131072) →
          (p = f32.fin (1647099 / 131072) ∧ ¬ (0 ≤ p ∧ p < 2.0 * MA_PI_F)) := by
        intro p hp
        refine ⟨hp, fun h => ?_⟩
        have h3 := h.2
        rw [f32_two_pi, hp, f32_fin_lt] at h3
        norm_num at h3
      exact key _ (advance_phase_88200_second sin exp _ _ rfl hf
        (advance_phase_88200_first sin exp _ _ rfl hf rfl))
    · rw [randomize_oscillators_some, generate_times_succ_ctx]
      refine ⟨_, rfl, _, List.mem_cons_self _ _, ?_⟩
      have hf : (random_float_range (Env.mk 32767 MA_PI_F sin exp) (rand (const_rng 0)).2
          (f32.fin (-440)) (f32.fin (-440))).1 = f32.fin (-440) := by
        rw [random_float_range_of_ge _ _ _ _ ((f32_fin_le _ _).mpr (le_refl _))]
      have key : ∀ p : f32, p = f32.fin (-4207013 / 67108864) →
          (p = f32.fin (-4207013 / 67108864) ∧ ¬ (0 ≤ p ∧ p < 2.0 * MA_PI_F)) := by
        intro p hp
        refine ⟨hp, fun h => ?_⟩
        have h3 := h.1
        rw [hp, f32_zero, f32_fin_le] at h3
        norm_num at h3
      exact key _ (advance_phase_neg_440 sin exp _ _ rfl hf rfl)

/-! ### Phase wrap below the sample rate, in binary32 -/

/-- In binary32 `random_float_range` stays close to its range: for `0 ≤ min ≤ max` with
`max` at most `0.999 * S`, the result is finite, not negative and at most `0.9995 * S`. -/
theorem random_float_range_bound (sin exp : f32 → f32) (RM : ℕ) (g : rng_t) (a b S : ℚ)
    (hRM : 0 < RM) (hRM2 : RM < 2 ^ 32) (hr : g.draws g.pos ≤ RM)
    (h0 : 0 ≤ a) (hab : a ≤ b) (hb : 1000 * b ≤ 999 * S) (hS1 : 1 ≤ S) (hS2 : S ≤ 2 ^ 32) :
    ∃ f, (random_float_range (Env.mk RM MA_PI_F sin exp) g (f32.fin a) (f32.fin b)).1
        = f32.fin f ∧ 0 ≤ f ∧ f ≤ 9995 / 10000 * S := by
  unfold random_float_range
  by_cases hge : f32.fin a ≥ f32.fin b
  · rw [if_pos hge]
    exact ⟨a, rfl, h0, by linarith⟩
  · rw [if_neg hge]
    clear hge
    show ∃ f, f32.fin a + ((g.draws g.pos : ℕ) : f32) / ((RM : ℕ) : f32)
      * (f32.fin b - f32.fin a) = f32.fin f ∧ _
    have hdel : (0 : ℚ) < 1 / 2 ^ 150 := by positivity
    have hdel2 : (1 : ℚ) / 2 ^ 150 ≤ 1 / 1000000 := by norm_num
    have hrq : ((g.draws g.pos : ℕ) : ℚ) ≤ RM := by exact_mod_cast hr
    have hRMq : (1 : ℚ) ≤ RM := by exact_mod_cast hRM
    have hRMq2 : (RM : ℚ) ≤ 2 ^ 32 := by exact_mod_cast hRM2.le
    have h64 : (2 : ℚ) ^ 32 ≤ 2 ^ 64 := by norm_num
    obtain ⟨x1, e1, x10, x1u, _⟩ := f32_round_bound (g.draws g.pos : ℚ) (Nat.cast_nonneg _)
      (by linarith)
    obtain ⟨m, e2, m0, _, ml⟩ := f32_round_bound (RM : ℚ) (by linarith) (by linarith)
    have hmpos : 0 < m := by linarith
    rw [f32_natCast, e1, f32_natCast, e2, f32_div_fin _ _ hmpos.ne']
    have hq : x1 / m ≤ 100001 / 100000 := by
      rw [div_le_iff₀ hmpos]
      linarith
    obtain ⟨ρ, e3, ρ0, ρu, _⟩ := f32_round_bound (x1 / m) (div_nonneg x10 hmpos.le)
      (by
        have : (100001 : ℚ) / 100000 ≤ 2 ^ 64 := by norm_num
        linarith)
    have hρ : ρ ≤ 100002 / 100000 := by linarith
    have hba : 0 ≤ b - a := by linarith
    have hS64 : (2 : ℚ) ^ 32 ≤ 2 ^ 64 := by norm_num
    obtain ⟨d, e4, d0, du, _⟩ := f32_round_bound (b - a) hba (by linarith)
    rw [e3, f32_sub_fin, e4, f32_mul_fin]
    have hρd : ρ * d ≤ 100002 / 100000 * d := mul_le_mul_of_nonneg_right hρ d0
    have h33 : (2 : ℚ) ^ 32 * 2 ≤ 2 ^ 64 := by norm_num
    obtain ⟨pr, e5, pr0, pru, _⟩ := f32_round_bound (ρ * d) (mul_nonneg ρ0 d0) (by linarith)
    rw [e5, f32_add_fin]
    obtain ⟨f, e6, f0, fu, _⟩ := f32_round_bound (a + pr) (by linarith) (by linarith)
    exact ⟨f, e6, f0, by linarith⟩

/-- A value `f32_nearest q` for `4 ≤ q < 8` is an integer multiple of `2 ^ (-21)`. -/
theorem f32_nearest_grid (q : ℚ) (h1 : 4 ≤ q) (h2 : q < 8) :
    ∃ n : ℤ, f32_nearest q = n / 2097152 := by
  have hq0 : 0 < q := by linarith
  have hu : f32_quantum q = 2 ^ ((2 : ℤ) - 23) :=
    f32_quantum_eq q 2 (by norm_num) (by rw [abs_of_pos hq0]; norm_num; linarith)
      (by rw [abs_of_pos hq0]; norm_num; linarith)
  refine ⟨round_half_even (q / f32_quantum q), ?_⟩
  unfold f32_nearest
  rw [hu]
  norm_num
  ring

/-- One phase advance of `generate_next_sample` in binary32 keeps the phase in
`[0, 13176794 / 2 ^ 21]`, the binary32 numbers below `2.0f * MA_PI`, when the frequency is
at most `0.9995` times the sample rate. -/
theorem advance_phase_bound (sin exp : f32 → f32) (RM : ℕ) (c : context_t f32)
    (osc : oscillator_t f32) (p f : ℚ) (hsr : 0 < c.sample_rate)
    (hsr2 : c.sample_rate < 2 ^ 32) (hp : osc.phase = f32.fin p) (hf : osc.freq = f32.fin f)
    (hp0 : 0 ≤ p) (hp1 : p ≤ 13176794 / 2097152) (hf0 : 0 ≤ f)
    (hf1 : f ≤ 9995 / 10000 * (c.sample_rate : ℚ)) :
    ∃ p1, advance_phase (Env.mk RM MA_PI_F sin exp) c osc = f32.fin p1 ∧ 0 ≤ p1 ∧
      p1 ≤ 13176794 / 2097152 := by
  have hdel : (0 : ℚ) < 1 / 2 ^ 150 := by positivity
  have hdel2 : (1 : ℚ) / 2 ^ 150 ≤ 1 / 1000000 := by norm_num
  have hN1 : (1 : ℚ) ≤ (c.sample_rate : ℚ) := by exact_mod_cast hsr
  have hN2 : (c.sample_rate : ℚ) ≤ 2 ^ 32 := by exact_mod_cast hsr2.le
  have h64 : (2 : ℚ) ^ 32 * 8 ≤ 2 ^ 64 := by norm_num
  rw [advance_phase_eq, hp, hf]
  show ∃ p1, (if f32.fin p + (2.0 : f32) * MA_PI_F * f32.fin f / ((c.sample_rate : ℕ) : f32)
      ≥ (2.0 : f32) * MA_PI_F then
      f32.fin p + (2.0 : f32) * MA_PI_F * f32.fin f / ((c.sample_rate : ℕ) : f32)
        - (2.0 : f32) * MA_PI_F
    else f32.fin p + (2.0 : f32) * MA_PI_F * f32.fin f / ((c.sample_rate : ℕ) : f32))
      = f32.fin p1 ∧ _
  rw [f32_two_pi, f32_mul_fin, f32_natCast]
  obtain ⟨m1, e1, m10, m1u, _⟩ := f32_round_bound (13176795 / 2097152 * f)
    (mul_nonneg (by norm_num) hf0) (by linarith)
  obtain ⟨s, e2, s0, _, sl⟩ := f32_round_bound (c.sample_rate : ℚ) (by linarith)
    (by linarith)
  have hspos : 0 < s := by linarith
  rw [e1, e2, f32_div_fin _ _ hspos.ne']
  have hq : m1 / s ≤ 6281 / 1000 := by
    rw [div_le_iff₀ hspos]
    linarith
  obtain ⟨inc, e3, inc0, incu, _⟩ := f32_round_bound (m1 / s) (div_nonneg m10 hspos.le)
    (by
      have : (6281 : ℚ) / 1000 ≤ 2 ^ 64 := by norm_num
      linarith)
  rw [e3, f32_add_fin]
  have h10 : (13 : ℚ) ≤ 2 ^ 64 := by norm_num
  obtain ⟨s1, e4, s10, s1u, s1l⟩ := f32_round_bound (p + inc) (by linarith) (by linarith)
  rw [e4]
  by_cases hw : f32.fin s1 ≥ f32.fin (13176795 / 2097152)
  · rw [if_pos hw, f32_sub_fin]
    have hw2 : (13176795 / 2097152 : ℚ) ≤ s1 := (f32_fin_le _ _).mp hw
    obtain ⟨p1, e5, p10, p1u, _⟩ := f32_round_bound (s1 - 13176795 / 2097152) (by linarith)
      (by linarith)
    exact ⟨p1, e5, p10, by linarith⟩
  · rw [if_neg hw]
    have hw2 : s1 < 13176795 / 2097152 := by
      by_contra hc
      exact hw ((f32_fin_le _ _).mpr (not_lt.mp hc))
    clear hw
    refine ⟨s1, rfl, s10, ?_⟩
    have hs1 : s1 = f32_nearest (p + inc) := by
      have := f32_round_fin (p + inc) (by
        rw [abs_of_nonneg (by linarith)]
        have : (13 : ℚ) < 2 ^ 127 := by norm_num
        linarith)
      rw [e4] at this
      injection this
    by_cases hlow : p + inc < 4
    · linarith
    · obtain ⟨n, hn⟩ := f32_nearest_grid (p + inc) (not_lt.mp hlow) (by
        by_contra hc
        have : (8 : ℚ) ≤ p + inc := not_lt.mp hc
        linarith)
      rw [← hs1] at hn
      rw [hn] at hw2 ⊢
      have hn1 : (n : ℚ) < 13176795 := by
        rw [div_lt_div_iff_of_pos_right (by norm_num)] at hw2
        exact hw2
      have hn2 : n < 13176795 := by exact_mod_cast hn1
      have hn3 : n ≤ 13176794 := by omega
      have hn4 : (n : ℚ) ≤ 13176794 := by exact_mod_cast hn3
      exact div_le_div_of_nonneg_right hn4 (by norm_num)

/-- Claim C3, amended: in the binary32 arithmetic of the code (with the constant `MA_PI` of
miniaudio, `rand()` in `[0, RAND_MAX]` and `RAND_MAX`, `sample_rate` in the range of a 32 bit
integer), when `0 ≤ min_freq ≤ max_freq ≤ 0.999 * sample_rate`, then for every bank produced by
`randomize_oscillators` and after any number of `generate_next_sample` calls every
oscillator's phase is a finite value in `[0, 2.0f * MA_PI)`, which is below `2 * pi`. -/
theorem phase_wrap (sin exp : f32 → f32) (RM : ℕ) (g : rng_t) (c : context_t f32) (n : Nat)
    (a b : ℚ) (hrm : 0 < RM) (hrm2 : RM < 2 ^ 32) (hr : ∀ k, g.draws k ≤ RM)
    (hsr : 0 < c.sample_rate) (hsr2 : c.sample_rate < 2 ^ 32)
    (hmin : c.min_freq = f32.fin a) (hmax : c.max_freq = f32.fin b)
    (hf0 : 0 ≤ a) (hf : a ≤ b) (hf1 : 1000 * b ≤ 999 * (c.sample_rate : ℚ)) :
    ∃ c1, (generate_times (Env.mk RM MA_PI_F sin exp) n
        (randomize_oscillators (Env.mk RM MA_PI_F sin exp) g (some c))).2 = some c1 ∧
      c1.oscillators.length = c.oscillators.length ∧
      ∀ osc ∈ c1.oscillators, 0 ≤ osc.phase ∧ osc.phase < 2.0 * MA_PI_F ∧
        ∃ p : ℚ, osc.phase = f32.fin p ∧ (p : ℝ) < 2 * Real.pi := by
  rw [randomize_oscillators_some]
  have hN1 : (1 : ℚ) ≤ (c.sample_rate : ℚ) := by exact_mod_cast hsr
  have hN2 : (c.sample_rate : ℚ) ≤ 2 ^ 32 := by exact_mod_cast hsr2.le
  obtain ⟨c1, h1, h2, h3⟩ := generate_times_forall (Env.mk RM MA_PI_F sin exp) c.sample_rate
    (fun o => ∃ p f : ℚ, o.phase = f32.fin p ∧ o.freq = f32.fin f ∧ 0 ≤ p ∧
      p ≤ 13176794 / 2097152 ∧ 0 ≤ f ∧ f ≤ 9995 / 10000 * (c.sample_rate : ℚ))
    (by
      intro c2 osc hc2 ⟨p, f, e1, e2, b1, b2, b3, b4⟩
      obtain ⟨p1, e3, b5, b6⟩ := advance_phase_bound sin exp RM c2 osc p f
        (by rw [hc2]; exact hsr) (by rw [hc2]; exact hsr2) e1 e2 b1 b2 b3
        (by rw [hc2]; exact b4)
      exact ⟨p1, f, e3, e2, b5, b6, b3, b4⟩)
    n (randomize_loop (Env.mk RM MA_PI_F sin exp) c g c.oscillators).2
    { c with oscillators := (randomize_loop (Env.mk RM MA_PI_F sin exp) c g c.oscillators).1 }
    rfl
    (by
      intro osc hosc
      refine randomize_loop_forall (Env.mk RM MA_PI_F sin exp) c (fun o =>
        ∃ p f : ℚ, o.phase = f32.fin p ∧ o.freq = f32.fin f ∧ 0 ≤ p ∧
          p ≤ 13176794 / 2097152 ∧ 0 ≤ f ∧ f ≤ 9995 / 10000 * (c.sample_rate : ℚ))
        c.oscillators g ?_ osc hosc
      intro g1 hg1 o
      have hr1 : (rand g1).2.draws (rand g1).2.pos ≤ RM := by
        show g1.draws _ ≤ RM
        rw [hg1]
        exact hr _
      obtain ⟨f, e1, b1, b2⟩ := random_float_range_bound sin exp RM (rand g1).2 a b
        (c.sample_rate : ℚ) hrm hrm2 hr1 hf0 hf hf1 hN1 hN2
      refine ⟨0, f, rfl, ?_, le_refl _, by norm_num, b1, b2⟩
      show (random_float_range (Env.mk RM MA_PI_F sin exp) (rand g1).2 c.min_freq
        c.max_freq).1 = f32.fin f
      rw [hmin, hmax]
      exact e1)
  refine ⟨c1, h1, h2.trans (randomize_loop_length _ c c.oscillators g), ?_⟩
  intro osc hosc
  obtain ⟨p, f, e1, _, b1, b2, _, _⟩ := h3 osc hosc
  rw [e1, f32_two_pi]
  refine ⟨(f32_fin_le 0 p).mpr b1, (f32_fin_lt _ _).mpr (by linarith), p, rfl, ?_⟩
  have hpi := Real.pi_gt_d20
  have hp : (p : ℝ) ≤ ((13176794 / 2097152 : ℚ) : ℝ) := Rat.cast_le.mpr b2
  have hq : ((13176794 / 2097152 : ℚ) : ℝ) = 13176794 / 2097152 := by norm_num
  rw [hq] at hp
  have : (13176794 / 2097152 : ℝ) < 2 * 3.14159265358979323846 := by norm_num
  linarith

/-- Witness for claim C3 (amended): the default context (frequencies in `[110, 440]`,
sample rate `44100`), randomized and then advanced by three samples. -/
theorem phase_wrap_witness :
    ((0 : ℚ) ≤ 110 ∧ (110 : ℚ) ≤ 440 ∧ (1000 : ℚ) * 440 ≤ 999 * ((44100 : ℕ) : ℚ)) ∧
    ∃ c1, (generate_times plain_env 3
        (randomize_oscillators plain_env (const_rng 7)
          (some (default_context f32 [osc_of f32 6 1 1 1])))).2 = some c1 ∧
      c1.oscillators.length = 1 ∧
      ∀ osc ∈ c1.oscillators, 0 ≤ osc.phase ∧ osc.phase < 2.0 * MA_PI_F ∧
        ∃ p : ℚ, osc.phase = f32.fin p ∧ (p : ℝ) < 2 * Real.pi :=
  ⟨⟨by norm_num, by norm_num, by norm_num⟩,
   phase_wrap (fun _ => 0) (fun _ => 0) 32767 (const_rng 7)
    (default_context f32 [osc_of f32 6 1 1 1]) 3 110 440 (by norm_num) (by norm_num)
    (by intro k; simp [const_rng]) (by norm_num [default_context])
    (by norm_num [default_context])
    (f32_round_pos (110.0 : ℚ) 110 (1 / 131072) 6 14417920 (by norm_num) (by norm_num)
      (by norm_num) (by norm_num) (by norm_num) (by norm_num) (by norm_num) (by norm_num))
    (f32_round_pos (440.0 : ℚ) 440 (1 / 32768) 8 14417920 (by norm_num) (by norm_num)
      (by norm_num) (by norm_num) (by norm_num) (by norm_num) (by norm_num) (by norm_num))
    (by norm_num) (by norm_num) (by norm_num [default_context])⟩

/-! ### The binary32 clock at the sample rate 44100 -/

/-- Repeated addition of `d` in binary32 while the exact sums stay in one binade
`[2 ^ e, 2 ^ (e + 1))`: every step adds the same multiple `s` of the spacing. -/
theorem f32_add_stretch (d a s u : ℚ) (e n0 c : ℤ) (cnt : ℕ) (he : -126 ≤ e) (he2 : e ≤ 126)
    (hu : u = 2 ^ (e - 23)) (ha : a = n0 * u) (hs : s = c * u)
    (hd1 : s - u / 2 < d) (hd2 : d < s + u / 2) (hs0 : 0 ≤ s)
    (hlo : 2 ^ e ≤ a + d) (hhi : a + ((cnt : ℚ) - 1) * s + d < 2 ^ (e + 1)) :
    ∀ j : ℕ, j ≤ cnt → (fun t : f32 => t + f32.fin d)^[j] (f32.fin a) = f32.fin (a + j * s) := by
  intro j
  induction j with
  | zero =>
    intro _
    simp
  | succ j ih =>
    intro hj
    have hjc : (j : ℚ) ≤ (cnt : ℚ) - 1 := by
      have : ((j + 1 : ℕ) : ℚ) ≤ (cnt : ℚ) := by exact_mod_cast hj
      push_cast at this
      linarith
    have hj0 : (0 : ℚ) ≤ j := Nat.cast_nonneg j
    have hjs : (j : ℚ) * s ≤ ((cnt : ℚ) - 1) * s := mul_le_mul_of_nonneg_right hjc hs0
    have hjs0 : 0 ≤ (j : ℚ) * s := mul_nonneg hj0 hs0
    rw [Function.iterate_succ_apply', ih (by omega)]
    show f32.fin (a + j * s) + f32.fin d = _
    rw [f32_add_fin]
    apply f32_round_pos (a + j * s + d) (a + ((j + 1 : ℕ) : ℚ) * s) u e (n0 + (j + 1) * c)
      he he2 hu
    · linarith
    · linarith
    · rw [ha, hs]; push_cast; ring
    · push_cast; linarith
    · push_cast; linarith

/-- One more stretch of a trajectory from `0` that stays below the bound `B` and is positive
after its start. -/
theorem f32_traj_extend (f : f32 → f32) (K cnt K1 : ℕ) (a s a1 B : ℚ)
    (hprev : ∀ k, k ≤ K → ∃ x, f^[k] (f32.fin 0) = f32.fin x ∧ x < B ∧ (0 < k → 0 < x))
    (hK : f^[K] (f32.fin 0) = f32.fin a)
    (hst : ∀ j : ℕ, j ≤ cnt → f^[j] (f32.fin a) = f32.fin (a + j * s))
    (ha0 : 0 ≤ a) (hs0 : 0 < s) (hK1 : K1 = K + cnt) (ha1 : a1 = a + cnt * s) (hB : a1 < B) :
    (∀ k, k ≤ K1 → ∃ x, f^[k] (f32.fin 0) = f32.fin x ∧ x < B ∧ (0 < k → 0 < x)) ∧
      f^[K1] (f32.fin 0) = f32.fin a1 := by
  have hat : ∀ j : ℕ, j ≤ cnt → f^[K + j] (f32.fin 0) = f32.fin (a + j * s) := by
    intro j hj
    rw [Nat.add_comm, Function.iterate_add_apply, hK, hst j hj]
  constructor
  · intro k hk
    by_cases hkK : k ≤ K
    · exact hprev k hkK
    · obtain ⟨j, rfl⟩ : ∃ j, k = K + j := ⟨k - K, by omega⟩
      have hj : j ≤ cnt := by omega
      have hj1 : 1 ≤ j := by omega
      refine ⟨_, hat j hj, ?_, ?_⟩
      · have h1 : (j : ℚ) ≤ cnt := by exact_mod_cast hj
        have h2 : (j : ℚ) * s ≤ cnt * s := mul_le_mul_of_nonneg_right h1 hs0.le
        linarith
      · intro _
        have h1 : (1 : ℚ) ≤ j := by exact_mod_cast hj1
        have h2 : 1 * s ≤ (j : ℚ) * s := mul_le_mul_of_nonneg_right h1 hs0.le
        linarith
  · rw [hK1, hat cnt (le_refl _), ha1]

/-- One step of a trajectory, evaluated on its own. -/
theorem f32_add_single (d a b : ℚ) (h : f32_round (a + d) = f32.fin b) :
    ∀ j : ℕ, j ≤ 1 → (fun t : f32 => t + f32.fin d)^[j] (f32.fin a)
      = f32.fin (a + j * (b - a)) := by
  intro j hj
  interval_cases j
  · simp
  · show f32.fin a + f32.fin d = _
    rw [f32_add_fin, h]
    norm_num

/-- The value of `global_time` after `k` steps of the binary32 clock from `0` at the sample
rate 44100 (increment `6233059 / 2 ^ 38`): it stays below `1` for all `k ≤ 44122` and is positive for `k > 0`, and its
values after 4410, 4411, 44100 and 44122 steps. -/
theorem clock_44100_run :
    (∀ k, k ≤ 44122 → ∃ x, (fun t : f32 => t + f32.fin (6233059 / 274877906944))^[k] (f32.fin 0) = f32.fin x ∧ x < 1 ∧ (0 < k → 0 < x)) ∧
    (fun t : f32 => t + f32.fin (6233059 / 274877906944))^[4410] (f32.fin 0) = f32.fin (13421007 / 134217728) ∧
    (fun t : f32 => t + f32.fin (6233059 / 274877906944))^[4411] (f32.fin 0) = f32.fin (6712025 / 67108864) ∧
    (fun t : f32 => t + f32.fin (6233059 / 274877906944))^[44100] (f32.fin 0) = f32.fin (16768507 / 16777216) ∧
    (fun t : f32 => t + f32.fin (6233059 / 274877906944))^[44122] (f32.fin 0) = f32.fin (16776867 / 16777216) := by
  have s0 : (∀ k, k ≤ 0 → ∃ x, (fun t : f32 => t + f32.fin (6233059 / 274877906944))^[k] (f32.fin 0) = f32.fin x ∧ x < 1 ∧ (0 < k → 0 < x)) ∧
      (fun t : f32 => t + f32.fin (6233059 / 274877906944))^[0] (f32.fin 0) = f32.fin 0 :=
    ⟨fun k hk => ⟨0, by rw [Nat.le_zero.mp hk]; rfl, by norm_num,
      fun h => absurd h (by omega)⟩, rfl⟩
  have s1 := f32_traj_extend (fun t : f32 => t + f32.fin (6233059 / 274877906944)) 0 1 1 0 (6233059 / 274877906944) (6233059 / 274877906944) 1 s0.1 s0.2
    (f32_add_stretch (6233059 / 274877906944) 0 (6233059 / 274877906944) (1 / 549755813888) (-16) 0 12466118 1
      (by norm_num) (by norm_num) (by norm_num) (by norm_num) (by norm_num) (by norm_num) (by norm_num) (by norm_num) (by norm_num) (by norm_num))
    (by norm_num) (by norm_num) (by norm_num) (by norm_num) (by norm_num)
  have s2 := f32_traj_extend (fun t : f32 => t + f32.fin (6233059 / 274877906944)) 1 1 2 (6233059 / 274877906944) (6233059 / 274877906944) (6233059 / 137438953472) 1 s1.1 s1.2
    (f32_add_stretch (6233059 / 274877906944) (6233059 / 274877906944) (6233059 / 274877906944) (1 / 274877906944) (-15) 6233059 6233059 1
      (by norm_num) (by norm_num) (by norm_num) (by norm_num) (by norm_num) (by norm_num) (by norm_num) (by norm_num) (by norm_num) (by norm_num))
    (by norm_num) (by norm_num) (by norm_num) (by norm_num) (by norm_num)
  have s3 := f32_traj_extend (fun t : f32 => t + f32.fin (6233059 / 274877906944)) 2 1 3 (6233059 / 137438953472) ((2337397 / 34359738368) - (6233059 / 137438953472)) (2337397 / 34359738368) 1 s2.1 s2.2
    (f32_add_single (6233059 / 274877906944) (6233059 / 137438953472) (2337397 / 34359738368)
      ((f32_round_tie ((6233059 / 137438953472) + (6233059 / 274877906944)) (1 / 137438953472) (-14) 9349588 (by norm_num) (by norm_num) (by norm_num) (by norm_num) (by norm_num) (by norm_num)).trans
      (by norm_num)))
    (by norm_num) (by norm_num) (by norm_num) (by norm_num) (by norm_num)
  have s4 := f32_traj_extend (fun t : f32 => t + f32.fin (6233059 / 274877906944)) 3 1 4 (2337397 / 34359738368) ((6233059 / 68719476736) - (2337397 / 34359738368)) (6233059 / 68719476736) 1 s3.1 s3.2
    (f32_add_single (6233059 / 274877906944) (2337397 / 34359738368) (6233059 / 68719476736)
      ((f32_round_tie ((2337397 / 34359738368) + (6233059 / 274877906944)) (1 / 137438953472) (-14) 12466117 (by norm_num) (by norm_num) (by norm_num) (by norm_num) (by norm_num) (by norm_num)).trans
      (by norm_num)))
    (by norm_num) (by norm_num) (by norm_num) (by norm_num) (by norm_num)
  have s5 := f32_traj_extend (fun t : f32 => t + f32.fin (6233059 / 274877906944)) 4 1 5 (6233059 / 68719476736) ((1947831 / 17179869184) - (6233059 / 68719476736)) (1947831 / 17179869184) 1 s4.1 s4.2
    (f32_add_single (6233059 / 274877906944) (6233059 / 68719476736) (1947831 / 17179869184)
      ((f32_round_tie ((6233059 / 68719476736) + (6233059 / 274877906944)) (1 / 137438953472) (-14) 15582647 (by norm_num) (by norm_num) (by norm_num) (by norm_num) (by norm_num) (by norm_num)).trans
      (by norm_num)))
    (by norm_num) (by norm_num) (by norm_num) (by norm_num) (by norm_num)
  have s6 := f32_traj_extend (fun t : f32 => t + f32.fin (6233059 / 274877906944)) 5 5 10 (1947831 / 17179869184) (1558265 / 68719476736) (15582649 / 68719476736) 1 s5.1 s5.2
    (f32_add_stretch (6233059 / 274877906944) (1947831 / 17179869184) (1558265 / 68719476736) (1 / 68719476736) (-13) 7791324 1558265 5
      (by norm_num) (by norm_num) (by norm_num) (by norm_num) (by norm_num) (by norm_num) (by norm_num) (by norm_num) (by norm_num) (by norm_num))
    (by norm_num) (by norm_num) (by norm_num) (by norm_num) (by norm_num)
  have s7 := f32_traj_extend (fun t : f32 => t + f32.fin (6233059 / 274877906944)) 10 1 11 (15582649 / 68719476736) ((8570457 / 34359738368) - (15582649 / 68719476736)) (8570457 / 34359738368) 1 s6.1 s6.2
    (f32_add_single (6233059 / 274877906944) (15582649 / 68719476736) (8570457 / 34359738368)
      (f32_round_pos ((15582649 / 68719476736) + (6233059 / 274877906944)) (8570457 / 34359738368) (1 / 34359738368) (-12) 8570457 (by norm_num) (by norm_num) (by norm_num) (by norm_num) (by norm_num) (by norm_num) (by norm_num) (by norm_num)))
    (by norm_num) (by norm_num) (by norm_num) (by norm_num) (by norm_num)
  have s8 := f32_traj_extend (fun t : f32 => t + f32.fin (6233059 / 274877906944)) 11 10 21 (8570457 / 34359738368) (194783 / 8589934592) (16361777 / 34359738368) 1 s7.1 s7.2
    (f32_add_stretch (6233059 / 274877906944) (8570457 / 34359738368) (194783 / 8589934592) (1 / 34359738368) (-12) 8570457 779132 10
      (by norm_num) (by norm_num) (by norm_num) (by norm_num) (by norm_num) (by norm_num) (by norm_num) (by norm_num) (by norm_num) (by norm_num))
    (by norm_num) (by norm_num) (by norm_num) (by norm_num) (by norm_num)
  have s9 := f32_traj_extend (fun t : f32 => t + f32.fin (6233059 / 274877906944)) 21 1 22 (16361777 / 34359738368) ((8570455 / 17179869184) - (16361777 / 34359738368)) (8570455 / 17179869184) 1 s8.1 s8.2
    (f32_add_single (6233059 / 274877906944) (16361777 / 34359738368) (8570455 / 17179869184)
      (f32_round_pos ((16361777 / 34359738368) + (6233059 / 274877906944)) (8570455 / 17179869184) (1 / 17179869184) (-11) 8570455 (by norm_num) (by norm_num) (by norm_num) (by norm_num) (by norm_num) (by norm_num) (by norm_num) (by norm_num)))
    (by norm_num) (by norm_num) (by norm_num) (by norm_num) (by norm_num)
  have s10 := f32_traj_extend (fun t : f32 => t + f32.fin (6233059 / 274877906944)) 22 21 43 (8570455 / 17179869184) (194783 / 8589934592) (16751341 / 17179869184) 1 s9.1 s9.2
    (f32_add_stretch (6233059 / 274877906944) (8570455 / 17179869184) (194783 / 8589934592) (1 / 17179869184) (-11) 8570455 389566 21
      (by norm_num) (by norm_num) (by norm_num) (by norm_num) (by norm_num) (by norm_num) (by norm_num) (by norm_num) (by norm_num) (by norm_num))
    (by norm_num) (by norm_num) (by norm_num) (by norm_num) (by norm_num)
  have s11 := f32_traj_extend (fun t : f32 => t + f32.fin (6233059 / 274877906944)) 43 1 44 (16751341 / 17179869184) ((4285227 / 4294967296) - (16751341 / 17179869184)) (4285227 / 4294967296) 1 s10.1 s10.2
    (f32_add_single (6233059 / 274877906944) (16751341 / 17179869184) (4285227 / 4294967296)
      (f32_round_pos ((16751341 / 17179869184) + (6233059 / 274877906944)) (4285227 / 4294967296) (1 / 8589934592) (-10) 8570454 (by norm_num) (by norm_num) (by norm_num) (by norm_num) (by norm_num) (by norm_num) (by norm_num) (by norm_num)))
    (by norm_num) (by norm_num) (by norm_num) (by norm_num) (by norm_num)
  have s12 := f32_traj_extend (fun t : f32 => t + f32.fin (6233059 / 274877906944)) 44 42 86 (4285227 / 4294967296) (194783 / 8589934592) (4187835 / 2147483648) 1 s11.1 s11.2
    (f32_add_stretch (6233059 / 274877906944) (4285227 / 4294967296) (194783 / 8589934592) (1 / 8589934592) (-10) 8570454 194783 42
      (by norm_num) (by norm_num) (by norm_num) (by norm_num) (by norm_num) (by norm_num) (by norm_num) (by norm_num) (by norm_num) (by norm_num))
    (by norm_num) (by norm_num) (by norm_num) (by norm_num) (by norm_num)
  have s13 := f32_traj_extend (fun t : f32 => t + f32.fin (6233059 / 274877906944)) 86 86 172 (4187835 / 2147483648) (6087 / 268435456) (8375691 / 2147483648) 1 s12.1 s12.2
    (f32_add_stretch (6233059 / 274877906944) (4187835 / 2147483648) (6087 / 268435456) (1 / 4294967296) (-9) 8375670 97392 86
      (by norm_num) (by norm_num) (by norm_num) (by norm_num) (by norm_num) (by norm_num) (by norm_num) (by norm_num) (by norm_num) (by norm_num))
    (by norm_num) (by norm_num) (by norm_num) (by norm_num) (by norm_num)
  have s14 := f32_traj_extend (fun t : f32 => t + f32.fin (6233059 / 274877906944)) 172 172 344 (8375691 / 2147483648) (6087 / 268435456) (16751403 / 2147483648) 1 s13.1 s13.2
    (f32_add_stretch (6233059 / 274877906944) (8375691 / 2147483648) (6087 / 268435456) (1 / 2147483648) (-8) 8375691 48696 172
      (by norm_num) (by norm_num) (by norm_num) (by norm_num) (by norm_num) (by norm_num) (by norm_num) (by norm_num) (by norm_num) (by norm_num))
    (by norm_num) (by norm_num) (by norm_num) (by norm_num) (by norm_num)
  have s15 := f32_traj_extend (fun t : f32 => t + f32.fin (6233059 / 274877906944)) 344 1 345 (16751403 / 2147483648) ((8400049 / 1073741824) - (16751403 / 2147483648)) (8400049 / 1073741824) 1 s14.1 s14.2
    (f32_add_single (6233059 / 274877906944) (16751403 / 2147483648) (8400049 / 1073741824)
      (f32_round_pos ((16751403 / 2147483648) + (6233059 / 274877906944)) (8400049 / 1073741824) (1 / 1073741824) (-7) 8400049 (by norm_num) (by norm_num) (by norm_num) (by norm_num) (by norm_num) (by norm_num) (by norm_num) (by norm_num)))
    (by norm_num) (by norm_num) (by norm_num) (by norm_num) (by norm_num)
  have s16 := f32_traj_extend (fun t : f32 => t + f32.fin (6233059 / 274877906944)) 345 344 689 (8400049 / 1073741824) (6087 / 268435456) (16775761 / 1073741824) 1 s15.1 s15.2
    (f32_add_stretch (6233059 / 274877906944) (8400049 / 1073741824) (6087 / 268435456) (1 / 1073741824) (-7) 8400049 24348 344
      (by norm_num) (by norm_num) (by norm_num) (by norm_num) (by norm_num) (by norm_num) (by norm_num) (by norm_num) (by norm_num) (by norm_num))
    (by norm_num) (by norm_num) (by norm_num) (by norm_num) (by norm_num)
  have s17 := f32_traj_extend (fun t : f32 => t + f32.fin (6233059 / 274877906944)) 689 1 690 (16775761 / 1073741824) ((4200027 / 268435456) - (16775761 / 1073741824)) (4200027 / 268435456) 1 s16.1 s16.2
    (f32_add_single (6233059 / 274877906944) (16775761 / 1073741824) (4200027 / 268435456)
      (f32_round_pos ((16775761 / 1073741824) + (6233059 / 274877906944)) (4200027 / 268435456) (1 / 536870912) (-6) 8400054 (by norm_num) (by norm_num) (by norm_num) (by norm_num) (by norm_num) (by norm_num) (by norm_num) (by norm_num)))
    (by norm_num) (by norm_num) (by norm_num) (by norm_num) (by norm_num)
  have s18 := f32_traj_extend (fun t : f32 => t + f32.fin (6233059 / 274877906944)) 690 688 1378 (4200027 / 268435456) (6087 / 268435456) (8387883 / 268435456) 1 s17.1 s17.2
    (f32_add_stretch (6233059 / 274877906944) (4200027 / 268435456) (6087 / 268435456) (1 / 536870912) (-6) 8400054 12174 688
      (by norm_num) (by norm_num) (by norm_num) (by norm_num) (by norm_num) (by norm_num) (by norm_num) (by norm_num) (by norm_num) (by norm_num))
    (by norm_num) (by norm_num) (by norm_num) (by norm_num) (by norm_num)
  have s19 := f32_traj_extend (fun t : f32 => t + f32.fin (6233059 / 274877906944)) 1378 1378 2756 (8387883 / 268435456) (6087 / 268435456) (16775769 / 268435456) 1 s18.1 s18.2
    (f32_add_stretch (6233059 / 274877906944) (8387883 / 268435456) (6087 / 268435456) (1 / 268435456) (-5) 8387883 6087 1378
      (by norm_num) (by norm_num) (by norm_num) (by norm_num) (by norm_num) (by norm_num) (by norm_num) (by norm_num) (by norm_num) (by norm_num))
    (by norm_num) (by norm_num) (by norm_num) (by norm_num) (by norm_num)
  have s20 := f32_traj_extend (fun t : f32 => t + f32.fin (6233059 / 274877906944)) 2756 1 2757 (16775769 / 268435456) ((524433 / 8388608) - (16775769 / 268435456)) (524433 / 8388608) 1 s19.1 s19.2
    (f32_add_single (6233059 / 274877906944) (16775769 / 268435456) (524433 / 8388608)
      (f32_round_pos ((16775769 / 268435456) + (6233059 / 274877906944)) (524433 / 8388608) (1 / 134217728) (-4) 8390928 (by norm_num) (by norm_num) (by norm_num) (by norm_num) (by norm_num) (by norm_num) (by norm_num) (by norm_num)))
    (by norm_num) (by norm_num) (by norm_num) (by norm_num) (by norm_num)
  have s21 := f32_traj_extend (fun t : f32 => t + f32.fin (6233059 / 274877906944)) 2757 1653 4410 (524433 / 8388608) (3043 / 134217728) (13421007 / 134217728) 1 s20.1 s20.2
    (f32_add_stretch (6233059 / 274877906944) (524433 / 8388608) (3043 / 134217728) (1 / 134217728) (-4) 8390928 3043 1653
      (by norm_num) (by norm_num) (by norm_num) (by norm_num) (by norm_num) (by norm_num) (by norm_num) (by norm_num) (by norm_num) (by norm_num))
    (by norm_num) (by norm_num) (by norm_num) (by norm_num) (by norm_num)
  have s22 := f32_traj_extend (fun t : f32 => t + f32.fin (6233059 / 274877906944)) 4410 1 4411 (13421007 / 134217728) (3043 / 134217728) (6712025 / 67108864) 1 s21.1 s21.2
    (f32_add_stretch (6233059 / 274877906944) (13421007 / 134217728) (3043 / 134217728) (1 / 134217728) (-4) 13421007 3043 1
      (by norm_num) (by norm_num) (by norm_num) (by norm_num) (by norm_num) (by norm_num) (by norm_num) (by norm_num) (by norm_num) (by norm_num))
    (by norm_num) (by norm_num) (by norm_num) (by norm_num) (by norm_num)
  have s23 := f32_traj_extend (fun t : f32 => t + f32.fin (6233059 / 274877906944)) 4411 1101 5512 (6712025 / 67108864) (3043 / 134217728) (16774393 / 134217728) 1 s22.1 s22.2
    (f32_add_stretch (6233059 / 274877906944) (6712025 / 67108864) (3043 / 134217728) (1 / 134217728) (-4) 13424050 3043 1101
      (by norm_num) (by norm_num) (by norm_num) (by norm_num) (by norm_num) (by norm_num) (by norm_num) (by norm_num) (by norm_num) (by norm_num))
    (by norm_num) (by norm_num) (by norm_num) (by norm_num) (by norm_num)
  have s24 := f32_traj_extend (fun t : f32 => t + f32.fin (6233059 / 274877906944)) 5512 1 5513 (16774393 / 134217728) ((4194359 / 33554432) - (16774393 / 134217728)) (4194359 / 33554432) 1 s23.1 s23.2
    (f32_add_single (6233059 / 274877906944) (16774393 / 134217728) (4194359 / 33554432)
      (f32_round_pos ((16774393 / 134217728) + (6233059 / 274877906944)) (4194359 / 33554432) (1 / 67108864) (-3) 8388718 (by norm_num) (by norm_num) (by norm_num) (by norm_num) (by norm_num) (by norm_num) (by norm_num) (by norm_num)))
    (by norm_num) (by norm_num) (by norm_num) (by norm_num) (by norm_num)
  have s25 := f32_traj_extend (fun t : f32 => t + f32.fin (6233059 / 274877906944)) 5513 5511 11024 (4194359 / 33554432) (761 / 33554432) (4194115 / 16777216) 1 s24.1 s24.2
    (f32_add_stretch (6233059 / 274877906944) (4194359 / 33554432) (761 / 33554432) (1 / 67108864) (-3) 8388718 1522 5511
      (by norm_num) (by norm_num) (by norm_num) (by norm_num) (by norm_num) (by norm_num) (by norm_num) (by norm_num) (by norm_num) (by norm_num))
    (by norm_num) (by norm_num) (by norm_num) (by norm_num) (by norm_num)
  have s26 := f32_traj_extend (fun t : f32 => t + f32.fin (6233059 / 274877906944)) 11024 11023 22047 (4194115 / 16777216) (761 / 33554432) (16776733 / 33554432) 1 s25.1 s25.2
    (f32_add_stretch (6233059 / 274877906944) (4194115 / 16777216) (761 / 33554432) (1 / 33554432) (-2) 8388230 761 11023
      (by norm_num) (by norm_num) (by norm_num) (by norm_num) (by norm_num) (by norm_num) (by norm_num) (by norm_num) (by norm_num) (by norm_num))
    (by norm_num) (by norm_num) (by norm_num) (by norm_num) (by norm_num)
  have s27 := f32_traj_extend (fun t : f32 => t + f32.fin (6233059 / 274877906944)) 22047 1 22048 (16776733 / 33554432) ((8388747 / 16777216) - (16776733 / 33554432)) (8388747 / 16777216) 1 s26.1 s26.2
    (f32_add_single (6233059 / 274877906944) (16776733 / 33554432) (8388747 / 16777216)
      (f32_round_pos ((16776733 / 33554432) + (6233059 / 274877906944)) (8388747 / 16777216) (1 / 16777216) (-1) 8388747 (by norm_num) (by norm_num) (by norm_num) (by norm_num) (by norm_num) (by norm_num) (by norm_num) (by norm_num)))
    (by norm_num) (by norm_num) (by norm_num) (by norm_num) (by norm_num)
  have s28 := f32_traj_extend (fun t : f32 => t + f32.fin (6233059 / 274877906944)) 22048 22052 44100 (8388747 / 16777216) (95 / 4194304) (16768507 / 16777216) 1 s27.1 s27.2
    (f32_add_stretch (6233059 / 274877906944) (8388747 / 16777216) (95 / 4194304) (1 / 16777216) (-1) 8388747 380 22052
      (by norm_num) (by norm_num) (by norm_num) (by norm_num) (by norm_num) (by norm_num) (by norm_num) (by norm_num) (by norm_num) (by norm_num))
    (by norm_num) (by norm_num) (by norm_num) (by norm_num) (by norm_num)
  have s29 := f32_traj_extend (fun t : f32 => t + f32.fin (6233059 / 274877906944)) 44100 22 44122 (16768507 / 16777216) (95 / 4194304) (16776867 / 16777216) 1 s28.1 s28.2
    (f32_add_stretch (6233059 / 274877906944) (16768507 / 16777216) (95 / 4194304) (1 / 16777216) (-1) 16768507 380 22
      (by norm_num) (by norm_num) (by norm_num) (by norm_num) (by norm_num) (by norm_num) (by norm_num) (by norm_num) (by norm_num) (by norm_num))
    (by norm_num) (by norm_num) (by norm_num) (by norm_num) (by norm_num)
  exact ⟨s29.1, s21.2, s22.2, s28.2, s29.2⟩

/-- The 44123rd step of the binary32 clock reaches `8388624 / 2 ^ 23 = 1.0000019`. -/
theorem clock_44100_last :
    f32.fin (16776867 / 16777216) + f32.fin (6233059 / 274877906944) = f32.fin (524289 / 524288) :=
  (f32_add_fin _ _).trans
    (f32_round_pos ((16776867 / 16777216) + (6233059 / 274877906944)) (524289 / 524288) (1 / 8388608) 0 8388624 (by norm_num) (by norm_num) (by norm_num) (by norm_num) (by norm_num) (by norm_num) (by norm_num) (by norm_num))

/-- The driver run of a context with the sample rate 44100, `duration_sec = 1.0f` and
`global_time = 0` over `n ≤ 44122` steps in binary32: no boundary falls. -/
theorem driver_run_44100 (E : Env f32) (g : rng_t) (c : context_t f32)
    (hsr : c.sample_rate = 44100) (hd : c.duration_sec = 1.0) (h0 : c.global_time = 0)
    (n : ℕ) (hn : n ≤ 44122) :
    ∃ g1 bank x, (driver_run E n (g, some c)).2 =
        (g1, some { c with oscillators := bank, global_time := f32.fin x }) ∧
      (fun t : f32 => t + f32.fin (6233059 / 274877906944))^[n] (f32.fin 0) = f32.fin x ∧
      (driver_run E n (g, some c)).1.map Prod.snd = List.replicate n false ∧
      bank.map (fun o => (o.freq, o.amp, o.bps, o.type))
        = c.oscillators.map (fun o => (o.freq, o.amp, o.bps, o.type)) ∧
      x < 1 ∧ (0 < n → 0 < x) := by
  have hstep : (fun t : f32 => t + 1.0 / ((c.sample_rate : ℕ) : f32))
      = (fun t : f32 => t + f32.fin (6233059 / 274877906944)) := by
    rw [hsr, f32_increment_44100]
  have hgt : c.global_time = f32.fin 0 := h0
  obtain ⟨g1, bank, e1, e2, e3⟩ := driver_run_clock E n g c (by
    intro k hk
    rw [hstep, hgt, hd, f32_lit_one]
    obtain ⟨x, hx, hlt, _⟩ := clock_44100_run.1 (k + 1) (by omega)
    rw [hx]
    intro h
    have := (f32_fin_le _ _).mp h
    linarith)
  obtain ⟨x, hx, hlt, hpos⟩ := clock_44100_run.1 n hn
  rw [hstep, hgt, hx] at e1
  exact ⟨g1, bank, x, e1, hx, e2, e3, hlt, hpos⟩

theorem f32_round_one : f32_round 1 = f32.fin 1 :=
  f32_round_pos 1 1 (1 / 8388608) 0 8388608 (by norm_num) (by norm_num) (by norm_num)
    (by norm_num) (by norm_num) (by norm_num) (by norm_num) (by norm_num)

theorem f32_fin_mul_comm (a b : ℚ) : f32.fin a * f32.fin b = f32.fin b * f32.fin a := by
  rw [f32_mul_fin, f32_mul_fin, mul_comm]

/-- The mixed sum of a single Flat oscillator with amplitude `1` at master volume `1` is the
value of `sin` at the advanced phase, when that value is a finite binary32 number. -/
theorem mix_loop_flat_f32 (E : Env f32) (g : rng_t) (c : context_t f32)
    (osc : oscillator_t f32) (w : ℚ) (hosc : c.oscillators = [osc])
    (ht : osc.type = OSCILLATOR_TYPE_FLAT) (ha : osc.amp = 1) (hmv : c.master_volume = 1)
    (hw : E.sin (advance_phase E c osc) = f32.fin w) (hrep : f32_round w = f32.fin w) :
    (mix_loop E c g 0.0 c.oscillators).2.2 = f32.fin w := by
  rw [hosc]
  show (0.0 : f32) + c.master_volume * osc.amp *
    (generate_wave E g (some c) (advance_phase E c osc) osc.bps osc.type).1 = _
  have hg : (generate_wave E g (some c) (advance_phase E c osc) osc.bps osc.type).1
      = E.sin (advance_phase E c osc) := by
    rw [ht]
    rfl
  rw [hg, hw, hmv, ha, f32_lit_zero, f32_zero, f32_one, f32_mul_fin, mul_one, f32_round_one,
    f32_mul_fin, one_mul, hrep, f32_add_fin, zero_add, hrep]

theorem generate_next_sample_flat_f32 (E : Env f32) (g : rng_t) (c : context_t f32)
    (osc : oscillator_t f32) (w : ℚ) (hosc : c.oscillators = [osc])
    (ht : osc.type = OSCILLATOR_TYPE_FLAT) (ha : osc.amp = 1) (hmv : c.master_volume = 1)
    (hw : E.sin (advance_phase E c osc) = f32.fin w) (hrep : f32_round w = f32.fin w) :
    (generate_next_sample E g (some c)).1
      = f32.fin w * click_envelope c.global_time c.duration_sec * 0.15 := by
  rw [generate_next_sample_fst, mix_loop_flat_f32 E g c osc w hosc ht ha hmv hw hrep]

/-- Between `0.1f` and `1.0f - 0.1f` both factors of the click envelope are `1.0f`. -/
theorem click_envelope_mid_f32 (t : ℚ) (h1 : 13421773 / 134217728 ≤ t)
    (h2 : t ≤ 7549747 / 8388608) : click_envelope (f32.fin t) (1.0 : f32) = f32.fin 1 := by
  unfold click_envelope
  rw [f32_lit_0_1, f32_lit_10, f32_lit_one]
  rw [if_neg (fun h => absurd ((f32_fin_lt _ _).mp h) (not_lt.mpr h1))]
  rw [f32_sub_fin]
  have hq0 : (0 : ℚ) ≤ 1 - t := by linarith
  have hq1 : (2 : ℚ) ^ (-126 : ℤ) ≤ 1 - t := by
    have h3 : (2 : ℚ) ^ (-126 : ℤ) ≤ 838861 / 8388608 := by norm_num
    exact le_trans h3 (by linarith)
  have hfin : f32_round (1 - t) = f32.fin (f32_nearest (1 - t)) := by
    apply f32_round_fin
    rw [abs_of_nonneg hq0]
    have : (1 : ℚ) < 2 ^ 127 := by norm_num
    linarith
  have hge := f32_nearest_ge (1 - t) hq0 hq1
  have hnl : ¬ (f32_nearest (1 - t) < 13421773 / 134217728) := by
    rw [not_lt]
    have h3 : (13421773 / 134217728 : ℚ) ≤ 838861 / 8388608 * (1 - 2 ^ (-24 : ℤ)) := by
      norm_num
    have h4 : (838861 / 8388608 : ℚ) * (1 - 2 ^ (-24 : ℤ)) ≤ (1 - t) * (1 - 2 ^ (-24 : ℤ)) := by
      apply mul_le_mul_of_nonneg_right _ (by norm_num)
      linarith
    exact h3.trans (h4.trans hge)
  rw [hfin, if_neg (fun h => hnl ((f32_fin_lt _ _).mp h)), f32_mul_fin, mul_one, f32_round_one]

theorem f32_one_sub_0_1 : (1.0 : f32) - 0.1 = f32.fin (7549747 / 8388608) := by
  rw [f32_lit_one, f32_lit_0_1, f32_sub_fin]
  exact f32_round_pos (1 - (13421773 / 134217728)) (7549747 / 8388608) (1 / 16777216) (-1)
    15099494 (by norm_num) (by norm_num) (by norm_num) (by norm_num) (by norm_num)
    (by norm_num) (by norm_num) (by norm_num)

/-- The conditions `0.1f ≤ global_time` and `global_time ≤ 1.0f - 0.1f` on a binary32 value. -/
theorem f32_mid_range (x : f32) (h1 : (0.1 : f32) ≤ x) (h2 : x ≤ (1.0 : f32) - 0.1) :
    ∃ t : ℚ, x = f32.fin t ∧ 13421773 / 134217728 ≤ t ∧ t ≤ 7549747 / 8388608 := by
  rw [f32_one_sub_0_1] at h2
  rw [f32_lit_0_1] at h1
  cases x with
  | fin t => exact ⟨t, rfl, (f32_fin_le _ _).mp h1, (f32_fin_le _ _).mp h2⟩
  | inf s =>
    exfalso
    have a1 : f32.ble (f32.fin (13421773 / 134217728)) (f32.inf s) = true := h1
    have a2 : f32.ble (f32.inf s) (f32.fin (7549747 / 8388608)) = true := h2
    simp [f32.ble] at a1 a2
    rw [a2] at a1
    exact Bool.noConfusion a1
  | nan =>
    exfalso
    have a2 : f32.ble f32.nan (f32.fin (7549747 / 8388608)) = true := h2
    simp [f32.ble] at a2

theorem f32_one_not_le_zero : ¬ ((1.0 : f32) ≤ 0) := by
  rw [f32_lit_one, f32_zero, f32_fin_le]
  norm_num

/-- A bank that agrees with a one-cell bank in everything but the phases. -/
theorem bank_of_attrs (bank : List (oscillator_t f32)) (osc : oscillator_t f32)
    (h : bank.map (fun o => (o.freq, o.amp, o.bps, o.type))
      = [osc].map (fun o => (o.freq, o.amp, o.bps, o.type))) :
    ∃ o1, bank = [o1] ∧ o1.freq = osc.freq ∧ o1.amp = osc.amp ∧ o1.type = osc.type := by
  have hl : bank.length = 1 := by
    have := congrArg List.length h
    simpa using this
  obtain ⟨o1, rfl⟩ := List.length_eq_one.mp hl
  simp only [List.map_cons, List.map_nil, List.cons.injEq, Prod.mk.injEq, and_true] at h
  exact ⟨o1, rfl, h.1, h.2.1, h.2.2.2⟩

/-- Three roundings cannot undo the factor of the onset ramp: for a binary32 number `w` with
`2 ^ (-100) ≤ |w| ≤ 1` the product `(w * env) * 0.15f` with `env = 16776259 / 2 ^ 24` is
smaller in magnitude than `0.15f * w`. -/
theorem ramp_product_ne (w : ℚ) (h1 : 2 ^ (-100 : ℤ) ≤ |w|) (h2 : |w| ≤ 1) :
    f32.fin w * f32.fin (16776259 / 16777216) * f32.fin (5033165 / 33554432)
      ≠ f32.fin (5033165 / 33554432) * f32.fin w := by
  have hw0 : 0 < |w| := lt_of_lt_of_le (by positivity) h1
  -- first product
  have ha : |w * (16776259 / 16777216)| = |w| * (16776259 / 16777216) := by
    rw [abs_mul, abs_of_pos (by norm_num : (0 : ℚ) < 16776259 / 16777216)]
  have ha1 : (2 : ℚ) ^ (-126 : ℤ) ≤ |w * (16776259 / 16777216)| := by
    rw [ha]
    have e1 : (2 : ℚ) ^ (-126 : ℤ) ≤ 2 ^ (-100 : ℤ) * (16776259 / 16777216) := by norm_num
    exact le_trans e1 (mul_le_mul_of_nonneg_right h1 (by norm_num))
  have ha2 : |w * (16776259 / 16777216)| < 2 ^ 127 := by
    rw [ha]
    have : (1 : ℚ) < 2 ^ 127 := by norm_num
    nlinarith
  have hA := f32_round_fin _ ha2
  have hAu := f32_nearest_abs_le _ ha1
  have hAl := f32_nearest_abs_ge _ ha1
  rw [ha] at hAu hAl
  -- second product
  have hb : |f32_nearest (w * (16776259 / 16777216)) * (5033165 / 33554432)|
      = |f32_nearest (w * (16776259 / 16777216))| * (5033165 / 33554432) := by
    rw [abs_mul, abs_of_pos (by norm_num : (0 : ℚ) < 5033165 / 33554432)]
  have hb1 : (2 : ℚ) ^ (-126 : ℤ)
      ≤ |f32_nearest (w * (16776259 / 16777216)) * (5033165 / 33554432)| := by
    rw [hb]
    have e1 : (2 : ℚ) ^ (-126 : ℤ) ≤ 2 ^ (-100 : ℤ) * (16776259 / 16777216)
        * (1 - 2 ^ (-24 : ℤ)) * (5033165 / 33554432) := by norm_num
    refine le_trans e1 (mul_le_mul_of_nonneg_right (le_trans ?_ hAl) (by norm_num))
    exact mul_le_mul_of_nonneg_right (mul_le_mul_of_nonneg_right h1 (by norm_num))
      (by norm_num)
  have hb2 : |f32_nearest (w * (16776259 / 16777216)) * (5033165 / 33554432)| < 2 ^ 127 := by
    rw [hb]
    have e1 : |w| * (16776259 / 16777216) * (1 + 2 ^ (-24 : ℤ)) ≤ 2 := by
      have e2 : (16776259 / 16777216 : ℚ) * (1 + 2 ^ (-24 : ℤ)) ≤ 2 := by norm_num
      have e3 : (0 : ℚ) ≤ 16776259 / 16777216 * (1 + 2 ^ (-24 : ℤ)) := by norm_num
      calc |w| * (16776259 / 16777216) * (1 + 2 ^ (-24 : ℤ))
          = |w| * (16776259 / 16777216 * (1 + 2 ^ (-24 : ℤ))) := by ring
        _ ≤ 1 * (16776259 / 16777216 * (1 + 2 ^ (-24 : ℤ))) :=
            mul_le_mul_of_nonneg_right h2 e3
        _ ≤ 2 := by rw [one_mul]; exact e2
    have e4 : |f32_nearest (w * (16776259 / 16777216))| * (5033165 / 33554432)
        ≤ 2 * (5033165 / 33554432) :=
      mul_le_mul_of_nonneg_right (le_trans hAu e1) (by norm_num)
    have e5 : (2 : ℚ) * (5033165 / 33554432) < 2 ^ 127 := by norm_num
    exact lt_of_le_of_lt e4 e5
  have hB := f32_round_fin _ hb2
  have hBu := f32_nearest_abs_le _ hb1
  rw [hb] at hBu
  -- the product of the claim
  have hc : |5033165 / 33554432 * w| = 5033165 / 33554432 * |w| := by
    rw [abs_mul, abs_of_pos (by norm_num : (0 : ℚ) < 5033165 / 33554432)]
  have hc1 : (2 : ℚ) ^ (-126 : ℤ) ≤ |5033165 / 33554432 * w| := by
    rw [hc]
    have e1 : (2 : ℚ) ^ (-126 : ℤ) ≤ 5033165 / 33554432 * 2 ^ (-100 : ℤ) := by norm_num
    exact le_trans e1 (mul_le_mul_of_nonneg_left h1 (by norm_num))
  have hc2 : |5033165 / 33554432 * w| < 2 ^ 127 := by
    rw [hc]
    have : (1 : ℚ) < 2 ^ 127 := by norm_num
    nlinarith
  have hC := f32_round_fin _ hc2
  have hCl := f32_nearest_abs_ge _ hc1
  rw [hc] at hCl
  rw [f32_mul_fin, hA, f32_mul_fin, hB, f32_mul_fin, hC]
  intro heq
  injection heq with heq
  have hlt : |f32_nearest (f32_nearest (w * (16776259 / 16777216)) * (5033165 / 33554432))|
      < |f32_nearest (5033165 / 33554432 * w)| := by
    have e1 : |f32_nearest (f32_nearest (w * (16776259 / 16777216)) * (5033165 / 33554432))|
        ≤ |w| * ((16776259 / 16777216) * (1 + 2 ^ (-24 : ℤ)) * (5033165 / 33554432)
          * (1 + 2 ^ (-24 : ℤ))) := by
      refine le_trans hBu ?_
      have e2 : |f32_nearest (w * (16776259 / 16777216))| * (5033165 / 33554432)
          * (1 + 2 ^ (-24 : ℤ))
          ≤ |w| * (16776259 / 16777216) * (1 + 2 ^ (-24 : ℤ)) * (5033165 / 33554432)
            * (1 + 2 ^ (-24 : ℤ)) :=
        mul_le_mul_of_nonneg_right (mul_le_mul_of_nonneg_right hAu (by norm_num))
          (by norm_num)
      refine le_trans e2 (le_of_eq ?_)
      ring
    have e3 : (16776259 / 16777216 : ℚ) * (1 + 2 ^ (-24 : ℤ)) * (5033165 / 33554432)
        * (1 + 2 ^ (-24 : ℤ)) < 5033165 / 33554432 * (1 - 2 ^ (-24 : ℤ)) := by norm_num
    have e4 : |w| * ((16776259 / 16777216) * (1 + 2 ^ (-24 : ℤ)) * (5033165 / 33554432)
        * (1 + 2 ^ (-24 : ℤ))) < |w| * (5033165 / 33554432 * (1 - 2 ^ (-24 : ℤ))) :=
      mul_lt_mul_of_pos_left e3 hw0
    have e5 : |w| * (5033165 / 33554432 * (1 - 2 ^ (-24 : ℤ)))
        = 5033165 / 33554432 * |w| * (1 - 2 ^ (-24 : ℤ)) := by ring
    exact lt_of_le_of_lt e1 (lt_of_lt_of_le e4 (le_trans (le_of_eq e5) hCl))
  rw [heq] at hlt
  exact lt_irrefl _ hlt

/-- The click envelope at the binary32 clock value of sample index 4410. -/
theorem click_envelope_4410 :
    click_envelope (f32.fin (13421007 / 134217728)) (1.0 : f32)
      = f32.fin (16776259 / 16777216) := by
  unfold click_envelope
  rw [f32_lit_0_1, f32_lit_10, f32_lit_one]
  rw [if_pos ((f32_fin_lt _ _).mpr (by norm_num)), f32_mul_fin, f32_sub_fin]
  have h1 : f32_round ((13421007 / 134217728) * 10) = f32.fin (16776259 / 16777216) :=
    f32_round_pos ((13421007 / 134217728) * 10) (16776259 / 16777216) (1 / 16777216) (-1)
      16776259 (by norm_num) (by norm_num) (by norm_num) (by norm_num) (by norm_num)
      (by norm_num) (by norm_num) (by norm_num)
  have h2 : f32_round (1 - (13421007 / 134217728)) = f32.fin (7549795 / 8388608) :=
    f32_round_pos (1 - (13421007 / 134217728)) (7549795 / 8388608) (1 / 16777216) (-1)
      15099590 (by norm_num) (by norm_num) (by norm_num) (by norm_num) (by norm_num)
      (by norm_num) (by norm_num) (by norm_num)
  rw [h1, h2, if_neg (fun h => absurd ((f32_fin_lt _ _).mp h) (by norm_num)), f32_mul_fin]
  exact f32_round_pos ((16776259 / 16777216) * 1) (16776259 / 16777216) (1 / 16777216) (-1)
    16776259 (by norm_num) (by norm_num) (by norm_num) (by norm_num) (by norm_num)
    (by norm_num) (by norm_num) (by norm_num)

end Binary32

end Randau
